import Mathlib

/-!
StockMaster: the inventory ledger engine

A shallow embedding of `controllers/transactionController.js` together with the two
Mongoose models it drives (`models/Transaction.js`, `models/Stock.js`), of the forecaster
`utils/demandForecast.js`, and of `deleteProduct` in `controllers/productController.js`.

Modelling conventions.

* A collection is a list of documents in insertion order.  `findOne` / `findById`
  return the first document that matches, and an update rewrites that same document.
* An `ObjectId` is a natural number.  An `undefined` warehouse reference is `none`;
  the store compares it like any other value.
* In the sections on the ledger and on the forecaster a JavaScript `Number` holding a
  quantity is a whole number (`Int`) and a quotient is an exact rational; the statements
  proved there put in whole quantities.  The sections on JavaScript numbers model the
  double arithmetic of the source and embed `completeTransaction`, `forecastDemand` and
  the slope of `linearRegression` over it, for the statements that depend on rounding.
* `Date.now()` and `Math.floor(Math.random() * 1000)` are inputs of the operation
  that reads them.
* Controllers return the response handed to `res.json` / `next` together with the
  store as they leave it.
* A store operation succeeds, except an insert that meets the unique index on
  `reference`.  The notification emitted after a completion is not part of the state.
-/

namespace StockMaster

abbrev ObjectId := Nat

/-- The `type` enum of `transactionSchema`. -/
inductive TransactionType where
  | receipt
  | delivery
  | transfer
  | adjustment
  deriving DecidableEq, Repr

/-- The `status` enum of `transactionSchema`. -/
inductive Status where
  | draft
  | waiting
  | ready
  | completed
  | cancelled
  deriving DecidableEq, Repr

/-- A document of `stockSchema`: one record per (product, warehouse). -/
structure Stock where
  product : ObjectId
  warehouse : Option ObjectId
  quantity : Int
  reservedQuantity : Int
  deriving DecidableEq, Repr

/-- A line of a transaction, `transactionItemSchema`. -/
structure TransactionItem where
  product : ObjectId
  quantity : Int
  unitPrice : Option Int
  deriving DecidableEq, Repr

/-- The generated reference: the three parts joined by dashes in the source,
the first being the upper-cased first three letters of the type. -/
structure Reference where
  tag : TransactionType
  timestamp : Nat
  random : Nat
  deriving DecidableEq, Repr

/-- A document of `transactionSchema`. -/
structure Transaction where
  id : ObjectId
  type : TransactionType
  reference : Reference
  status : Status
  fromWarehouse : Option ObjectId
  toWarehouse : Option ObjectId
  supplier : Option String
  customer : Option String
  items : List TransactionItem
  notes : Option String
  createdBy : ObjectId
  completedAt : Option Nat
  deriving DecidableEq, Repr

/-- The errors a controller hands to `next`: one constructor per
`new ErrorResponse(...)` site, plus the two errors Mongoose raises from
`Transaction.create`. -/
inductive ErrorResponse where
  | transactionNotFound
  | alreadyCompleted
  | cannotCompleteCancelled
  | cannotCancelCompleted
  | insufficientStock (available requested : Int)
  | insufficientStockTransfer (available requested : Int)
  | validationError
  | duplicateKey
  deriving DecidableEq, Repr

/-- The HTTP status given to `new ErrorResponse(message, statusCode)`;
Mongoose errors carry none. -/
def ErrorResponse.statusCode : ErrorResponse → Option Nat
  | .transactionNotFound => some 404
  | .alreadyCompleted => some 400
  | .cannotCompleteCancelled => some 400
  | .cannotCancelCompleted => some 400
  | .insufficientStock _ _ => some 400
  | .insufficientStockTransfer _ _ => some 400
  | .validationError => none
  | .duplicateKey => none

/-- The two collections the controller touches. -/
structure State where
  transactions : List Transaction
  stocks : List Stock
  deriving DecidableEq, Repr

/-! ## The store -/

/-- `Stock.findOne({ product, warehouse })`. -/
def findOne (stocks : List Stock) (product : ObjectId) (warehouse : Option ObjectId) :
    Option Stock :=
  stocks.find? (fun s => decide (s.product = product ∧ s.warehouse = warehouse))

/-- `Stock.findOneAndUpdate({ product, warehouse }, { $inc: { quantity } }, { upsert: true })`:
the matching record gets the increment; when there is none a record is inserted
whose quantity is the increment and whose other fields take their defaults.
No validator runs on this path. -/
def findOneAndUpdate : List Stock → ObjectId → Option ObjectId → Int → List Stock
  | [], product, warehouse, inc =>
    [{ product := product, warehouse := warehouse, quantity := inc, reservedQuantity := 0 }]
  | s :: rest, product, warehouse, inc =>
    if s.product = product ∧ s.warehouse = warehouse then
      { s with quantity := s.quantity + inc } :: rest
    else
      s :: findOneAndUpdate rest product warehouse inc

/-- `Transaction.findById(id)`. -/
def findById (transactions : List Transaction) (id : ObjectId) : Option Transaction :=
  transactions.find? (fun t => decide (t.id = id))

/-- `transaction.save()` on a document that was read from the store. -/
def save : List Transaction → Transaction → List Transaction
  | [], _ => []
  | x :: rest, t => if x.id = t.id then t :: rest else x :: save rest t

/-- A fresh `_id` for an inserted document. -/
def freshId (transactions : List Transaction) : ObjectId :=
  (transactions.map (fun t => t.id)).foldr max 0 + 1

/-- The validators of `transactionItemSchema`: `quantity` has `min: 1`,
`unitPrice` has `min: 0` when given. -/
def validItem (item : TransactionItem) : Bool :=
  decide (1 ≤ item.quantity) &&
    (match item.unitPrice with
     | none => true
     | some price => decide (0 ≤ price))

/-- Document validation of `transactionSchema`: only the item lines carry
validators that an input of this shape can fail. -/
def validate (items : List TransactionItem) : Bool :=
  items.all validItem

/-- `Transaction.create(doc)`: validate, run the `pre('save')` hook that builds the
reference, insert under the unique index on `reference`. -/
def create (transactions : List Transaction) (now random : Nat)
    (type : TransactionType) (fromWarehouse toWarehouse : Option ObjectId)
    (supplier customer : Option String) (items : List TransactionItem)
    (notes : Option String) (createdBy : ObjectId) :
    Except ErrorResponse Transaction × List Transaction :=
  if validate items then
    let reference : Reference := { tag := type, timestamp := now, random := random }
    if transactions.any (fun t => decide (t.reference = reference)) then
      (.error .duplicateKey, transactions)
    else
      let transaction : Transaction :=
        { id := freshId transactions, type := type, reference := reference,
          status := .draft, fromWarehouse := fromWarehouse, toWarehouse := toWarehouse,
          supplier := supplier, customer := customer, items := items, notes := notes,
          createdBy := createdBy, completedAt := none }
      (.ok transaction, transactions ++ [transaction])
  else
    (.error .validationError, transactions)

/-! ## Request bodies -/

structure ReceiptBody where
  toWarehouse : Option ObjectId
  supplier : Option String
  items : List TransactionItem
  notes : Option String
  deriving DecidableEq, Repr

structure DeliveryBody where
  fromWarehouse : Option ObjectId
  customer : Option String
  items : List TransactionItem
  notes : Option String
  deriving DecidableEq, Repr

structure TransferBody where
  fromWarehouse : Option ObjectId
  toWarehouse : Option ObjectId
  items : List TransactionItem
  notes : Option String
  deriving DecidableEq, Repr

structure AdjustmentBody where
  warehouse : Option ObjectId
  items : List TransactionItem
  notes : Option String
  reason : Option String
  deriving DecidableEq, Repr

/-! ## Controllers -/

/-- `createReceipt`. -/
def createReceipt (s : State) (now random : Nat) (user : ObjectId) (body : ReceiptBody) :
    Except ErrorResponse Transaction × State :=
  let r := create s.transactions now random .receipt none body.toWarehouse
    body.supplier none body.items body.notes user
  (r.1, { s with transactions := r.2 })

/-- The availability loop of `createDelivery`: the first line whose quantity exceeds
`stock.quantity - stock.reservedQuantity` (0 without a record) ends the request. -/
def checkDelivery (stocks : List Stock) (fromWarehouse : Option ObjectId) :
    List TransactionItem → Option ErrorResponse
  | [] => none
  | item :: rest =>
    let availableQuantity : Int :=
      match findOne stocks item.product fromWarehouse with
      | some stock => stock.quantity - stock.reservedQuantity
      | none => 0
    if availableQuantity < item.quantity then
      some (.insufficientStock availableQuantity item.quantity)
    else
      checkDelivery stocks fromWarehouse rest

/-- `createDelivery`. -/
def createDelivery (s : State) (now random : Nat) (user : ObjectId) (body : DeliveryBody) :
    Except ErrorResponse Transaction × State :=
  match checkDelivery s.stocks body.fromWarehouse body.items with
  | some e => (.error e, s)
  | none =>
    let r := create s.transactions now random .delivery body.fromWarehouse none
      none body.customer body.items body.notes user
    (r.1, { s with transactions := r.2 })

/-- The availability loop of `createTransfer`: a line fails when there is no stock
record or when `stock.quantity < item.quantity`. -/
def checkTransfer (stocks : List Stock) (fromWarehouse : Option ObjectId) :
    List TransactionItem → Option ErrorResponse
  | [] => none
  | item :: rest =>
    match findOne stocks item.product fromWarehouse with
    | none => some (.insufficientStockTransfer 0 item.quantity)
    | some stock =>
      if stock.quantity < item.quantity then
        some (.insufficientStockTransfer stock.quantity item.quantity)
      else
        checkTransfer stocks fromWarehouse rest

/-- `createTransfer`. -/
def createTransfer (s : State) (now random : Nat) (user : ObjectId) (body : TransferBody) :
    Except ErrorResponse Transaction × State :=
  match checkTransfer s.stocks body.fromWarehouse body.items with
  | some e => (.error e, s)
  | none =>
    let r := create s.transactions now random .transfer body.fromWarehouse body.toWarehouse
      none none body.items body.notes user
    (r.1, { s with transactions := r.2 })

/-- The `notes` of `createAdjustment`: the given notes when truthy, else a text
built from the reason. -/
def adjustmentNotes (notes reason : Option String) : String :=
  match notes with
  | some n => if n = "" then "Stock adjustment: " ++ reason.getD "undefined" else n
  | none => "Stock adjustment: " ++ reason.getD "undefined"

/-- `createAdjustment`. -/
def createAdjustment (s : State) (now random : Nat) (user : ObjectId)
    (body : AdjustmentBody) : Except ErrorResponse Transaction × State :=
  let r := create s.transactions now random .adjustment body.warehouse none
    none none body.items (some (adjustmentNotes body.notes body.reason)) user
  (r.1, { s with transactions := r.2 })

/-- The `switch (transaction.type)` of `completeTransaction`: one upsert per line
(two for a transfer), in line order. -/
def applyStock (transaction : Transaction) (stocks : List Stock) : List Stock :=
  match transaction.type with
  | .receipt =>
    transaction.items.foldl
      (fun st item => findOneAndUpdate st item.product transaction.toWarehouse item.quantity)
      stocks
  | .delivery =>
    transaction.items.foldl
      (fun st item => findOneAndUpdate st item.product transaction.fromWarehouse (-item.quantity))
      stocks
  | .transfer =>
    transaction.items.foldl
      (fun st item =>
        findOneAndUpdate
          (findOneAndUpdate st item.product transaction.fromWarehouse (-item.quantity))
          item.product transaction.toWarehouse item.quantity)
      stocks
  | .adjustment =>
    transaction.items.foldl
      (fun st item => findOneAndUpdate st item.product transaction.fromWarehouse item.quantity)
      stocks

/-- `completeTransaction`. -/
def completeTransaction (s : State) (id : ObjectId) (now : Nat) :
    Except ErrorResponse Transaction × State :=
  match findById s.transactions id with
  | none => (.error .transactionNotFound, s)
  | some transaction =>
    if transaction.status = .completed then
      (.error .alreadyCompleted, s)
    else if transaction.status = .cancelled then
      (.error .cannotCompleteCancelled, s)
    else
      let stocks := applyStock transaction s.stocks
      let saved : Transaction :=
        { transaction with status := .completed, completedAt := some now }
      (.ok saved, { transactions := save s.transactions saved, stocks := stocks })

/-- `cancelTransaction`. -/
def cancelTransaction (s : State) (id : ObjectId) : Except ErrorResponse Transaction × State :=
  match findById s.transactions id with
  | none => (.error .transactionNotFound, s)
  | some transaction =>
    if transaction.status = .completed then
      (.error .cannotCancelCompleted, s)
    else
      let saved : Transaction := { transaction with status := .cancelled }
      (.ok saved, { s with transactions := save s.transactions saved })

/-! ## Observations used by the statements -/

/-- The on-hand quantity read at a key: that of the record `findOne` returns,
0 when there is none. -/
def quantityAt (stocks : List Stock) (product : ObjectId) (warehouse : Option ObjectId) : Int :=
  match findOne stocks product warehouse with
  | some stock => stock.quantity
  | none => 0

/-- The sum of the quantities of the lines naming `product`. -/
def lineTotal (items : List TransactionItem) (product : ObjectId) : Int :=
  ((items.filter (fun item => decide (item.product = product))).map
    (fun item => item.quantity)).sum

/-- A status out of which the state machine has no transition. -/
def Status.terminal : Status → Bool
  | .completed => true
  | .cancelled => true
  | _ => false

/-- A request to the transaction routes. -/
inductive Op where
  | receipt (now random : Nat) (user : ObjectId) (body : ReceiptBody)
  | delivery (now random : Nat) (user : ObjectId) (body : DeliveryBody)
  | transfer (now random : Nat) (user : ObjectId) (body : TransferBody)
  | adjustment (now random : Nat) (user : ObjectId) (body : AdjustmentBody)
  | complete (id : ObjectId) (now : Nat)
  | cancel (id : ObjectId)

/-- Serve one request. -/
def step (s : State) : Op → Except ErrorResponse Transaction × State
  | .receipt now random user body => createReceipt s now random user body
  | .delivery now random user body => createDelivery s now random user body
  | .transfer now random user body => createTransfer s now random user body
  | .adjustment now random user body => createAdjustment s now random user body
  | .complete id now => completeTransaction s id now
  | .cancel id => cancelTransaction s id

/-- Serve a sequence of requests, one after the other. -/
def run (s : State) (ops : List Op) : State :=
  ops.foldl (fun st op => (step st op).2) s

/-- The availability the specification names: `quantity - reservedQuantity` of the
record at the key, 0 when there is none. -/
def availableAt (stocks : List Stock) (product : ObjectId) (warehouse : Option ObjectId) :
    Int :=
  match findOne stocks product warehouse with
  | some stock => stock.quantity - stock.reservedQuantity
  | none => 0

/-! ## Sample data -/

/-- A ledger with 100 units of product 1 at warehouse 10. -/
def sampleStocks : List Stock :=
  [{ product := 1, warehouse := some 10, quantity := 100, reservedQuantity := 0 }]

/-- A draft transaction with the given id, type, endpoints and lines. -/
def sampleTransaction (id : ObjectId) (type : TransactionType)
    (fromWarehouse toWarehouse : Option ObjectId) (items : List TransactionItem) :
    Transaction :=
  { id := id, type := type, reference := { tag := type, timestamp := id, random := 0 },
    status := .draft, fromWarehouse := fromWarehouse, toWarehouse := toWarehouse,
    supplier := none, customer := none, items := items, notes := none,
    createdBy := 0, completedAt := none }

/-- A draft receipt into warehouse 10: two lines of product 1 and one of product 2. -/
def sampleReceipt : Transaction :=
  sampleTransaction 1 .receipt none (some 10)
    [{ product := 1, quantity := 30, unitPrice := none },
     { product := 1, quantity := 20, unitPrice := none },
     { product := 2, quantity := 5, unitPrice := none }]

/-- A draft delivery out of warehouse 10 of more than the ledger holds. -/
def sampleDelivery : Transaction :=
  sampleTransaction 2 .delivery (some 10) none
    [{ product := 1, quantity := 70, unitPrice := none },
     { product := 1, quantity := 50, unitPrice := none }]

/-- A draft transfer from warehouse 10 to warehouse 20. -/
def sampleTransfer : Transaction :=
  sampleTransaction 3 .transfer (some 10) (some 20)
    [{ product := 1, quantity := 20, unitPrice := none }]

/-- A draft transfer whose source and destination are both warehouse 10. -/
def selfTransfer : Transaction :=
  sampleTransaction 4 .transfer (some 10) (some 10)
    [{ product := 1, quantity := 20, unitPrice := none }]

/-- The sample ledger with the four sample transactions stored. -/
def sampleState : State :=
  { transactions := [sampleReceipt, sampleDelivery, sampleTransfer, selfTransfer],
    stocks := sampleStocks }

/-- A receipt that has been completed at time 3. -/
def completedReceipt : Transaction :=
  { sampleTransaction 5 .receipt none (some 10)
      [{ product := 1, quantity := 30, unitPrice := none }] with
    status := .completed, completedAt := some 3 }

/-- A delivery that has been cancelled. -/
def cancelledDelivery : Transaction :=
  { sampleTransaction 6 .delivery (some 10) none
      [{ product := 1, quantity := 30, unitPrice := none }] with
    status := .cancelled }

/-- The sample ledger with a draft, a completed and a cancelled transaction stored. -/
def mixedState : State :=
  { transactions := [sampleReceipt, completedReceipt, cancelledDelivery],
    stocks := sampleStocks }

/-- A store with no transaction and no stock record. -/
def emptyState : State :=
  { transactions := [], stocks := [] }

/-- A store whose only stock record holds 10 units of product 1 at warehouse 10,
5 of them reserved. -/
def reservedState : State :=
  { transactions := [],
    stocks := [{ product := 1, warehouse := some 10, quantity := 10, reservedQuantity := 5 }] }

/-- A request to move 8 units of product 1 out of warehouse 10 into warehouse 20. -/
def transferOfEight : TransferBody :=
  { fromWarehouse := some 10, toWarehouse := some 20,
    items := [{ product := 1, quantity := 8, unitPrice := none }], notes := none }

/-- A request to deliver 8 units of product 1 out of warehouse 10. -/
def deliveryOfEight : DeliveryBody :=
  { fromWarehouse := some 10, customer := none,
    items := [{ product := 1, quantity := 8, unitPrice := none }], notes := none }

/-- A receipt request with a destination and no line. -/
def emptyReceipt : ReceiptBody :=
  { toWarehouse := some 10, supplier := none, items := [], notes := none }

/-- A receipt request with one valid line and no destination. -/
def receiptWithoutWarehouse : ReceiptBody :=
  { toWarehouse := none, supplier := none,
    items := [{ product := 1, quantity := 5, unitPrice := none }], notes := none }

/-- A receipt request with a line of quantity 0. -/
def receiptOfZero : ReceiptBody :=
  { toWarehouse := some 10, supplier := none,
    items := [{ product := 1, quantity := 0, unitPrice := none }], notes := none }

/-- The responses to a sequence of requests, in order. -/
def responses (s : State) : List Op → List (Except ErrorResponse Transaction)
  | [] => []
  | op :: rest => (step s op).1 :: responses (step s op).2 rest

/-- Whether a response is a success. -/
def isOk : Except ErrorResponse Transaction → Bool
  | .ok _ => true
  | .error _ => false

/-- An adjustment request for warehouse 10 with one line lowering product 1 by 5. -/
def negativeAdjustment : AdjustmentBody :=
  { warehouse := some 10, notes := none, reason := some "damaged",
    items := [{ product := 1, quantity := -5, unitPrice := none }] }

/-- A stored draft adjustment at warehouse 10 with one line of -5 of product 1. -/
def storedNegativeAdjustment : Transaction :=
  sampleTransaction 7 .adjustment (some 10) none
    [{ product := 1, quantity := -5, unitPrice := none }]

/-- A store with 10 units of product 1 at warehouse 10, nothing reserved, no transaction. -/
def tenUnitsState : State :=
  { transactions := [],
    stocks := [{ product := 1, warehouse := some 10, quantity := 10, reservedQuantity := 0 }] }

/-- A request to deliver 10 units of product 1 out of warehouse 10. -/
def deliveryOfTen : DeliveryBody :=
  { fromWarehouse := some 10, customer := none,
    items := [{ product := 1, quantity := 10, unitPrice := none }], notes := none }

/-- Two deliveries of 10 units each are created against the 10 units on hand, then
both are completed. -/
def twoDeliveries : List Op :=
  [.delivery 1 0 0 deliveryOfTen, .delivery 2 0 0 deliveryOfTen, .complete 1 3, .complete 2 4]

/-- Every stock record has a quantity of at least 0. -/
def nonNegative (stocks : List Stock) : Bool :=
  stocks.all (fun stock => decide (0 ≤ stock.quantity))

/-- The item Rod of the scenario. -/
def rod : ObjectId := 1

/-- Location A of the scenario. -/
def locationA : Option ObjectId := some 10

/-- Location B of the scenario. -/
def locationB : Option ObjectId := some 20

/-- The scenario's start: 100 Rod at A, no record at B, no transaction. -/
def rodState : State :=
  { transactions := [],
    stocks := [{ product := rod, warehouse := locationA, quantity := 100,
                 reservedQuantity := 0 }] }

/-- The scenario's requests: a receipt of 50 Rod to A, a delivery of 30 Rod from A and a
transfer of 20 Rod from A to B, each created and then completed, at the given times and
with the given random draws. -/
def rodScenario (t1 r1 c1 t2 r2 c2 t3 r3 c3 : Nat) (user : ObjectId) : List Op :=
  [.receipt t1 r1 user
      { toWarehouse := locationA, supplier := none, notes := none,
        items := [{ product := rod, quantity := 50, unitPrice := none }] },
   .complete 1 c1,
   .delivery t2 r2 user
      { fromWarehouse := locationA, customer := none, notes := none,
        items := [{ product := rod, quantity := 30, unitPrice := none }] },
   .complete 2 c2,
   .transfer t3 r3 user
      { fromWarehouse := locationA, toWarehouse := locationB, notes := none,
        items := [{ product := rod, quantity := 20, unitPrice := none }] },
   .complete 3 c3]

/-! ## Completion against a store in which a write fails -/

/-- The stock collection behind a store in which one chosen write fails:
`failAt = some n` lets `n` more writes through and fails the next, `none` never fails. -/
structure FaultyStore where
  stocks : List Stock
  failAt : Option Nat
  deriving DecidableEq, Repr

/-- `Stock.findOneAndUpdate` against such a store: `none` when the write throws, which
leaves the collection as it was. -/
def FaultyStore.write (store : FaultyStore) (product : ObjectId)
    (warehouse : Option ObjectId) (inc : Int) : Option FaultyStore :=
  match store.failAt with
  | some 0 => none
  | some (n + 1) =>
    some { stocks := findOneAndUpdate store.stocks product warehouse inc, failAt := some n }
  | none =>
    some { stocks := findOneAndUpdate store.stocks product warehouse inc, failAt := none }

/-- A `for ... of` loop with one awaited upsert per line; a write that throws ends the
loop.  The flag tells whether the loop ran to its end. -/
def writeLines (warehouse : Option ObjectId) (f : TransactionItem → Int) :
    List TransactionItem → FaultyStore → Bool × FaultyStore
  | [], store => (true, store)
  | item :: rest, store =>
    match store.write item.product warehouse (f item) with
    | none => (false, store)
    | some store1 => writeLines warehouse f rest store1

/-- The loop of the transfer branch: per line the source upsert, then the destination
upsert; a write that throws ends the loop. -/
def transferLines (fromWarehouse toWarehouse : Option ObjectId) :
    List TransactionItem → FaultyStore → Bool × FaultyStore
  | [], store => (true, store)
  | item :: rest, store =>
    match store.write item.product fromWarehouse (-item.quantity) with
    | none => (false, store)
    | some store1 =>
      match store1.write item.product toWarehouse item.quantity with
      | none => (false, store1)
      | some store2 => transferLines fromWarehouse toWarehouse rest store2

/-- The `switch (transaction.type)` of `completeTransaction` against the faulty store. -/
def applyStockFaulty (transaction : Transaction) (store : FaultyStore) : Bool × FaultyStore :=
  match transaction.type with
  | .receipt =>
    writeLines transaction.toWarehouse (fun item => item.quantity) transaction.items store
  | .delivery =>
    writeLines transaction.fromWarehouse (fun item => -item.quantity) transaction.items store
  | .transfer =>
    transferLines transaction.fromWarehouse transaction.toWarehouse transaction.items store
  | .adjustment =>
    writeLines transaction.fromWarehouse (fun item => item.quantity) transaction.items store

/-- What `completeTransaction` hands to `next` against the faulty store: one of its own
errors, or the error thrown by the store. -/
inductive Failure where
  | rejected (e : ErrorResponse)
  | storeError
  deriving DecidableEq, Repr

/-- `completeTransaction` against the faulty store: an upsert that throws sends control
to the `catch`, past the status update and the save. -/
def completeTransactionFaulty (s : State) (failAt : Option Nat) (id : ObjectId) (now : Nat) :
    Except Failure Transaction × State :=
  match findById s.transactions id with
  | none => (.error (.rejected .transactionNotFound), s)
  | some transaction =>
    if transaction.status = .completed then
      (.error (.rejected .alreadyCompleted), s)
    else if transaction.status = .cancelled then
      (.error (.rejected .cannotCompleteCancelled), s)
    else
      match applyStockFaulty transaction { stocks := s.stocks, failAt := failAt } with
      | (false, store) => (.error .storeError, { s with stocks := store.stocks })
      | (true, store) =>
        let saved : Transaction :=
          { transaction with status := .completed, completedAt := some now }
        (.ok saved, { transactions := save s.transactions saved, stocks := store.stocks })

/-- The sample ledger with the one-line sample transfer stored. -/
def transferState : State :=
  { transactions := [sampleTransfer], stocks := sampleStocks }

/-! ## The demand forecaster (`utils/demandForecast.js`)

Instants are milliseconds since the epoch, read in UTC; the quotients the source
computes in floating point are rational numbers here. -/

/-- A document of `productSchema`, with the fields the forecaster selects. -/
structure Product where
  id : ObjectId
  name : String
  sku : String
  unitOfMeasure : Option String
  minStockLevel : Option Int
  maxStockLevel : Option Int
  isActive : Bool
  deriving DecidableEq, Repr

/-- A document of `warehouseSchema`, with the fields the forecaster selects. -/
structure Warehouse where
  id : ObjectId
  name : String
  code : String
  deriving DecidableEq, Repr

/-- A stock document with `product` and `warehouse` populated; a warehouse that does
not resolve is `none`. -/
structure PopulatedStock where
  product : Product
  warehouse : Option Warehouse
  quantity : Int
  deriving DecidableEq, Repr

/-- The `confidence` of a forecast. -/
inductive Confidence where
  | low
  | medium
  | high
  deriving DecidableEq, Repr

/-- The `reason` text of a forecast; the last one carries the number it prints. -/
inductive Reason where
  | noHistoricalData
  | noHistoricalDataMonitoring
  | noRecentDemand
  | noRecentDemandMonitoring
  | basedOn (count : Nat)
  deriving DecidableEq, Repr

/-- The object `forecastDemand` returns. -/
structure Forecast where
  productId : ObjectId
  productName : String
  sku : String
  currentStock : Int
  minStockLevel : Int
  willRunOut : Bool
  daysUntilShortage : Int
  daysUntilMinLevel : Option Int
  suggestedReorderQuantity : Int
  confidence : Confidence
  reason : Reason
  dailyDemand : ℚ
  deriving DecidableEq

/-- The JavaScript `x || d` on an optional number: `undefined` and 0 give `d`. -/
def orDefault (x : Option Int) (d : Int) : Int :=
  match x with
  | some v => if v = 0 then d else v
  | none => d

/-- Milliseconds in a day. -/
def msPerDay : Int := 86400000

/-- The filter of `calculateDailyDemand`:
`t.completedAt && new Date(t.completedAt) >= sixtyDaysAgo`. -/
def isRecent (now : Nat) (t : Transaction) : Bool :=
  match t.completedAt with
  | some completedAt => decide ((now : Int) - 60 * msPerDay ≤ (completedAt : Int))
  | none => false

/-- The `totalQuantity` of `calculateDailyDemand`: the two nested `forEach` loops add up
the quantity of every line of every given transaction. -/
def totalQuantity (recentTransactions : List Transaction) : Int :=
  recentTransactions.foldl
    (fun total transaction =>
      transaction.items.foldl (fun total item => total + item.quantity) total)
    0

/-- The `oldestDate` of `calculateDailyDemand`: `moment.min` of the completion dates,
which is the current moment for an empty list. -/
def oldestDate (now : Nat) (recentTransactions : List Transaction) : Int :=
  match recentTransactions.filterMap (fun t => t.completedAt) with
  | [] => (now : Int)
  | d :: ds => ((ds.foldl min d : Nat) : Int)

/-- The `daysInPeriod` of `calculateDailyDemand`:
`moment().diff(oldestDate, 'days') || 1`, the difference in days truncated towards 0. -/
def daysInPeriod (now : Nat) (recentTransactions : List Transaction) : Int :=
  let diff : Int := Int.tdiv ((now : Int) - oldestDate now recentTransactions) msPerDay
  if diff = 0 then 1 else diff

/-- `calculateDailyDemand`. -/
def calculateDailyDemand (now : Nat) (transactions : List Transaction) : ℚ :=
  if transactions.length = 0 then 0
  else
    let recentTransactions := transactions.filter (isRecent now)
    if recentTransactions.length = 0 then 0
    else
      (totalQuantity recentTransactions : ℚ) / (daysInPeriod now recentTransactions : ℚ)

/-- The query of `forecastDemand`: the completed deliveries out of the warehouse that
have a `completedAt`, sorted by `completedAt` ascending, the first 200 of them. -/
def findCompletedDeliveries (transactions : List Transaction) (warehouseId : ObjectId) :
    List Transaction :=
  ((transactions.filter (fun t =>
      decide (t.type = .delivery ∧ t.status = .completed ∧
        t.fromWarehouse = some warehouseId ∧ t.completedAt.isSome = true))).insertionSort
    (fun a b => a.completedAt.getD 0 ≤ b.completedAt.getD 0)).take 200

/-- The `deliveryTransactions` of `forecastDemand`: the loaded deliveries with a line
for the product. -/
def deliveryTransactionsOf (transactions : List Transaction) (warehouseId productId : ObjectId) :
    List Transaction :=
  (findCompletedDeliveries transactions warehouseId).filter
    (fun transaction => transaction.items.any (fun item => decide (item.product = productId)))

/-- `forecastDemand(stock)`, reading the transaction collection at time `now`;
`none` is the `null` it returns, also from its `catch`. -/
def forecastDemand (transactions : List Transaction) (now : Nat) (stock : PopulatedStock) :
    Option Forecast :=
  match stock.warehouse with
  | none => none
  | some warehouse =>
    let productId := stock.product.id
    let currentQuantity := stock.quantity
    let minStockLevel := orDefault stock.product.minStockLevel 0
    let maxStockLevel := orDefault stock.product.maxStockLevel (minStockLevel * 2)
    let deliveryTransactions := deliveryTransactionsOf transactions warehouse.id productId
    if deliveryTransactions.length = 0 then
      if currentQuantity ≤ minStockLevel then
        some
          { productId := productId, productName := stock.product.name, sku := stock.product.sku,
            currentStock := currentQuantity, minStockLevel := minStockLevel,
            willRunOut := true, daysUntilShortage := 0, daysUntilMinLevel := none,
            suggestedReorderQuantity :=
              if maxStockLevel - currentQuantity = 0 then minStockLevel * 2
              else maxStockLevel - currentQuantity,
            confidence := .low, reason := .noHistoricalData, dailyDemand := 0 }
      else if currentQuantity ≤ minStockLevel * 2 then
        some
          { productId := productId, productName := stock.product.name, sku := stock.product.sku,
            currentStock := currentQuantity, minStockLevel := minStockLevel,
            willRunOut := false, daysUntilShortage := 999, daysUntilMinLevel := some 999,
            suggestedReorderQuantity := minStockLevel * 2,
            confidence := .low, reason := .noHistoricalDataMonitoring, dailyDemand := 0 }
      else none
    else
      let dailyDemand := calculateDailyDemand now deliveryTransactions
      if dailyDemand = 0 then
        if currentQuantity ≤ minStockLevel then
          some
            { productId := productId, productName := stock.product.name,
              sku := stock.product.sku,
              currentStock := currentQuantity, minStockLevel := minStockLevel,
              willRunOut := true, daysUntilShortage := 0, daysUntilMinLevel := none,
              suggestedReorderQuantity :=
                if maxStockLevel - currentQuantity = 0 then minStockLevel * 2
                else maxStockLevel - currentQuantity,
              confidence := .low, reason := .noRecentDemand, dailyDemand := 0 }
        else if (currentQuantity : ℚ) ≤ (minStockLevel : ℚ) * (3 / 2) then
          some
            { productId := productId, productName := stock.product.name,
              sku := stock.product.sku,
              currentStock := currentQuantity, minStockLevel := minStockLevel,
              willRunOut := false, daysUntilShortage := 999, daysUntilMinLevel := some 999,
              suggestedReorderQuantity := minStockLevel * 2,
              confidence := .low, reason := .noRecentDemandMonitoring, dailyDemand := 0 }
        else none
      else
        let daysUntilShortage : Int := Int.ceil ((currentQuantity : ℚ) / dailyDemand)
        let daysUntilMinLevel : Int :=
          Int.ceil (((currentQuantity : ℚ) - (minStockLevel : ℚ)) / dailyDemand)
        let willRunOut : Bool := decide (daysUntilShortage ≤ 45)
        let needsReorder : Bool := decide (daysUntilMinLevel ≤ 21)
        if (!willRunOut && !needsReorder && decide (daysUntilShortage > 60)) = true then none
        else
          let daysToCover : ℚ := 30
          let safetyBuffer : ℚ := (minStockLevel : ℚ)
          let suggestedReorderQuantity : Int :=
            Int.ceil (dailyDemand * daysToCover + safetyBuffer - (currentQuantity : ℚ))
          let confidence : Confidence :=
            if deliveryTransactions.length ≥ 20 then .high
            else if deliveryTransactions.length < 5 then .low
            else .medium
          some
            { productId := productId, productName := stock.product.name,
              sku := stock.product.sku,
              currentStock := currentQuantity, minStockLevel := minStockLevel,
              dailyDemand := (Int.floor (dailyDemand * 100 + 1 / 2) : ℚ) / 100,
              willRunOut := willRunOut,
              daysUntilShortage := max 0 daysUntilShortage,
              daysUntilMinLevel := some (max 0 daysUntilMinLevel),
              suggestedReorderQuantity := max suggestedReorderQuantity minStockLevel,
              confidence := confidence,
              reason := .basedOn deliveryTransactions.length }

/-- A completed delivery out of warehouse 10 with one line, completed at the given day. -/
def deliveryOn (id : ObjectId) (day : Nat) (product : ObjectId) (quantity : Int) : Transaction :=
  { sampleTransaction id .delivery (some 10) none
      [{ product := product, quantity := quantity, unitPrice := none }] with
    status := .completed, completedAt := some (day * 86400000) }

/-- Day 100, the `now` of the examples. -/
def day100 : Nat := 100 * 86400000

/-- Five completed deliveries of product 1: four on days 10 to 13, more than 60 days
before day 100, and one of 30 units on day 90. -/
def mostlyOldDeliveries : List Transaction :=
  [deliveryOn 1 10 1 5, deliveryOn 2 11 1 5, deliveryOn 3 12 1 5, deliveryOn 4 13 1 5,
   deliveryOn 5 90 1 30]

/-- A product with the given stock levels. -/
def sampleProduct (minStockLevel maxStockLevel : Option Int) : Product :=
  { id := 1, name := "Rod", sku := "ROD-1", unitOfMeasure := some "pcs",
    minStockLevel := minStockLevel, maxStockLevel := maxStockLevel, isActive := true }

/-- Warehouse 10. -/
def sampleWarehouse : Warehouse :=
  { id := 10, name := "Main", code := "WH10" }

/-- A stock record of 8 units of a product whose maximum level (5) is below its
minimum level (10). -/
def stockAboveMax : PopulatedStock :=
  { product := sampleProduct (some 10) (some 5), warehouse := some sampleWarehouse,
    quantity := 8 }

/-- A stock record of 40 units of a product with minimum level 10. -/
def stockOfForty : PopulatedStock :=
  { product := sampleProduct (some 10) (some 100), warehouse := some sampleWarehouse,
    quantity := 40 }

/-- A stock record of 10 units of a product with minimum level 10. -/
def stockAtMin : PopulatedStock :=
  { product := sampleProduct (some 10) (some 100), warehouse := some sampleWarehouse,
    quantity := 10 }

/-- The `minStockLevel` local of `forecastDemand`. -/
def minLevelOf (stock : PopulatedStock) : Int :=
  orDefault stock.product.minStockLevel 0

/-- The `maxStockLevel` local of `forecastDemand`. -/
def maxLevelOf (stock : PopulatedStock) : Int :=
  orDefault stock.product.maxStockLevel (minLevelOf stock * 2)

/-- The words of the specification for "within the last 60 days": completed, and no
more than 60 days before now. -/
def withinLast60Days (now : Nat) (t : Transaction) : Bool :=
  match t.completedAt with
  | some completedAt => decide ((now : Int) - (completedAt : Int) ≤ 60 * 86400000)
  | none => false

/-- The `dailyDemand` local of `forecastDemand` for a stock record at a warehouse. -/
def demandOf (transactions : List Transaction) (now : Nat) (stock : PopulatedStock)
    (warehouse : Warehouse) : ℚ :=
  calculateDailyDemand now (deliveryTransactionsOf transactions warehouse.id stock.product.id)

/-- The qualifying deliveries in the words of the specification: the completed
deliveries out of the warehouse that contain the item and were completed within the
last 60 days. -/
def qualifyingDeliveries (transactions : List Transaction) (warehouseId productId : ObjectId)
    (now : Nat) : List Transaction :=
  transactions.filter (fun t =>
    decide (t.type = .delivery ∧ t.status = .completed ∧ t.fromWarehouse = some warehouseId) &&
    t.items.any (fun item => decide (item.product = productId)) &&
    withinLast60Days now t)

/-- Four completed deliveries of product 1, all more than 60 days before day 100. -/
def oldDeliveries : List Transaction :=
  [deliveryOn 1 10 1 5, deliveryOn 2 11 1 5, deliveryOn 3 12 1 5, deliveryOn 4 13 1 5]

/-- The daily demand in the words of the specification: the sum of the quantities in
the deliveries completed within the last 60 days, divided by the whole days between
the oldest of them and now, at least 1; 0 when there is no such delivery. -/
def dailyDemandSpec (now : Nat) (deliveries : List Transaction) : ℚ :=
  let recent := deliveries.filter (withinLast60Days now)
  if recent = [] then 0
  else
    let total : Int := (recent.map (fun t => (t.items.map (fun item => item.quantity)).sum)).sum
    let oldest : Nat := (recent.filterMap (fun t => t.completedAt)).foldr min now
    (total : ℚ) / ((max 1 ((now - oldest) / 86400000) : Nat) : ℚ)

/-! ## Further observations on the ledger -/

/-- The quantity of a product summed over all its stock records, in every warehouse. -/
def stockTotal (stocks : List Stock) (product : ObjectId) : Int :=
  ((stocks.filter (fun stock => decide (stock.product = product))).map
    (fun stock => stock.quantity)).sum

/-- The change completion makes to the quantity at a key, by transaction type. -/
def stockDelta (t : Transaction) (product : ObjectId) (warehouse : Option ObjectId) : Int :=
  match t.type with
  | .receipt => if t.toWarehouse = warehouse then lineTotal t.items product else 0
  | .delivery => if t.fromWarehouse = warehouse then -lineTotal t.items product else 0
  | .transfer =>
    (if t.toWarehouse = warehouse then lineTotal t.items product else 0)
      - (if t.fromWarehouse = warehouse then lineTotal t.items product else 0)
  | .adjustment => if t.fromWarehouse = warehouse then lineTotal t.items product else 0

/-- A delivery request with two lines of 6 units of product 1 out of warehouse 10. -/
def twoLinesOfSix : DeliveryBody :=
  { fromWarehouse := some 10, customer := none, notes := none,
    items := [{ product := 1, quantity := 6, unitPrice := none },
              { product := 1, quantity := 6, unitPrice := none }] }

/-! ## All forecasts (`getAllForecasts`) and product deletion (`deleteProduct`) -/

/-- An entry of the list `getAllForecasts` returns: the forecast spread into an object
with three more fields. -/
structure ForecastEntry where
  forecast : Forecast
  warehouseName : String
  warehouseCode : String
  unitOfMeasure : String
  deriving DecidableEq

/-- The `populate` of `product` with `match: { isActive: { $ne: false } }`: the product
with that id when it is active, `none` (null) otherwise. -/
def populateProduct (products : List Product) (id : ObjectId) : Option Product :=
  (products.find? (fun product => decide (product.id = id))).filter
    (fun product => product.isActive)

/-- The `populate` of `warehouse`. -/
def populateWarehouse (warehouses : List Warehouse) (id : Option ObjectId) : Option Warehouse :=
  id.bind (fun i => warehouses.find? (fun warehouse => decide (warehouse.id = i)))

/-- A stock document after the two `populate` calls, when it passes the guard
`!stock.product || stock.product.isActive === false` of the loop. -/
def populateStock (products : List Product) (warehouses : List Warehouse) (stock : Stock) :
    Option PopulatedStock :=
  match populateProduct products stock.product with
  | none => none
  | some product =>
    if product.isActive = false then none
    else
      some { product := product, warehouse := populateWarehouse warehouses stock.warehouse,
             quantity := stock.quantity }

/-- The JavaScript `s || d` on an optional string: `undefined` and the empty string
give `d`. -/
def orText (s : Option String) (d : String) : String :=
  match s with
  | some v => if v = "" then d else v
  | none => d

/-- The object pushed for a stock record with a forecast. -/
def toEntry (stock : PopulatedStock) (forecast : Forecast) : ForecastEntry :=
  { forecast := forecast,
    warehouseName := orText (stock.warehouse.map (fun w => w.name)) "Unknown",
    warehouseCode := orText (stock.warehouse.map (fun w => w.code)) "",
    unitOfMeasure := orText stock.product.unitOfMeasure "units" }

/-- The comparator handed to `forecasts.sort`. -/
def compareForecasts (a b : ForecastEntry) : Int :=
  if a.forecast.daysUntilShortage ≠ b.forecast.daysUntilShortage then
    a.forecast.daysUntilShortage - b.forecast.daysUntilShortage
  else
    a.forecast.currentStock - b.forecast.currentStock

/-- `getAllForecasts`: the loop over the populated stock records collects the entries
of those with a forecast; `Array.prototype.sort` is a stable sort by the comparator. -/
def getAllForecasts (products : List Product) (warehouses : List Warehouse)
    (transactions : List Transaction) (stocks : List Stock) (now : Nat) :
    List ForecastEntry :=
  let forecasts := stocks.filterMap (fun stock =>
    match populateStock products warehouses stock with
    | none => none
    | some populated =>
      match forecastDemand transactions now populated with
      | none => none
      | some forecast => some (toEntry populated forecast))
  forecasts.insertionSort (fun a b => compareForecasts a b ≤ 0)

/-- The order the specification names: ascending `daysUntilShortage`, ties broken by
ascending `currentStock`. -/
def shortageOrder (a b : Forecast) : Prop :=
  a.daysUntilShortage < b.daysUntilShortage ∨
    (a.daysUntilShortage = b.daysUntilShortage ∧ a.currentStock ≤ b.currentStock)

/-- The errors `deleteProduct` hands to `next`. -/
inductive ProductError where
  | productNotFound
  | cannotDeleteWithStock
  deriving DecidableEq, Repr

/-- The HTTP status of each. -/
def ProductError.statusCode : ProductError → Nat
  | .productNotFound => 404
  | .cannotDeleteWithStock => 400

/-- `Product.findByIdAndUpdate(id, { isActive: false })`. -/
def deactivate : List Product → ObjectId → List Product
  | [], _ => []
  | product :: rest, id =>
    if product.id = id then { product with isActive := false } :: rest
    else product :: deactivate rest id

/-- `deleteProduct`: the response, and the product collection as it leaves it. -/
def deleteProduct (products : List Product) (stocks : List Stock) (id : ObjectId) :
    Except ProductError Unit × List Product :=
  match products.find? (fun product => decide (product.id = id)) with
  | none => (.error .productNotFound, products)
  | some _ =>
    match stocks.find? (fun stock => decide (stock.product = id)) with
    | some existingStock =>
      if existingStock.quantity > 0 then (.error .cannotDeleteWithStock, products)
      else (.ok (), deactivate products id)
    | none => (.ok (), deactivate products id)

/-- Product 1 with an empty stock record at warehouse 10, stored first, and 5 units at
warehouse 20. -/
def emptyThenStocked : List Stock :=
  [{ product := 1, warehouse := some 10, quantity := 0, reservedQuantity := 0 },
   { product := 1, warehouse := some 20, quantity := 5, reservedQuantity := 0 }]

/-- Completed deliveries 1 to 201 out of warehouse 10, delivery i completed on day i. -/
def manyDeliveries : List Transaction :=
  (List.range 201).map (fun i => deliveryOn (i + 1) (i + 1) 1 1)

/-! ## The even-demand scenario and the demand of one product -/

/-- Twenty-five completed deliveries of 12 units of product 1 out of warehouse 10, the
first completed on day 70 and each next one a day and a quarter later, the last on
day 100: 300 units spread evenly over the 30 days before day 100. -/
def evenDeliveries : List Transaction :=
  (List.range 25).map (fun i =>
    { sampleTransaction (i + 1) .delivery (some 10) none
        [{ product := 1, quantity := 12, unitPrice := none }] with
      status := .completed, completedAt := some (70 * 86400000 + i * 108000000) })

/-- A stock record of the given quantity of product 1, minimum level 10, at warehouse 10. -/
def stockOf (quantity : Int) : PopulatedStock :=
  { product := sampleProduct (some 10) (some 100), warehouse := some sampleWarehouse,
    quantity := quantity }

/-- The demand for one product in the words of the specification: as the daily demand,
but summing only the lines of that product. -/
def ownDailyDemand (now : Nat) (deliveries : List Transaction) (product : ObjectId) : ℚ :=
  let recent := deliveries.filter (withinLast60Days now)
  if recent = [] then 0
  else
    let total : Int := (recent.map (fun t => lineTotal t.items product)).sum
    let oldest : Nat := (recent.filterMap (fun t => t.completedAt)).foldr min now
    (total : ℚ) / ((max 1 ((now - oldest) / 86400000) : Nat) : ℚ)

/-- A completed delivery out of warehouse 10 on day 90 with a line of 30 units of
product 1 and a line of 60 units of product 2. -/
def mixedDelivery : Transaction :=
  { sampleTransaction 1 .delivery (some 10) none
      [{ product := 1, quantity := 30, unitPrice := none },
       { product := 2, quantity := 60, unitPrice := none }] with
    status := .completed, completedAt := some (90 * 86400000) }

/-! ## Linear regression (`linearRegression`)

Numbers are exact rationals.  A quotient whose divisor is 0 is not a number in the
source (NaN or an infinity); it is `none` here, and so is everything computed from it. -/

/-- A data point `{x, y}`. -/
structure Point where
  x : ℚ
  y : ℚ
  deriving DecidableEq

/-- The five running sums of the first `forEach`. -/
structure Sums where
  sumX : ℚ
  sumY : ℚ
  sumXY : ℚ
  sumXX : ℚ
  sumYY : ℚ
  deriving DecidableEq

/-- The first `forEach` of `linearRegression`. -/
def sums (dataPoints : List Point) : Sums :=
  dataPoints.foldl
    (fun s point =>
      { sumX := s.sumX + point.x, sumY := s.sumY + point.y,
        sumXY := s.sumXY + point.x * point.y, sumXX := s.sumXX + point.x * point.x,
        sumYY := s.sumYY + point.y * point.y })
    { sumX := 0, sumY := 0, sumXY := 0, sumXX := 0, sumYY := 0 }

/-- The quotient `a / b` of the source as a number: `none` when `b` is 0. -/
def divide (a b : ℚ) : Option ℚ :=
  if b = 0 then none else some (a / b)

/-- The divisor of the slope: `n * sumXX - sumX * sumX`. -/
def slopeDenominator (dataPoints : List Point) : ℚ :=
  (dataPoints.length : ℚ) * (sums dataPoints).sumXX
    - (sums dataPoints).sumX * (sums dataPoints).sumX

/-- The object `linearRegression` returns. -/
structure Regression where
  slope : Option ℚ
  intercept : Option ℚ
  rSquared : Option ℚ
  deriving DecidableEq

/-- `linearRegression`. -/
def linearRegression (dataPoints : List Point) : Regression :=
  if dataPoints.length < 2 then
    { slope := some 0, intercept := some 0, rSquared := some 0 }
  else
    let n : ℚ := (dataPoints.length : ℚ)
    let s := sums dataPoints
    let slope : Option ℚ :=
      divide (n * s.sumXY - s.sumX * s.sumY) (slopeDenominator dataPoints)
    let intercept : Option ℚ := slope.bind (fun m => divide (s.sumY - m * s.sumX) n)
    let meanY : ℚ := s.sumY / n
    let ssTot : ℚ := dataPoints.foldl (fun acc point => acc + (point.y - meanY) ^ 2) 0
    let ssRes : Option ℚ :=
      match slope, intercept with
      | some m, some c =>
        some (dataPoints.foldl (fun acc point => acc + (point.y - (m * point.x + c)) ^ 2) 0)
      | _, _ => none
    let rSquared : Option ℚ :=
      if ssTot = 0 then some 0 else ssRes.map (fun r => 1 - r / ssTot)
    { slope := slope, intercept := intercept, rSquared := rSquared }

/-- The sum of squared residuals of the line `y = m x + c` on the points. -/
def squaredResiduals (points : List Point) (m c : ℚ) : ℚ :=
  (points.map (fun p => (p.y - (m * p.x + c)) ^ 2)).sum

/-- The total sum of squares of the points: the squared distances of `y` to its mean. -/
def totalSquares (points : List Point) : ℚ :=
  (points.map (fun p =>
    (p.y - (points.map (fun q => q.y)).sum / (points.length : ℚ)) ^ 2)).sum

/-- Three points on the line `y = 2 x + 1`. -/
def pointsOnLine : List Point :=
  [{ x := 0, y := 1 }, { x := 1, y := 3 }, { x := 2, y := 5 }]

/-- Two points sharing the x value 3. -/
def pointsSharingX : List Point :=
  [{ x := 3, y := 1 }, { x := 3, y := 4 }]

/-! ## Further inputs and observations for the forecaster -/

/-- A completed delivery of 30 units of product 1 out of warehouse 10 whose `completedAt`
is day 102, two days after day 100. -/
def futureDelivery : Transaction :=
  deliveryOn 1 102 1 30

/-- The delivery with a line of 30 of product 1 and a line of 60 of product 2, with a
`completedAt` of day 102. -/
def futureMixedDelivery : Transaction :=
  { mixedDelivery with completedAt := some (102 * 86400000) }

/-- A completed delivery out of warehouse 10 on day 90 with a line of 30 units of
product 1 and a line of 0 units of product 2; `Transaction.create` refuses such a line,
the validator wanting a quantity of at least 1. -/
def deliveryWithEmptyLine : Transaction :=
  { mixedDelivery with
    items := [{ product := 1, quantity := 30, unitPrice := none },
              { product := 2, quantity := 0, unitPrice := none }] }

/-- In the words of the specification: a stock record with its item and location
resolved, when the item exists and is active. -/
def activeStockRecord (products : List Product) (warehouses : List Warehouse)
    (stock : Stock) : Option PopulatedStock :=
  match products.find? (fun product => decide (product.id = stock.product)) with
  | none => none
  | some product =>
    if product.isActive = true then
      some { product := product,
             warehouse :=
               match stock.warehouse with
               | none => none
               | some id => warehouses.find? (fun warehouse => decide (warehouse.id = id)),
             quantity := stock.quantity }
    else none

/-- In the words of the specification: the stored completed deliveries out of a
warehouse. -/
def completedDeliveriesOut (transactions : List Transaction) (warehouseId : ObjectId) :
    List Transaction :=
  transactions.filter (fun t =>
    decide (t.type = .delivery ∧ t.status = .completed ∧
      t.fromWarehouse = some warehouseId ∧ t.completedAt.isSome = true))

/-- In the words of the specification: the stored completed deliveries of an item out of
a warehouse. -/
def completedDeliveriesOf (transactions : List Transaction) (warehouseId productId : ObjectId) :
    List Transaction :=
  (completedDeliveriesOut transactions warehouseId).filter
    (fun t => t.items.any (fun item => decide (item.product = productId)))

/-- Two hundred completed deliveries of product 2 out of warehouse 10, all within the
first three days, followed by the 25 deliveries of product 1 of the even-demand
scenario. -/
def crowdedStore : List Transaction :=
  (List.range 200).map (fun i =>
    { sampleTransaction (1000 + i) .delivery (some 10) none
        [{ product := 2, quantity := 1, unitPrice := none }] with
      status := .completed, completedAt := some (i * 1000000) })
    ++ evenDeliveries

/-! ## JavaScript numbers (IEEE 754 binary64)

The quantities of `transactionItemSchema`, `stockSchema` and `productSchema` are
JavaScript `Number`s, and the store's `$inc` and the forecaster's arithmetic round every
result to the nearest double.  This section models that arithmetic, and the sections
after it embed `completeTransaction`, the forecaster and the regression over it.

A finite double is a whole number of units of 2^-1074, the spacing of the smallest
doubles.  The two zeros are one value: no operation embedded here divides by a zero
whose sign matters. -/

namespace Ieee

/-- A JavaScript `Number`. -/
inductive Number where
  | finite (units : Int)
  | posInf
  | negInf
  | nan
  deriving DecidableEq, Repr

/-- The number of units in 1, which is 2^1074. -/
def scale : Nat := 1 <<< 1074

/-- The number of binary digits of `n`, counted by halving; `fuel` bounds the halvings. -/
def bitLengthAux : Nat → Nat → Nat
  | 0, _ => 0
  | fuel + 1, n => if n = 0 then 0 else bitLengthAux fuel (n / 2) + 1

/-- The number of binary digits of a natural number. -/
def bitLength (n : Nat) : Nat := bitLengthAux n n

/-- The quotient `n / d` rounded to the nearest whole number, a tie going to the even
neighbour. -/
def roundHalfEven (n d : Nat) : Nat :=
  let q := n / d
  let r := n % d
  if 2 * r < d then q
  else if d < 2 * r then q + 1
  else if q % 2 = 0 then q else q + 1

/-- The magnitude, in units, of the double nearest to `n / d` units: 53 significant
binary digits are kept, and the spacing is never below one unit. -/
def roundMagnitude (n d : Nat) : Nat :=
  let shift := bitLength (n / d) - 53
  roundHalfEven n (d <<< shift) <<< shift

/-- The double nearest to `a / b` units, for positive `b`: round to nearest, ties to
even; a rounded magnitude of 2^1024 or more is an infinity. -/
def roundUnits (a : Int) (b : Nat) : Number :=
  let m := roundMagnitude a.natAbs b
  if 1 <<< 2098 ≤ m then (if 0 ≤ a then .posInf else .negInf)
  else .finite (if 0 ≤ a then (m : Int) else -(m : Int))

/-- The double a decimal literal or a JSON number denotes: the one nearest to
`num / den`. -/
def ofRat (num : Int) (den : Nat) : Number := roundUnits (num * (scale : Int)) den

/-- The double nearest to a whole number. -/
def ofInt (n : Int) : Number := roundUnits (n * (scale : Int)) 1

/-- Unary minus. -/
def Number.neg : Number → Number
  | .finite a => .finite (-a)
  | .posInf => .negInf
  | .negInf => .posInf
  | .nan => .nan

/-- The operator `+`, also the addition of `$inc`. -/
def Number.add : Number → Number → Number
  | .nan, _ => .nan
  | _, .nan => .nan
  | .posInf, .negInf => .nan
  | .negInf, .posInf => .nan
  | .posInf, _ => .posInf
  | .negInf, _ => .negInf
  | _, .posInf => .posInf
  | _, .negInf => .negInf
  | .finite a, .finite b => roundUnits (a + b) 1

/-- The operator `-`. -/
def Number.sub (x y : Number) : Number := x.add y.neg

/-- The sign of a number: -1, 0 or 1, and 0 for NaN. -/
def Number.sign : Number → Int
  | .finite a => Int.sign a
  | .posInf => 1
  | .negInf => -1
  | .nan => 0

/-- The operator `*`. -/
def Number.mul : Number → Number → Number
  | .nan, _ => .nan
  | _, .nan => .nan
  | .finite a, .finite b => roundUnits (a * b) scale
  | x, y =>
    if x.sign * y.sign = 0 then .nan
    else if 0 < x.sign * y.sign then .posInf else .negInf

/-- The operator `/`. -/
def Number.div : Number → Number → Number
  | .nan, _ => .nan
  | _, .nan => .nan
  | .finite a, .finite b =>
    if b = 0 then (if a = 0 then .nan else if 0 < a then .posInf else .negInf)
    else if 0 < b then roundUnits (a * (scale : Int)) b.natAbs
    else roundUnits (-a * (scale : Int)) b.natAbs
  | .finite _, _ => .finite 0
  | .posInf, .finite b => if 0 ≤ b then .posInf else .negInf
  | .negInf, .finite b => if 0 ≤ b then .negInf else .posInf
  | _, _ => .nan

/-- `Math.ceil`. -/
def Number.ceil : Number → Number
  | .finite a => .finite (-(-a / (scale : Int)) * (scale : Int))
  | x => x

/-- `Math.floor`. -/
def Number.floor : Number → Number
  | .finite a => .finite (a / (scale : Int) * (scale : Int))
  | x => x

/-- `Math.round`: the nearest whole number, a tie going up. -/
def Number.round : Number → Number
  | .finite a => .finite ((2 * a + (scale : Int)) / (2 * (scale : Int)) * (scale : Int))
  | x => x

/-- The operator `<`. -/
def Number.lt : Number → Number → Bool
  | .nan, _ => false
  | _, .nan => false
  | .finite a, .finite b => decide (a < b)
  | _, .negInf => false
  | .negInf, _ => true
  | .posInf, _ => false
  | _, .posInf => true

/-- The operator `<=`. -/
def Number.le : Number → Number → Bool
  | .nan, _ => false
  | _, .nan => false
  | x, y => !(y.lt x)

/-- The operator `===` between numbers. -/
def Number.eq : Number → Number → Bool
  | .nan, _ => false
  | _, .nan => false
  | x, y => decide (x = y)

/-- `Math.max` of two numbers. -/
def Number.max : Number → Number → Number
  | .nan, _ => .nan
  | _, .nan => .nan
  | x, y => if x.lt y then y else x

/-- Truthiness: 0 and NaN are falsy. -/
def Number.truthy : Number → Bool
  | .finite a => decide (a ≠ 0)
  | .nan => false
  | _ => true

/-- The whole number a finite double holds when it holds one; its floor otherwise, and
0 for an infinity or NaN. -/
def Number.toInt : Number → Int
  | .finite a => a / (scale : Int)
  | _ => 0

/-- The value of a finite double in units of 2^-1074; 0 for an infinity or NaN. -/
def Number.units : Number → Int
  | .finite a => a
  | _ => 0

/-- `Number.isInteger`. -/
def Number.isInteger (x : Number) : Bool :=
  decide (x = .finite (x.toInt * (scale : Int)))

end Ieee

/-! ## The ledger over JavaScript numbers

`completeTransaction` once more, with the quantities as doubles and with the key the
source gives the upsert: the transaction is read with `.populate('items.product')`, so
`item.product` is the product document, and `null` when the line names a product that
has no document. -/

namespace Ieee

/-- A document of `stockSchema`; `product` is `none` on a record upserted under a
`null` product. -/
structure Stock where
  product : Option ObjectId
  warehouse : Option ObjectId
  quantity : Number
  reservedQuantity : Number
  deriving DecidableEq, Repr

/-- A line of a transaction, `transactionItemSchema`. -/
structure TransactionItem where
  product : ObjectId
  quantity : Number
  unitPrice : Option Number
  deriving DecidableEq, Repr

/-- A document of `transactionSchema`. -/
structure Transaction where
  id : ObjectId
  type : TransactionType
  reference : Reference
  status : Status
  fromWarehouse : Option ObjectId
  toWarehouse : Option ObjectId
  supplier : Option String
  customer : Option String
  items : List TransactionItem
  notes : Option String
  createdBy : ObjectId
  completedAt : Option Nat
  deriving DecidableEq, Repr

/-- The collections `completeTransaction` reads and writes; of the product collection
only the `_id`s matter to it. -/
structure State where
  products : List ObjectId
  transactions : List Transaction
  stocks : List Stock
  deriving DecidableEq, Repr

/-- The value of `item.product` after `.populate('items.product')`, as the query casts
it: the `_id` of the product document, `null` when there is none. -/
def populate (products : List ObjectId) (item : TransactionItem) : Option ObjectId :=
  if item.product ∈ products then some item.product else none

/-- `Stock.findOne({ product, warehouse })`. -/
def findOne (stocks : List Stock) (product warehouse : Option ObjectId) : Option Stock :=
  stocks.find? (fun s => decide (s.product = product ∧ s.warehouse = warehouse))

/-- `Stock.findOneAndUpdate({ product, warehouse }, { $inc: { quantity } }, { upsert: true })`:
the matching record gets the increment added in double arithmetic; when there is none a
record is inserted whose quantity is the increment and whose other fields take their
defaults.  No validator runs on this path. -/
def findOneAndUpdate : List Stock → Option ObjectId → Option ObjectId → Number → List Stock
  | [], product, warehouse, inc =>
    [{ product := product, warehouse := warehouse, quantity := inc,
       reservedQuantity := .finite 0 }]
  | s :: rest, product, warehouse, inc =>
    if s.product = product ∧ s.warehouse = warehouse then
      { s with quantity := s.quantity.add inc } :: rest
    else
      s :: findOneAndUpdate rest product warehouse inc

/-- `Transaction.findById(id)`. -/
def findById (transactions : List Transaction) (id : ObjectId) : Option Transaction :=
  transactions.find? (fun t => decide (t.id = id))

/-- `transaction.save()` on a document that was read from the store. -/
def save : List Transaction → Transaction → List Transaction
  | [], _ => []
  | x :: rest, t => if x.id = t.id then t :: rest else x :: save rest t

/-- The `switch (transaction.type)` of `completeTransaction`: one upsert per line (two
for a transfer), in line order, keyed by the populated product. -/
def applyStock (products : List ObjectId) (transaction : Transaction) (stocks : List Stock) :
    List Stock :=
  match transaction.type with
  | .receipt =>
    transaction.items.foldl
      (fun st item =>
        findOneAndUpdate st (populate products item) transaction.toWarehouse item.quantity)
      stocks
  | .delivery =>
    transaction.items.foldl
      (fun st item =>
        findOneAndUpdate st (populate products item) transaction.fromWarehouse
          item.quantity.neg)
      stocks
  | .transfer =>
    transaction.items.foldl
      (fun st item =>
        findOneAndUpdate
          (findOneAndUpdate st (populate products item) transaction.fromWarehouse
            item.quantity.neg)
          (populate products item) transaction.toWarehouse item.quantity)
      stocks
  | .adjustment =>
    transaction.items.foldl
      (fun st item =>
        findOneAndUpdate st (populate products item) transaction.fromWarehouse item.quantity)
      stocks

/-- `completeTransaction`. -/
def completeTransaction (s : State) (id : ObjectId) (now : Nat) :
    Except ErrorResponse Transaction × State :=
  match findById s.transactions id with
  | none => (.error .transactionNotFound, s)
  | some transaction =>
    if transaction.status = .completed then
      (.error .alreadyCompleted, s)
    else if transaction.status = .cancelled then
      (.error .cannotCompleteCancelled, s)
    else
      let stocks := applyStock s.products transaction s.stocks
      let saved : Transaction :=
        { transaction with status := .completed, completedAt := some now }
      (.ok saved, { s with transactions := save s.transactions saved, stocks := stocks })

/-- The on-hand quantity read at a key: that of the record `findOne` returns, 0 when
there is none. -/
def quantityAt (stocks : List Stock) (product warehouse : Option ObjectId) : Number :=
  match findOne stocks product warehouse with
  | some stock => stock.quantity
  | none => .finite 0

/-- The sum of the quantities, taken as whole numbers, of the lines whose populated
product is `key`. -/
def lineTotal (products : List ObjectId) (items : List TransactionItem)
    (key : Option ObjectId) : Int :=
  ((items.filter (fun item => decide (populate products item = key))).map
    (fun item => item.quantity.toInt)).sum

/-- The sum of the magnitudes of the line quantities, taken as whole numbers. -/
def lineSum (items : List TransactionItem) : Nat :=
  (items.map (fun item => item.quantity.toInt.natAbs)).sum

/-- The largest magnitude among the quantities of the ledger, taken as whole numbers. -/
def largestQuantity (stocks : List Stock) : Nat :=
  (stocks.map (fun stock => stock.quantity.toInt.natAbs)).foldr Nat.max 0

/-- The exact sum, over all warehouses and in units of 2^-1074, of the quantities
recorded under a product key. -/
def stockTotal (stocks : List Stock) (key : Option ObjectId) : Int :=
  ((stocks.filter (fun stock => decide (stock.product = key))).map
    (fun stock => stock.quantity.units)).sum

/-- The change completion makes to the quantity at a key, in whole numbers. -/
def stockDelta (products : List ObjectId) (transaction : Transaction)
    (key warehouse : Option ObjectId) : Int :=
  match transaction.type with
  | .receipt =>
    if transaction.toWarehouse = warehouse then lineTotal products transaction.items key else 0
  | .delivery =>
    if transaction.fromWarehouse = warehouse then -lineTotal products transaction.items key
    else 0
  | .transfer =>
    (if transaction.toWarehouse = warehouse then lineTotal products transaction.items key
      else 0)
    - (if transaction.fromWarehouse = warehouse then lineTotal products transaction.items key
      else 0)
  | .adjustment =>
    if transaction.fromWarehouse = warehouse then lineTotal products transaction.items key
    else 0

end Ieee

namespace Ieee

/-- Whether a response is a success. -/
def isOk : Except ErrorResponse Transaction → Bool
  | .ok _ => true
  | .error _ => false

/-- A line without a unit price. -/
def line (product : ObjectId) (quantity : Number) : TransactionItem :=
  { product := product, quantity := quantity, unitPrice := none }

/-- A stock record with nothing reserved. -/
def record (product warehouse : ObjectId) (quantity : Number) : Stock :=
  { product := some product, warehouse := some warehouse, quantity := quantity,
    reservedQuantity := .finite 0 }

/-- A stored transaction in status draft. -/
def draft (id : ObjectId) (type : TransactionType) (fromWarehouse toWarehouse : Option ObjectId)
    (items : List TransactionItem) : Transaction :=
  { id := id, type := type, reference := { tag := type, timestamp := 0, random := id },
    status := .draft, fromWarehouse := fromWarehouse, toWarehouse := toWarehouse,
    supplier := none, customer := none, items := items, notes := none, createdBy := 0,
    completedAt := none }

/-- A store of whole quantities: products 1 and 2, 100 units of product 1 at warehouse 10
and 40 at warehouse 20, and four drafts: a receipt into warehouse 10 (5 and 7 units of
product 1, 3 of product 2), a delivery of 30 units of product 1 out of warehouse 10, a
transfer of 8 units of product 1 from warehouse 10 to 20, and a transfer of 8 units from
warehouse 10 to itself. -/
def wholeState : State :=
  { products := [1, 2],
    stocks := [record 1 10 (ofInt 100), record 1 20 (ofInt 40)],
    transactions :=
      [draft 1 .receipt none (some 10) [line 1 (ofInt 5), line 2 (ofInt 3), line 1 (ofInt 7)],
       draft 2 .delivery (some 10) none [line 1 (ofInt 30)],
       draft 3 .transfer (some 10) (some 20) [line 1 (ofInt 8)],
       draft 4 .transfer (some 10) (some 10) [line 1 (ofInt 8)]] }

/-- A receipt of 5 units of product 7, which has no document, into warehouse 10, on an
empty ledger. -/
def ghostState : State :=
  { products := [1], stocks := [],
    transactions := [draft 1 .receipt none (some 10) [line 7 (ofInt 5)]] }

/-- Product 1 with 5.3 units at warehouse 10, and three drafts: a receipt of 1.1 and 1.2
units into warehouse 10, a transfer of 1.1 units from warehouse 10 to itself, and a
delivery of 1.1 units out of warehouse 10. -/
def fractionalState : State :=
  { products := [1], stocks := [record 1 10 (ofRat 53 10)],
    transactions :=
      [draft 1 .receipt none (some 10) [line 1 (ofRat 11 10), line 1 (ofRat 12 10)],
       draft 2 .transfer (some 10) (some 10) [line 1 (ofRat 11 10)]] }

/-- Product 1 with 10 units at warehouse 10, and four drafts: a delivery of twice 1.1
units out of warehouse 10, a transfer of twice 1.1 units from warehouse 10 to 20, and
receipts of 1.1 and of 2.2 units into warehouse 10. -/
def tenState : State :=
  { products := [1], stocks := [record 1 10 (ofInt 10)],
    transactions :=
      [draft 1 .delivery (some 10) none [line 1 (ofRat 11 10), line 1 (ofRat 11 10)],
       draft 2 .transfer (some 10) (some 20) [line 1 (ofRat 11 10), line 1 (ofRat 11 10)],
       draft 3 .receipt none (some 10) [line 1 (ofRat 11 10)],
       draft 4 .receipt none (some 10) [line 1 (ofRat 22 10)]] }

/-- Product 1 with 10.1 units at warehouse 10 and 20.2 at warehouse 20, and a draft
transfer of 1.1 units from warehouse 10 to 20. -/
def twoWarehouseState : State :=
  { products := [1], stocks := [record 1 10 (ofRat 101 10), record 1 20 (ofRat 202 10)],
    transactions := [draft 1 .transfer (some 10) (some 20) [line 1 (ofRat 11 10)]] }

/-- Whole quantities at the edge of the exact range: product 1 with 2^53 =
9007199254740992 units at warehouse 10 and 2^53 + 2 at warehouse 20, and four drafts: a
receipt of twice 1 unit into warehouse 10, a delivery of twice 1 unit out of warehouse
20, a transfer of 1 unit from warehouse 20 to 10, and a delivery of 1 unit out of
warehouse 10. -/
def largeState : State :=
  { products := [1],
    stocks := [record 1 10 (ofInt 9007199254740992), record 1 20 (ofInt 9007199254740994)],
    transactions :=
      [draft 1 .receipt none (some 10) [line 1 (ofInt 1), line 1 (ofInt 1)],
       draft 2 .delivery (some 20) none [line 1 (ofInt 1), line 1 (ofInt 1)],
       draft 3 .transfer (some 20) (some 10) [line 1 (ofInt 1)],
       draft 4 .delivery (some 10) none [line 1 (ofInt 1)]] }

end Ieee

/-! ## The forecaster over JavaScript numbers

`calculateDailyDemand` and `forecastDemand` once more, with every quantity, quotient and
ceiling as the source computes it, in doubles.  Instants are whole milliseconds, read in
UTC.  The line filter of `forecastDemand` compares the populated product of a line with
the product of the stock record; that product has a document, so a line matches exactly
when it names the product. -/

namespace Ieee

/-- `Math.floor` for a number that is not negative and `Math.ceil` for a negative one:
`absFloor`, which `moment#diff` applies to its quotient. -/
def Number.absFloor (x : Number) : Number :=
  if x.lt (.finite 0) then x.ceil else x.floor

/-- A document of `productSchema`, with the fields the forecaster selects. -/
structure Product where
  id : ObjectId
  name : String
  sku : String
  unitOfMeasure : Option String
  minStockLevel : Option Number
  maxStockLevel : Option Number
  isActive : Bool
  deriving DecidableEq, Repr

/-- A stock document with `product` and `warehouse` populated; a warehouse that does
not resolve is `none`. -/
structure PopulatedStock where
  product : Product
  warehouse : Option Warehouse
  quantity : Number
  deriving DecidableEq, Repr

/-- The object `forecastDemand` returns. -/
structure Forecast where
  productId : ObjectId
  productName : String
  sku : String
  currentStock : Number
  minStockLevel : Number
  willRunOut : Bool
  daysUntilShortage : Number
  daysUntilMinLevel : Option Number
  suggestedReorderQuantity : Number
  confidence : Confidence
  reason : Reason
  dailyDemand : Number
  deriving DecidableEq, Repr

/-- The JavaScript `x || d` on an optional number: `undefined`, 0 and NaN give `d`. -/
def orDefault (x : Option Number) (d : Number) : Number :=
  match x with
  | some v => if v.truthy then v else d
  | none => d

/-- The filter of `calculateDailyDemand`:
`t.completedAt && new Date(t.completedAt) >= sixtyDaysAgo`. -/
def isRecent (now : Nat) (t : Transaction) : Bool :=
  match t.completedAt with
  | some completedAt => decide ((now : Int) - 60 * msPerDay ≤ (completedAt : Int))
  | none => false

/-- The `totalQuantity` of `calculateDailyDemand`: the two nested `forEach` loops add the
quantity of every line of every given transaction to a total that starts at 0. -/
def totalQuantity (recentTransactions : List Transaction) : Number :=
  recentTransactions.foldl
    (fun total transaction =>
      transaction.items.foldl (fun total item => total.add item.quantity) total)
    (.finite 0)

/-- The `oldestDate` of `calculateDailyDemand`: `moment.min` of the completion dates,
which is the current moment for an empty list. -/
def oldestDate (now : Nat) (recentTransactions : List Transaction) : Int :=
  match recentTransactions.filterMap (fun t => t.completedAt) with
  | [] => (now : Int)
  | d :: ds => ((ds.foldl min d : Nat) : Int)

/-- The `daysInPeriod` of `calculateDailyDemand`: `moment().diff(oldestDate, 'days') || 1`,
where `diff` divides the difference of the two instants by 864e5 and drops the
fraction. -/
def daysInPeriod (now : Nat) (recentTransactions : List Transaction) : Number :=
  let diff : Number :=
    (((ofInt now).sub (ofInt (oldestDate now recentTransactions))).div
      (ofInt 86400000)).absFloor
  if diff.truthy then diff else ofInt 1

/-- `calculateDailyDemand`. -/
def calculateDailyDemand (now : Nat) (transactions : List Transaction) : Number :=
  if transactions.length = 0 then .finite 0
  else
    let recentTransactions := transactions.filter (isRecent now)
    if recentTransactions.length = 0 then .finite 0
    else (totalQuantity recentTransactions).div (daysInPeriod now recentTransactions)

/-- The query of `forecastDemand`: the completed deliveries out of the warehouse that
have a `completedAt`, sorted by `completedAt` ascending, the first 200 of them. -/
def findCompletedDeliveries (transactions : List Transaction) (warehouseId : ObjectId) :
    List Transaction :=
  ((transactions.filter (fun t =>
      decide (t.type = .delivery ∧ t.status = .completed ∧
        t.fromWarehouse = some warehouseId ∧ t.completedAt.isSome = true))).insertionSort
    (fun a b => a.completedAt.getD 0 ≤ b.completedAt.getD 0)).take 200

/-- The `deliveryTransactions` of `forecastDemand`: the loaded deliveries with a line
for the product. -/
def deliveryTransactionsOf (transactions : List Transaction) (warehouseId productId : ObjectId) :
    List Transaction :=
  (findCompletedDeliveries transactions warehouseId).filter
    (fun transaction => transaction.items.any (fun item => decide (item.product = productId)))

/-- The demand-based return of `forecastDemand`, from the locals it is built of. -/
def demandForecast (stock : PopulatedStock) (minStockLevel dailyDemand : Number)
    (count : Nat) : Option Forecast :=
  let currentQuantity := stock.quantity
  let daysUntilShortage := (currentQuantity.div dailyDemand).ceil
  let daysUntilMinLevel := ((currentQuantity.sub minStockLevel).div dailyDemand).ceil
  let willRunOut : Bool := daysUntilShortage.le (ofInt 45)
  let needsReorder : Bool := daysUntilMinLevel.le (ofInt 21)
  if (!willRunOut && !needsReorder && (ofInt 60).lt daysUntilShortage) = true then none
  else
    let daysToCover := ofInt 30
    let safetyBuffer := minStockLevel
    let suggestedReorderQuantity :=
      (((dailyDemand.mul daysToCover).add safetyBuffer).sub currentQuantity).ceil
    let confidence : Confidence :=
      if count ≥ 20 then .high
      else if count < 5 then .low
      else .medium
    some
      { productId := stock.product.id, productName := stock.product.name,
        sku := stock.product.sku,
        currentStock := currentQuantity, minStockLevel := minStockLevel,
        dailyDemand := ((dailyDemand.mul (ofInt 100)).round).div (ofInt 100),
        willRunOut := willRunOut,
        daysUntilShortage := (ofInt 0).max daysUntilShortage,
        daysUntilMinLevel := some ((ofInt 0).max daysUntilMinLevel),
        suggestedReorderQuantity := suggestedReorderQuantity.max minStockLevel,
        confidence := confidence,
        reason := .basedOn count }

/-- `forecastDemand(stock)`, reading the transaction collection at time `now`;
`none` is the `null` it returns, also from its `catch`. -/
def forecastDemand (transactions : List Transaction) (now : Nat) (stock : PopulatedStock) :
    Option Forecast :=
  match stock.warehouse with
  | none => none
  | some warehouse =>
    let productId := stock.product.id
    let currentQuantity := stock.quantity
    let minStockLevel := orDefault stock.product.minStockLevel (ofInt 0)
    let maxStockLevel := orDefault stock.product.maxStockLevel (minStockLevel.mul (ofInt 2))
    let deliveryTransactions := deliveryTransactionsOf transactions warehouse.id productId
    if deliveryTransactions.length = 0 then
      if currentQuantity.le minStockLevel then
        some
          { productId := productId, productName := stock.product.name, sku := stock.product.sku,
            currentStock := currentQuantity, minStockLevel := minStockLevel,
            willRunOut := true, daysUntilShortage := ofInt 0, daysUntilMinLevel := none,
            suggestedReorderQuantity :=
              if (maxStockLevel.sub currentQuantity).truthy then
                maxStockLevel.sub currentQuantity
              else minStockLevel.mul (ofInt 2),
            confidence := .low, reason := .noHistoricalData, dailyDemand := ofInt 0 }
      else if currentQuantity.le (minStockLevel.mul (ofInt 2)) then
        some
          { productId := productId, productName := stock.product.name, sku := stock.product.sku,
            currentStock := currentQuantity, minStockLevel := minStockLevel,
            willRunOut := false, daysUntilShortage := ofInt 999,
            daysUntilMinLevel := some (ofInt 999),
            suggestedReorderQuantity := minStockLevel.mul (ofInt 2),
            confidence := .low, reason := .noHistoricalDataMonitoring, dailyDemand := ofInt 0 }
      else none
    else
      let dailyDemand := calculateDailyDemand now deliveryTransactions
      if dailyDemand.eq (ofInt 0) then
        if currentQuantity.le minStockLevel then
          some
            { productId := productId, productName := stock.product.name,
              sku := stock.product.sku,
              currentStock := currentQuantity, minStockLevel := minStockLevel,
              willRunOut := true, daysUntilShortage := ofInt 0, daysUntilMinLevel := none,
              suggestedReorderQuantity :=
                if (maxStockLevel.sub currentQuantity).truthy then
                  maxStockLevel.sub currentQuantity
                else minStockLevel.mul (ofInt 2),
              confidence := .low, reason := .noRecentDemand, dailyDemand := ofInt 0 }
        else if currentQuantity.le (minStockLevel.mul (ofRat 3 2)) then
          some
            { productId := productId, productName := stock.product.name,
              sku := stock.product.sku,
              currentStock := currentQuantity, minStockLevel := minStockLevel,
              willRunOut := false, daysUntilShortage := ofInt 999,
              daysUntilMinLevel := some (ofInt 999),
              suggestedReorderQuantity := minStockLevel.mul (ofInt 2),
              confidence := .low, reason := .noRecentDemandMonitoring, dailyDemand := ofInt 0 }
        else none
      else demandForecast stock minStockLevel dailyDemand deliveryTransactions.length

/-- The `minStockLevel` local of `forecastDemand`. -/
def minLevelOf (stock : PopulatedStock) : Number :=
  orDefault stock.product.minStockLevel (ofInt 0)

/-- The `dailyDemand` local of `forecastDemand` for a stock record at a warehouse. -/
def demandOf (transactions : List Transaction) (now : Nat) (stock : PopulatedStock)
    (warehouse : Warehouse) : Number :=
  calculateDailyDemand now (deliveryTransactionsOf transactions warehouse.id stock.product.id)

/-- The `daysUntilShortage` local of `forecastDemand`, in the words of the
specification: the ceiling of current quantity / daily demand. -/
def daysUntilShortageOf (currentQuantity dailyDemand : Number) : Number :=
  (currentQuantity.div dailyDemand).ceil

/-- The `daysUntilMinLevel` local of `forecastDemand`, in the words of the
specification: the ceiling of (current quantity - minimum level) / daily demand. -/
def daysUntilMinLevelOf (currentQuantity minStockLevel dailyDemand : Number) : Number :=
  ((currentQuantity.sub minStockLevel).div dailyDemand).ceil

/-- A completed delivery out of warehouse 10 with one line, completed at the given day. -/
def deliveryOn (id : ObjectId) (day : Nat) (product : ObjectId) (quantity : Number) :
    Transaction :=
  { draft id .delivery (some 10) none [line product quantity] with
    status := .completed, completedAt := some (day * 86400000) }

/-- Product 1 with the given minimum stock level and no maximum. -/
def product (minStockLevel : Option Number) : Product :=
  { id := 1, name := "Rod", sku := "ROD-1", unitOfMeasure := some "pcs",
    minStockLevel := minStockLevel, maxStockLevel := none, isActive := true }

/-- A stock record of product 1 at warehouse 10. -/
def stockOf (minStockLevel : Option Number) (quantity : Number) : PopulatedStock :=
  { product := product minStockLevel, warehouse := some sampleWarehouse, quantity := quantity }

end Ieee

/-! ## The slope of `linearRegression` over JavaScript numbers -/

namespace Ieee

/-- A data point `{x, y}`. -/
structure Point where
  x : Number
  y : Number
  deriving DecidableEq, Repr

/-- The five running sums of the first `forEach`. -/
structure Sums where
  sumX : Number
  sumY : Number
  sumXY : Number
  sumXX : Number
  sumYY : Number
  deriving DecidableEq, Repr

/-- The first `forEach` of `linearRegression`: every sum starts at 0 and takes one
rounded addition per point. -/
def sums (dataPoints : List Point) : Sums :=
  dataPoints.foldl
    (fun s point =>
      { sumX := s.sumX.add point.x, sumY := s.sumY.add point.y,
        sumXY := s.sumXY.add (point.x.mul point.y),
        sumXX := s.sumXX.add (point.x.mul point.x),
        sumYY := s.sumYY.add (point.y.mul point.y) })
    { sumX := .finite 0, sumY := .finite 0, sumXY := .finite 0, sumXX := .finite 0,
      sumYY := .finite 0 }

/-- The divisor of the slope: `n * sumXX - sumX * sumX`. -/
def slopeDenominator (dataPoints : List Point) : Number :=
  ((ofInt dataPoints.length).mul (sums dataPoints).sumXX).sub
    ((sums dataPoints).sumX.mul (sums dataPoints).sumX)

/-- The `slope` of `linearRegression`, for a list that passed the length check:
`(n * sumXY - sumX * sumY) / (n * sumXX - sumX * sumX)`. -/
def slope (dataPoints : List Point) : Number :=
  (((ofInt dataPoints.length).mul (sums dataPoints).sumXY).sub
    ((sums dataPoints).sumX.mul (sums dataPoints).sumY)).div (slopeDenominator dataPoints)

/-- Six points sharing the x value 0.1, with y from 1 to 6. -/
def pointsAtTenth : List Point :=
  [{ x := ofRat 1 10, y := ofInt 1 }, { x := ofRat 1 10, y := ofInt 2 },
   { x := ofRat 1 10, y := ofInt 3 }, { x := ofRat 1 10, y := ofInt 4 },
   { x := ofRat 1 10, y := ofInt 5 }, { x := ofRat 1 10, y := ofInt 6 }]

/-- Three points sharing the x value 1.3. -/
def pointsAtThirteenTenths : List Point :=
  [{ x := ofRat 13 10, y := ofInt 1 }, { x := ofRat 13 10, y := ofInt 2 },
   { x := ofRat 13 10, y := ofInt 3 }]

/-- Three points with the x values 100000000, 100000001 and 100000002. -/
def pointsFarOut : List Point :=
  [{ x := ofInt 100000000, y := ofInt 1 }, { x := ofInt 100000001, y := ofInt 2 },
   { x := ofInt 100000002, y := ofInt 3 }]

/-- Three points with the x values 0, 1 and 2, on the line `y = 2 x + 1`. -/
def pointsOnLine : List Point :=
  [{ x := ofInt 0, y := ofInt 1 }, { x := ofInt 1, y := ofInt 3 },
   { x := ofInt 2, y := ofInt 5 }]

end Ieee

/-! ## Lemmas on the stock collection -/

theorem findOne_findOneAndUpdate_of_ne (stocks : List Stock) (p : ObjectId)
    (w : Option ObjectId) (d : Int) (p' : ObjectId) (w' : Option ObjectId)
    (h : ¬ (p = p' ∧ w = w')) :
    findOne (findOneAndUpdate stocks p w d) p' w' = findOne stocks p' w' := by
  induction stocks with
  | nil =>
    simp only [findOneAndUpdate, findOne, List.find?_cons, List.find?_nil]
    simp [h]
  | cons s rest ih =>
    unfold findOneAndUpdate
    by_cases hs : s.product = p ∧ s.warehouse = w
    · rw [if_pos hs]
      have hne : ¬ (s.product = p' ∧ s.warehouse = w') := by
        rintro ⟨h1, h2⟩
        exact h ⟨hs.1 ▸ h1, hs.2 ▸ h2⟩
      simp only [findOne, List.find?_cons]
      simp [hne]
    · rw [if_neg hs]
      simp only [findOne, List.find?_cons] at ih ⊢
      by_cases hk : s.product = p' ∧ s.warehouse = w'
      · simp [hk]
      · simp only [hk, decide_False]
        exact ih

theorem quantityAt_findOneAndUpdate (stocks : List Stock) (p : ObjectId)
    (w : Option ObjectId) (d : Int) (p' : ObjectId) (w' : Option ObjectId) :
    quantityAt (findOneAndUpdate stocks p w d) p' w'
      = quantityAt stocks p' w' + (if p = p' ∧ w = w' then d else 0) := by
  by_cases h : p = p' ∧ w = w'
  · obtain ⟨rfl, rfl⟩ := h
    simp only [and_self, if_true]
    induction stocks with
    | nil => simp [findOneAndUpdate, quantityAt, findOne]
    | cons s rest ih =>
      unfold findOneAndUpdate
      by_cases hs : s.product = p ∧ s.warehouse = w
      · rw [if_pos hs]
        simp [quantityAt, findOne, List.find?_cons, hs]
      · rw [if_neg hs]
        simp only [quantityAt, findOne, List.find?_cons] at ih ⊢
        simp only [hs, decide_False]
        exact ih
  · rw [if_neg h, add_zero]
    unfold quantityAt
    rw [findOne_findOneAndUpdate_of_ne stocks p w d p' w' h]

/-- A loop of upserts at one warehouse, each line adding `f line`. -/
theorem quantityAt_foldl (f : TransactionItem → Int) (w : Option ObjectId)
    (items : List TransactionItem) (stocks : List Stock) (p' : ObjectId)
    (w' : Option ObjectId) :
    quantityAt (items.foldl (fun st item => findOneAndUpdate st item.product w (f item)) stocks)
        p' w'
      = quantityAt stocks p' w'
        + (if w = w' then
            ((items.filter (fun item => decide (item.product = p'))).map f).sum
           else 0) := by
  induction items generalizing stocks with
  | nil => simp
  | cons item rest ih =>
    rw [List.foldl_cons, ih, quantityAt_findOneAndUpdate]
    by_cases hw : w = w'
    · by_cases hp : item.product = p'
      · simp [hw, hp, List.filter_cons, add_assoc]
      · simp [hw, hp, List.filter_cons]
    · simp [hw]

theorem findOne_foldl_of_ne (f : TransactionItem → Int) (w : Option ObjectId)
    (items : List TransactionItem) (stocks : List Stock) (p' : ObjectId)
    (w' : Option ObjectId) (h : w ≠ w' ∨ ∀ item ∈ items, item.product ≠ p') :
    findOne (items.foldl (fun st item => findOneAndUpdate st item.product w (f item)) stocks)
        p' w' = findOne stocks p' w' := by
  induction items generalizing stocks with
  | nil => simp
  | cons item rest ih =>
    rw [List.foldl_cons, ih, findOne_findOneAndUpdate_of_ne]
    · rintro ⟨hp, hw⟩
      rcases h with h | h
      · exact h hw
      · exact h item (List.mem_cons_self _ _) hp
    · rcases h with h | h
      · exact Or.inl h
      · exact Or.inr (fun x hx => h x (List.mem_cons_of_mem _ hx))

theorem sum_map_neg_quantity (items : List TransactionItem) :
    (items.map (fun item => -item.quantity)).sum = -(items.map (fun item => item.quantity)).sum := by
  induction items with
  | nil => simp
  | cons item rest ih => simp [ih]; ring

/-- The loop of a transfer: per line one upsert at the source, one at the destination. -/
theorem quantityAt_foldl_transfer (src dst : Option ObjectId)
    (items : List TransactionItem) (stocks : List Stock) (p' : ObjectId)
    (w' : Option ObjectId) :
    quantityAt
        (items.foldl
          (fun st item =>
            findOneAndUpdate (findOneAndUpdate st item.product src (-item.quantity))
              item.product dst item.quantity)
          stocks) p' w'
      = quantityAt stocks p' w'
        - (if src = w' then lineTotal items p' else 0)
        + (if dst = w' then lineTotal items p' else 0) := by
  induction items generalizing stocks with
  | nil => simp [lineTotal]
  | cons item rest ih =>
    rw [List.foldl_cons, ih, quantityAt_findOneAndUpdate, quantityAt_findOneAndUpdate]
    by_cases hp : item.product = p'
    · by_cases h1 : src = w' <;> by_cases h2 : dst = w' <;>
        simp [hp, h1, h2, lineTotal, List.filter_cons] <;> ring
    · by_cases h1 : src = w' <;> by_cases h2 : dst = w' <;>
        simp [hp, h1, h2, lineTotal, List.filter_cons]

/-! ## Lemmas on the transaction collection -/

theorem findById_some_id {transactions : List Transaction} {id : ObjectId}
    {t : Transaction} (h : findById transactions id = some t) : t.id = id := by
  have := List.find?_some h
  simpa using this

theorem findById_save_self (transactions : List Transaction) (t t' : Transaction)
    (h : findById transactions t'.id = some t) :
    findById (save transactions t') t'.id = some t' := by
  induction transactions with
  | nil => simp [findById] at h
  | cons x rest ih =>
    unfold save
    by_cases hx : x.id = t'.id
    · simp [hx, findById]
    · rw [if_neg hx]
      simp only [findById, List.find?_cons, hx, decide_False] at h ih ⊢
      exact ih h

theorem findById_save_of_ne (transactions : List Transaction) (t' : Transaction)
    (id : ObjectId) (h : t'.id ≠ id) :
    findById (save transactions t') id = findById transactions id := by
  induction transactions with
  | nil => simp [save]
  | cons x rest ih =>
    unfold save
    by_cases hx : x.id = t'.id
    · rw [if_pos hx]
      have hx' : x.id ≠ id := hx ▸ h
      simp [findById, List.find?_cons, h, hx']
    · rw [if_neg hx]
      simp only [findById, List.find?_cons] at ih ⊢
      rw [ih]

theorem save_eq_self (transactions : List Transaction) (t : Transaction)
    (h : findById transactions t.id = some t) : save transactions t = transactions := by
  induction transactions with
  | nil => rfl
  | cons x rest ih =>
    unfold save
    by_cases hx : x.id = t.id
    · rw [if_pos hx]
      simp [findById, List.find?_cons, hx] at h
      rw [h]
    · rw [if_neg hx]
      simp only [findById, List.find?_cons, hx, decide_False] at h ih
      rw [ih h]

theorem findById_append (transactions extra : List Transaction) (id : ObjectId)
    (t : Transaction) (h : findById transactions id = some t) :
    findById (transactions ++ extra) id = some t := by
  simp only [findById] at h ⊢
  rw [List.find?_append, h]
  rfl

/-- `Transaction.create` either leaves the collection as it is or adds one document
at its end. -/
theorem create_transactions (transactions : List Transaction) (now random : Nat)
    (type : TransactionType) (fromWarehouse toWarehouse : Option ObjectId)
    (supplier customer : Option String) (items : List TransactionItem)
    (notes : Option String) (createdBy : ObjectId) :
    (create transactions now random type fromWarehouse toWarehouse supplier customer items
        notes createdBy).2 = transactions ∨
    ∃ t, (create transactions now random type fromWarehouse toWarehouse supplier customer
        items notes createdBy).2 = transactions ++ [t] := by
  unfold create
  by_cases hv : validate items = true
  · rw [if_pos hv]
    by_cases hd : (transactions.any fun t =>
        decide (t.reference = { tag := type, timestamp := now, random := random })) = true
    · exact Or.inl (by simp only [hd, if_true])
    · exact Or.inr ⟨_, by simp only [hd, if_false]; rfl⟩
  · rw [if_neg hv]
    exact Or.inl rfl

theorem create_invalid (transactions : List Transaction) (now random : Nat)
    (type : TransactionType) (fromWarehouse toWarehouse : Option ObjectId)
    (supplier customer : Option String) (items : List TransactionItem)
    (notes : Option String) (createdBy : ObjectId)
    (h : ∃ item ∈ items, item.quantity < 1) :
    create transactions now random type fromWarehouse toWarehouse supplier customer items
        notes createdBy = (.error .validationError, transactions) := by
  obtain ⟨item, hmem, hq⟩ := h
  have hv : validate items = false := by
    simp only [validate, List.all_eq_false]
    exact ⟨item, hmem, by simp [validItem, not_le.mpr hq]⟩
  simp [create, hv]

/-! ## Completion -/

theorem completeTransaction_of_pending (s : State) (id : ObjectId) (now : Nat)
    (t : Transaction) (hfind : findById s.transactions id = some t)
    (hstatus : t.status.terminal = false) :
    completeTransaction s id now =
      (.ok { t with status := .completed, completedAt := some now },
        { transactions :=
            save s.transactions { t with status := .completed, completedAt := some now },
          stocks := applyStock t s.stocks }) := by
  have h1 : t.status ≠ .completed := by
    intro h; rw [h] at hstatus; simp [Status.terminal] at hstatus
  have h2 : t.status ≠ .cancelled := by
    intro h; rw [h] at hstatus; simp [Status.terminal] at hstatus
  simp [completeTransaction, hfind, h1, h2]

/-! ## The lifecycle -/

/-- C4: `completeTransaction` answers 404 'not found' when no transaction has the id,
400 when the transaction is completed or cancelled (the store is then left untouched),
and in every other status (draft, waiting, ready) it succeeds and the stored record has
status completed and `completedAt` set to the time of the call.  So it fails exactly
when the id is unknown or the status is completed or cancelled. -/
theorem completeTransaction_outcome (s : State) (id : ObjectId) (now : Nat) :
    (findById s.transactions id = none →
      completeTransaction s id now = (.error .transactionNotFound, s)) ∧
    (∀ t, findById s.transactions id = some t → t.status = .completed →
      completeTransaction s id now = (.error .alreadyCompleted, s)) ∧
    (∀ t, findById s.transactions id = some t → t.status = .cancelled →
      completeTransaction s id now = (.error .cannotCompleteCancelled, s)) ∧
    (∀ t, findById s.transactions id = some t →
      (t.status = .draft ∨ t.status = .waiting ∨ t.status = .ready) →
      ∃ saved, (completeTransaction s id now).1 = .ok saved ∧
        findById (completeTransaction s id now).2.transactions id = some saved ∧
        saved.status = .completed ∧ saved.completedAt = some now) ∧
    ((∃ e, (completeTransaction s id now).1 = .error e) ↔
      (findById s.transactions id = none ∨
        ∃ t, findById s.transactions id = some t ∧
          (t.status = .completed ∨ t.status = .cancelled))) ∧
    ErrorResponse.statusCode .transactionNotFound = some 404 ∧
    ErrorResponse.statusCode .alreadyCompleted = some 400 ∧
    ErrorResponse.statusCode .cannotCompleteCancelled = some 400 := by
  refine ⟨fun h => ?_, fun t h hs => ?_, fun t h hs => ?_, fun t h hs => ?_, ?_, rfl, rfl, rfl⟩
  · simp [completeTransaction, h]
  · simp [completeTransaction, h, hs]
  · simp [completeTransaction, h, hs]
  · have hterm : t.status.terminal = false := by
      rcases hs with hs | hs | hs <;> rw [hs] <;> rfl
    rw [completeTransaction_of_pending s id now t h hterm]
    refine ⟨_, rfl, ?_, rfl, rfl⟩
    have hid : t.id = id := findById_some_id h
    have := findById_save_self s.transactions t
      { t with status := .completed, completedAt := some now } (by simpa [hid] using h)
    simpa [hid] using this
  · cases h : findById s.transactions id with
    | none => simp [completeTransaction, h]
    | some t =>
      by_cases h1 : t.status = .completed
      · simp [completeTransaction, h, h1]
      · by_cases h2 : t.status = .cancelled
        · simp [completeTransaction, h, h2]
        · simp [completeTransaction, h, h1, h2]

theorem completeTransaction_outcome_witness :
    findById mixedState.transactions 9 = none ∧
    completeTransaction mixedState 9 7 = (.error .transactionNotFound, mixedState) ∧
    findById mixedState.transactions 5 = some completedReceipt ∧
    completeTransaction mixedState 5 7 = (.error .alreadyCompleted, mixedState) ∧
    findById mixedState.transactions 6 = some cancelledDelivery ∧
    completeTransaction mixedState 6 7 = (.error .cannotCompleteCancelled, mixedState) ∧
    findById mixedState.transactions 1 = some sampleReceipt ∧
    (∃ saved, (completeTransaction mixedState 1 7).1 = .ok saved ∧
        findById (completeTransaction mixedState 1 7).2.transactions 1 = some saved ∧
        saved.status = .completed ∧ saved.completedAt = some 7) :=
  ⟨by decide,
    (completeTransaction_outcome mixedState 9 7).1 (by decide),
    by decide,
    (completeTransaction_outcome mixedState 5 7).2.1 completedReceipt (by decide) (by decide),
    by decide,
    (completeTransaction_outcome mixedState 6 7).2.2.1 cancelledDelivery (by decide)
      (by decide),
    by decide,
    (completeTransaction_outcome mixedState 1 7).2.2.2.1 sampleReceipt (by decide)
      (Or.inl (by decide))⟩

/-- C5, as stated, fails: for a transaction that is already cancelled the first of two
`completeTransaction` calls does not succeed; it is rejected and the ledger never
receives the transaction's stock effect. -/
theorem completeTransaction_cancelled_first_call :
    findById mixedState.transactions 6 = some cancelledDelivery ∧
    completeTransaction mixedState 6 7 = (.error .cannotCompleteCancelled, mixedState) ∧
    (¬ ∃ saved, (completeTransaction mixedState 6 7).1 = .ok saved) ∧
    (completeTransaction (completeTransaction mixedState 6 7).2 6 8).2.stocks
      ≠ applyStock cancelledDelivery mixedState.stocks := by
  refine ⟨by decide, rfl, ?_, by decide⟩
  rintro ⟨saved, h⟩
  cases h

/-- C5 (amended): for a transaction in a non-terminal status, completing it and then
completing the same id again: the first call succeeds, the second is rejected with 400
'already completed' and leaves the stock ledger and the transaction records exactly as
the first call left them, so the ledger holds the transaction's stock effect applied
once.  For a transaction that is already completed or cancelled the first call is
rejected and changes nothing. -/
theorem completeTransaction_twice (s : State) (id : ObjectId) (now later : Nat)
    (t : Transaction) (hfind : findById s.transactions id = some t) :
    (t.status.terminal = false →
      (∃ saved, (completeTransaction s id now).1 = .ok saved) ∧
      completeTransaction (completeTransaction s id now).2 id later
        = (.error .alreadyCompleted, (completeTransaction s id now).2) ∧
      (completeTransaction (completeTransaction s id now).2 id later).2.stocks
        = applyStock t s.stocks) ∧
    (t.status.terminal = true →
      (∃ e, (completeTransaction s id now).1 = .error e) ∧
      (completeTransaction s id now).2 = s) ∧
    ErrorResponse.statusCode .alreadyCompleted = some 400 := by
  refine ⟨fun hstatus => ?_, fun hterm => ?_, rfl⟩
  · have hid : t.id = id := findById_some_id hfind
    have hsaved := findById_save_self s.transactions t
      { t with status := .completed, completedAt := some now } (by simpa [hid] using hfind)
    rw [completeTransaction_of_pending s id now t hfind hstatus]
    have hsecond : completeTransaction
        { transactions :=
            save s.transactions { t with status := .completed, completedAt := some now },
          stocks := applyStock t s.stocks } id later
        = (.error .alreadyCompleted,
            { transactions :=
                save s.transactions { t with status := .completed, completedAt := some now },
              stocks := applyStock t s.stocks }) := by
      have h' : findById
          (save s.transactions { t with status := .completed, completedAt := some now }) id
          = some { t with status := .completed, completedAt := some now } := by
        simpa [hid] using hsaved
      simp [completeTransaction, h']
    exact ⟨⟨_, rfl⟩, hsecond, by rw [hsecond]⟩
  · by_cases h1 : t.status = .completed
    · simp [completeTransaction, hfind, h1]
    · have h2 : t.status = .cancelled := by
        cases hst : t.status <;> simp_all [Status.terminal]
      simp [completeTransaction, hfind, h2]

theorem completeTransaction_twice_witness :
    findById sampleState.transactions 1 = some sampleReceipt ∧
    sampleReceipt.status.terminal = false ∧
    completeTransaction (completeTransaction sampleState 1 7).2 1 8
      = (.error .alreadyCompleted, (completeTransaction sampleState 1 7).2) :=
  ⟨by decide, by decide,
    ((completeTransaction_twice sampleState 1 7 8 sampleReceipt (by decide)).1
      (by decide)).2.1⟩

/-- C6: `cancelTransaction` on a completed transaction is rejected (400) and changes
nothing; on a draft, waiting or ready transaction it succeeds, the stored record has
status cancelled, and the stock collection is the same list of records as before. -/
theorem cancelTransaction_outcome (s : State) (id : ObjectId) (t : Transaction)
    (hfind : findById s.transactions id = some t) :
    (t.status = .completed →
      cancelTransaction s id = (.error .cannotCancelCompleted, s)) ∧
    ((t.status = .draft ∨ t.status = .waiting ∨ t.status = .ready) →
      ∃ saved, (cancelTransaction s id).1 = .ok saved ∧
        findById (cancelTransaction s id).2.transactions id = some saved ∧
        saved.status = .cancelled ∧
        (cancelTransaction s id).2.stocks = s.stocks) ∧
    ErrorResponse.statusCode .cannotCancelCompleted = some 400 := by
  refine ⟨fun hs => ?_, fun hs => ?_, rfl⟩
  · simp [cancelTransaction, hfind, hs]
  · have hne : t.status ≠ .completed := by
      rcases hs with hs | hs | hs <;> rw [hs] <;> decide
    have hid : t.id = id := findById_some_id hfind
    have hsaved := findById_save_self s.transactions t
      { t with status := .cancelled } (by simpa [hid] using hfind)
    have hrun : cancelTransaction s id =
        (.ok { t with status := .cancelled },
          { s with transactions := save s.transactions { t with status := .cancelled } }) := by
      simp [cancelTransaction, hfind, hne]
    rw [hrun]
    exact ⟨_, rfl, by simpa [hid] using hsaved, rfl, rfl⟩

theorem cancelTransaction_outcome_witness :
    findById mixedState.transactions 5 = some completedReceipt ∧
    completedReceipt.status = .completed ∧
    cancelTransaction mixedState 5 = (.error .cannotCancelCompleted, mixedState) ∧
    findById mixedState.transactions 1 = some sampleReceipt ∧
    sampleReceipt.status = .draft ∧
    (∃ saved, (cancelTransaction mixedState 1).1 = .ok saved ∧
        findById (cancelTransaction mixedState 1).2.transactions 1 = some saved ∧
        saved.status = .cancelled ∧
        (cancelTransaction mixedState 1).2.stocks = mixedState.stocks) :=
  ⟨by decide, by decide,
    (cancelTransaction_outcome mixedState 5 completedReceipt (by decide)).1 (by decide),
    by decide, by decide,
    (cancelTransaction_outcome mixedState 1 sampleReceipt (by decide)).2.1
      (Or.inl (by decide))⟩

/-- A terminal transaction is left as it is by every request. -/
theorem step_terminal (s : State) (op : Op) (id : ObjectId) (t : Transaction)
    (hfind : findById s.transactions id = some t) (hterm : t.status.terminal = true) :
    findById (step s op).2.transactions id = some t := by
  have hcreate : ∀ r : Except ErrorResponse Transaction × List Transaction,
      (r.2 = s.transactions ∨ ∃ x, r.2 = s.transactions ++ [x]) →
      findById r.2 id = some t := by
    intro r hr
    rcases hr with hr | ⟨x, hr⟩
    · rw [hr]; exact hfind
    · rw [hr]; exact findById_append _ _ _ _ hfind
  have hother : ∀ (id' : ObjectId) (t' saved : Transaction),
      findById s.transactions id' = some t' → saved.id = t'.id → id' ≠ id →
      findById (save s.transactions saved) id = some t := by
    intro id' t' saved h' hsid hne
    rw [findById_save_of_ne _ _ _ (by rw [hsid, findById_some_id h']; exact hne)]
    exact hfind
  cases op with
  | receipt now random user body =>
    exact hcreate _ (create_transactions _ _ _ _ _ _ _ _ _ _ _)
  | delivery now random user body =>
    simp only [step, createDelivery]
    cases checkDelivery s.stocks body.fromWarehouse body.items with
    | some e => exact hfind
    | none => exact hcreate _ (create_transactions _ _ _ _ _ _ _ _ _ _ _)
  | transfer now random user body =>
    simp only [step, createTransfer]
    cases checkTransfer s.stocks body.fromWarehouse body.items with
    | some e => exact hfind
    | none => exact hcreate _ (create_transactions _ _ _ _ _ _ _ _ _ _ _)
  | adjustment now random user body =>
    exact hcreate _ (create_transactions _ _ _ _ _ _ _ _ _ _ _)
  | complete id' now =>
    simp only [step, completeTransaction]
    cases h' : findById s.transactions id' with
    | none => exact hfind
    | some t' =>
      by_cases h1 : t'.status = .completed
      · simp only [h1, if_true]; exact hfind
      · by_cases h2 : t'.status = .cancelled
        · simp only [h2, if_true]
          exact hfind
        · simp only [h1, h2, if_false]
          have hne : id' ≠ id := by
            rintro rfl
            rw [hfind] at h'
            cases h'
            cases hst : t.status <;> simp_all [Status.terminal]
          exact hother id' t' _ h' rfl hne
  | cancel id' =>
    simp only [step, cancelTransaction]
    cases h' : findById s.transactions id' with
    | none => exact hfind
    | some t' =>
      by_cases h1 : t'.status = .completed
      · simp only [h1, if_true]; exact hfind
      · simp only [h1, if_false]
        by_cases hid : id' = id
        · subst hid
          rw [hfind] at h'
          cases h'
          have hc : t.status = .cancelled := by
            cases hst : t.status <;> simp_all [Status.terminal]
          have hsame : ({ t with status := .cancelled } : Transaction) = t := by
            cases t; simp_all
          rw [hsame, save_eq_self _ _ (by rw [findById_some_id hfind]; exact hfind)]
          exact hfind
        · exact hother id' t' _ h' rfl hid

/-- C7: terminal states are absorbing.  From any store in which the transaction with
a given id is completed or cancelled, after every sequence of create, complete and
cancel requests (whether they succeed or fail) the store holds that same record under
that id; its status in particular has not changed. -/
theorem terminal_absorbing (s : State) (ops : List Op) (id : ObjectId) (t : Transaction)
    (hfind : findById s.transactions id = some t) (hterm : t.status.terminal = true) :
    findById (run s ops).transactions id = some t ∧
    ∃ t', findById (run s ops).transactions id = some t' ∧ t'.status = t.status := by
  have key : findById (run s ops).transactions id = some t := by
    induction ops generalizing s with
    | nil => exact hfind
    | cons op rest ih =>
      simp only [run, List.foldl_cons]
      exact ih (step s op).2 (step_terminal s op id t hfind hterm)
  exact ⟨key, t, key, rfl⟩

theorem terminal_absorbing_witness :
    findById mixedState.transactions 5 = some completedReceipt ∧
    completedReceipt.status.terminal = true ∧
    findById
      (run mixedState
        [.cancel 5, .complete 5 9, .receipt 10 1 0 receiptWithoutWarehouse, .complete 1 11,
         .cancel 6]).transactions 5 = some completedReceipt :=
  ⟨by decide, by decide,
    (terminal_absorbing mixedState
      [.cancel 5, .complete 5 9, .receipt 10 1 0 receiptWithoutWarehouse, .complete 1 11,
       .cancel 6] 5 completedReceipt (by decide) (by decide)).1⟩

/-! ## Creation -/

/-- The loop of `createDelivery` stops at a line that asks for more than is available,
when there is one. -/
theorem checkDelivery_of_exists (stocks : List Stock) (w : Option ObjectId)
    (items : List TransactionItem)
    (h : ∃ item ∈ items, availableAt stocks item.product w < item.quantity) :
    ∃ item ∈ items, availableAt stocks item.product w < item.quantity ∧
      checkDelivery stocks w items
        = some (.insufficientStock (availableAt stocks item.product w) item.quantity) := by
  induction items with
  | nil => simp at h
  | cons x rest ih =>
    by_cases hx : availableAt stocks x.product w < x.quantity
    · refine ⟨x, List.mem_cons_self _ _, hx, ?_⟩
      unfold availableAt at hx
      simp only [checkDelivery, availableAt]
      rw [if_pos hx]
    · have hrest : ∃ item ∈ rest, availableAt stocks item.product w < item.quantity := by
        obtain ⟨item, hmem, hlt⟩ := h
        rcases List.mem_cons.mp hmem with rfl | hmem
        · exact absurd hlt hx
        · exact ⟨item, hmem, hlt⟩
      obtain ⟨item, hmem, hlt, hres⟩ := ih hrest
      refine ⟨item, List.mem_cons_of_mem _ hmem, hlt, ?_⟩
      unfold availableAt at hx
      simp only [checkDelivery]
      rw [if_neg hx]
      exact hres

/-- The loop of `createDelivery` lets the request through exactly when no line asks
for more than is available. -/
theorem checkDelivery_eq_none (stocks : List Stock) (w : Option ObjectId)
    (items : List TransactionItem) :
    checkDelivery stocks w items = none ↔
      ∀ item ∈ items, item.quantity ≤ availableAt stocks item.product w := by
  induction items with
  | nil => simp [checkDelivery]
  | cons x rest ih =>
    by_cases hx : availableAt stocks x.product w < x.quantity
    · have hx' := hx
      unfold availableAt at hx'
      simp only [checkDelivery, if_pos hx']
      simp only [List.mem_cons, forall_eq_or_imp, not_le.mpr hx, false_and]
      simp
    · have hx' := hx
      unfold availableAt at hx'
      simp only [checkDelivery, if_neg hx']
      rw [ih]
      simp [List.mem_cons, not_lt.mp hx]

/-- The only error the loop of `createDelivery` raises is its insufficient-stock error. -/
theorem checkDelivery_some (stocks : List Stock) (w : Option ObjectId)
    (items : List TransactionItem) (e : ErrorResponse)
    (hc : checkDelivery stocks w items = some e) : ∃ a r, e = .insufficientStock a r := by
  induction items with
  | nil => simp [checkDelivery] at hc
  | cons x rest ih =>
    simp only [checkDelivery] at hc
    split_ifs at hc with hx
    · exact ⟨_, _, (Option.some.inj hc).symm⟩
    · exact ih hc

/-- The only error the loop of `createTransfer` raises is its insufficient-stock error. -/
theorem checkTransfer_some (stocks : List Stock) (w : Option ObjectId)
    (items : List TransactionItem) (e : ErrorResponse)
    (hc : checkTransfer stocks w items = some e) :
    ∃ a r, e = .insufficientStockTransfer a r := by
  induction items with
  | nil => simp [checkTransfer] at hc
  | cons x rest ih =>
    simp only [checkTransfer] at hc
    split at hc
    · exact ⟨_, _, (Option.some.inj hc).symm⟩
    · split_ifs at hc with hx
      · exact ⟨_, _, (Option.some.inj hc).symm⟩
      · exact ih hc

/-- C8: when some line of a delivery request asks for more than
`quantity - reservedQuantity` of the stock record at (line.product, fromWarehouse), taken
as 0 when there is no record, `createDelivery` fails with the insufficient-stock error
(400) naming such a line, and the store (transaction records and stock ledger) is
unchanged. -/
theorem createDelivery_insufficient (s : State) (now random : Nat) (user : ObjectId)
    (body : DeliveryBody)
    (h : ∃ item ∈ body.items,
      availableAt s.stocks item.product body.fromWarehouse < item.quantity) :
    ∃ item ∈ body.items,
      availableAt s.stocks item.product body.fromWarehouse < item.quantity ∧
      createDelivery s now random user body
        = (.error (.insufficientStock
            (availableAt s.stocks item.product body.fromWarehouse) item.quantity), s) ∧
      ErrorResponse.statusCode (.insufficientStock
            (availableAt s.stocks item.product body.fromWarehouse) item.quantity)
        = some 400 := by
  obtain ⟨item, hmem, hlt, hres⟩ := checkDelivery_of_exists s.stocks body.fromWarehouse
    body.items h
  refine ⟨item, hmem, hlt, ?_, rfl⟩
  simp only [createDelivery, hres]

theorem createDelivery_insufficient_witness :
    (∃ item ∈ deliveryOfEight.items,
      availableAt reservedState.stocks item.product deliveryOfEight.fromWarehouse
        < item.quantity) ∧
    (∃ item ∈ deliveryOfEight.items,
      availableAt reservedState.stocks item.product deliveryOfEight.fromWarehouse
        < item.quantity ∧
      createDelivery reservedState 0 0 0 deliveryOfEight
        = (.error (.insufficientStock
            (availableAt reservedState.stocks item.product deliveryOfEight.fromWarehouse)
            item.quantity), reservedState) ∧
      ErrorResponse.statusCode (.insufficientStock
            (availableAt reservedState.stocks item.product deliveryOfEight.fromWarehouse)
            item.quantity)
        = some 400) :=
  ⟨⟨_, List.mem_cons_self _ _, by decide⟩,
    createDelivery_insufficient reservedState 0 0 0 deliveryOfEight
      ⟨_, List.mem_cons_self _ _, by decide⟩⟩

/-- C9 at the failing input: with 10 units on hand of which 5 are reserved, a transfer
of 8 asks for more than the 5 available, yet `createTransfer` accepts it and stores a
draft, while `createDelivery` rejects the same line with the insufficient-stock error. -/
theorem createTransfer_ignores_reserved :
    availableAt reservedState.stocks 1 transferOfEight.fromWarehouse = 5 ∧
    (∃ item ∈ transferOfEight.items,
      availableAt reservedState.stocks item.product transferOfEight.fromWarehouse
        < item.quantity) ∧
    (∃ t, (createTransfer reservedState 0 0 0 transferOfEight).1 = .ok t ∧
      t.status = .draft ∧
      (createTransfer reservedState 0 0 0 transferOfEight).2.transactions = [t]) ∧
    createDelivery reservedState 0 0 0 deliveryOfEight
      = (.error (.insufficientStock 5 8), reservedState) := by
  refine ⟨by decide, ⟨_, List.mem_cons_self _ _, by decide⟩, ⟨_, rfl, rfl, rfl⟩, rfl⟩

/-- C10, as stated, fails: a receipt request with an empty item list is accepted and
stored, and so is a receipt request without `toWarehouse`. -/
theorem createReceipt_accepts_empty_and_missing :
    emptyReceipt.items = [] ∧
    (∃ t, (createReceipt emptyState 0 0 0 emptyReceipt).1 = .ok t ∧
      (createReceipt emptyState 0 0 0 emptyReceipt).2.transactions = [t]) ∧
    receiptWithoutWarehouse.toWarehouse = none ∧
    (∃ t, (createReceipt emptyState 0 0 0 receiptWithoutWarehouse).1 = .ok t ∧
      (createReceipt emptyState 0 0 0 receiptWithoutWarehouse).2.transactions = [t]) := by
  exact ⟨rfl, ⟨_, rfl, rfl⟩, rfl, ⟨_, rfl, rfl⟩⟩

/-- C10 (amended): for each of the four creation requests, when some line has
quantity < 1 the creation fails and the store is unchanged, so no record is stored.
`createReceipt` and `createAdjustment` fail with the validation error; `createDelivery`
and `createTransfer` fail with the validation error or, when their stock check stops
the request first, with their insufficient-stock error. -/
theorem create_rejects_quantity_below_one (s : State) (now random : Nat) (user : ObjectId) :
    (∀ body : ReceiptBody, (∃ item ∈ body.items, item.quantity < 1) →
      createReceipt s now random user body = (.error .validationError, s)) ∧
    (∀ body : AdjustmentBody, (∃ item ∈ body.items, item.quantity < 1) →
      createAdjustment s now random user body = (.error .validationError, s)) ∧
    (∀ body : DeliveryBody, (∃ item ∈ body.items, item.quantity < 1) →
      createDelivery s now random user body = (.error .validationError, s) ∨
      ∃ a r, createDelivery s now random user body = (.error (.insufficientStock a r), s)) ∧
    (∀ body : TransferBody, (∃ item ∈ body.items, item.quantity < 1) →
      createTransfer s now random user body = (.error .validationError, s) ∨
      ∃ a r, createTransfer s now random user body
        = (.error (.insufficientStockTransfer a r), s)) := by
  refine ⟨fun body h => ?_, fun body h => ?_, fun body h => ?_, fun body h => ?_⟩
  · simp only [createReceipt, create_invalid _ _ _ _ _ _ _ _ _ _ _ h]
  · simp only [createAdjustment, create_invalid _ _ _ _ _ _ _ _ _ _ _ h]
  · simp only [createDelivery]
    cases hc : checkDelivery s.stocks body.fromWarehouse body.items with
    | none =>
      left
      simp only [create_invalid _ _ _ _ _ _ _ _ _ _ _ h]
    | some e =>
      right
      obtain ⟨a, r, rfl⟩ := checkDelivery_some _ _ _ _ hc
      exact ⟨a, r, rfl⟩
  · simp only [createTransfer]
    cases hc : checkTransfer s.stocks body.fromWarehouse body.items with
    | none =>
      left
      simp only [create_invalid _ _ _ _ _ _ _ _ _ _ _ h]
    | some e =>
      right
      obtain ⟨a, r, rfl⟩ := checkTransfer_some _ _ _ _ hc
      exact ⟨a, r, rfl⟩

theorem create_rejects_quantity_below_one_witness :
    (∃ item ∈ receiptOfZero.items, item.quantity < 1) ∧
    createReceipt emptyState 0 0 0 receiptOfZero = (.error .validationError, emptyState) :=
  ⟨⟨_, List.mem_cons_self _ _, by decide⟩,
    (create_rejects_quantity_below_one emptyState 0 0 0).1 receiptOfZero
      ⟨_, List.mem_cons_self _ _, by decide⟩⟩

/-! ## Adjustments, the sign of quantities, the scenario -/

/-- C11 at the failing input: `createAdjustment` with a line of quantity -5 is refused
with the validation error and nothing is stored, although completing a stored
adjustment whose line is -5 does lower the quantity at (item, fromWarehouse) by 5. -/
theorem createAdjustment_rejects_negative_line :
    createAdjustment sampleState 1 0 0 negativeAdjustment
      = (.error .validationError, sampleState) ∧
    quantityAt sampleState.stocks 1 (some 10) = 100 ∧
    quantityAt
      (completeTransaction
        { sampleState with transactions := [storedNegativeAdjustment] } 7 9).2.stocks
      1 (some 10) = 95 := by
  refine ⟨rfl, by decide, by decide⟩

/-- C12 at the failing input: from a ledger whose only record holds 10 units, creating
two deliveries of 10 (both pass the availability check, nothing being reserved) and
completing both leaves the record at -10. -/
theorem two_deliveries_reach_negative_stock :
    nonNegative tenUnitsState.stocks = true ∧
    (responses tenUnitsState twoDeliveries).all isOk = true ∧
    quantityAt (run tenUnitsState twoDeliveries).stocks 1 (some 10) = -10 ∧
    nonNegative (run tenUnitsState twoDeliveries).stocks = false := by
  decide

/-- C14: the scenario.  Starting with 100 Rod at A and no record at B, whatever the
times, random draws and user: every creation and completion succeeds, and the quantity
of Rod is 150 at A after the receipt, 120 at A after the delivery, 100 at A and 20 at B
after the transfer. -/
theorem rod_scenario (t1 r1 c1 t2 r2 c2 t3 r3 c3 : Nat) (user : ObjectId) :
    (responses rodState (rodScenario t1 r1 c1 t2 r2 c2 t3 r3 c3 user)).all isOk = true ∧
    (responses rodState (rodScenario t1 r1 c1 t2 r2 c2 t3 r3 c3 user)).length = 6 ∧
    findOne rodState.stocks rod locationB = none ∧
    quantityAt rodState.stocks rod locationA = 100 ∧
    quantityAt (run rodState ((rodScenario t1 r1 c1 t2 r2 c2 t3 r3 c3 user).take 2)).stocks
      rod locationA = 150 ∧
    quantityAt (run rodState ((rodScenario t1 r1 c1 t2 r2 c2 t3 r3 c3 user).take 4)).stocks
      rod locationA = 120 ∧
    quantityAt (run rodState (rodScenario t1 r1 c1 t2 r2 c2 t3 r3 c3 user)).stocks
      rod locationA = 100 ∧
    quantityAt (run rodState (rodScenario t1 r1 c1 t2 r2 c2 t3 r3 c3 user)).stocks
      rod locationB = 20 := by
  refine ⟨?_, ?_, ?_, ?_, ?_, ?_, ?_, ?_⟩ <;> rfl

/-! ## A failing stock write -/

theorem writeLines_none (w : Option ObjectId) (f : TransactionItem → Int)
    (items : List TransactionItem) (stocks : List Stock) :
    writeLines w f items { stocks := stocks, failAt := none }
      = (true,
          { stocks := items.foldl (fun st item => findOneAndUpdate st item.product w (f item))
              stocks,
            failAt := none }) := by
  induction items generalizing stocks with
  | nil => rfl
  | cons item rest ih => simp only [writeLines, FaultyStore.write, List.foldl_cons, ih]

theorem transferLines_none (src dst : Option ObjectId)
    (items : List TransactionItem) (stocks : List Stock) :
    transferLines src dst items { stocks := stocks, failAt := none }
      = (true,
          { stocks := items.foldl
              (fun st item =>
                findOneAndUpdate (findOneAndUpdate st item.product src (-item.quantity))
                  item.product dst item.quantity)
              stocks,
            failAt := none }) := by
  induction items generalizing stocks with
  | nil => rfl
  | cons item rest ih => simp only [transferLines, FaultyStore.write, List.foldl_cons, ih]

/-- With no failing write the faulty store behaves as the store of `completeTransaction`. -/
theorem completeTransactionFaulty_none (s : State) (id : ObjectId) (now : Nat) :
    (completeTransactionFaulty s none id now).2 = (completeTransaction s id now).2 ∧
    (completeTransactionFaulty s none id now).1
      = match (completeTransaction s id now).1 with
        | .ok t => .ok t
        | .error e => .error (.rejected e) := by
  unfold completeTransactionFaulty completeTransaction
  cases findById s.transactions id with
  | none => exact ⟨rfl, rfl⟩
  | some t =>
    by_cases h1 : t.status = .completed
    · simp [h1]
    · by_cases h2 : t.status = .cancelled
      · simp [h2]
      · simp only [h1, h2, if_false]
        cases ht : t.type <;>
          simp [applyStockFaulty, applyStock, ht, writeLines_none, transferLines_none]

theorem writeLines_fail (w : Option ObjectId) (f : TransactionItem → Int)
    (items : List TransactionItem) (stocks : List Stock) (k : Nat) (hk : k < items.length) :
    writeLines w f items { stocks := stocks, failAt := some k }
      = (false,
          { stocks := (items.take k).foldl
              (fun st item => findOneAndUpdate st item.product w (f item)) stocks,
            failAt := some 0 }) := by
  induction items generalizing stocks k with
  | nil => simp at hk
  | cons item rest ih =>
    cases k with
    | zero => rfl
    | succ k =>
      simp only [writeLines, FaultyStore.write, List.take_succ_cons, List.foldl_cons]
      exact ih _ k (by simpa using hk)

theorem transferLines_fail_source (src dst : Option ObjectId)
    (items : List TransactionItem) (stocks : List Stock) (k : Nat) (hk : k < items.length) :
    transferLines src dst items { stocks := stocks, failAt := some (2 * k) }
      = (false,
          { stocks := (items.take k).foldl
              (fun st item =>
                findOneAndUpdate (findOneAndUpdate st item.product src (-item.quantity))
                  item.product dst item.quantity)
              stocks,
            failAt := some 0 }) := by
  induction items generalizing stocks k with
  | nil => simp at hk
  | cons item rest ih =>
    cases k with
    | zero => rfl
    | succ k =>
      have h2 : 2 * (k + 1) = 2 * k + 1 + 1 := by ring
      rw [h2]
      simp only [transferLines, FaultyStore.write, List.take_succ_cons, List.foldl_cons]
      exact ih _ k (by simpa using hk)

theorem transferLines_fail_destination (src dst : Option ObjectId)
    (items : List TransactionItem) (stocks : List Stock) (k : Nat) (line : TransactionItem)
    (hk : items[k]? = some line) :
    transferLines src dst items { stocks := stocks, failAt := some (2 * k + 1) }
      = (false,
          { stocks := findOneAndUpdate
              ((items.take k).foldl
                (fun st item =>
                  findOneAndUpdate (findOneAndUpdate st item.product src (-item.quantity))
                    item.product dst item.quantity)
                stocks)
              line.product src (-line.quantity),
            failAt := some 0 }) := by
  induction items generalizing stocks k with
  | nil => simp at hk
  | cons item rest ih =>
    cases k with
    | zero =>
      simp only [List.getElem?_cons_zero, Option.some.injEq] at hk
      subst hk
      rfl
    | succ k =>
      have h2 : 2 * (k + 1) + 1 = 2 * k + 1 + 1 + 1 := by ring
      rw [h2]
      simp only [transferLines, FaultyStore.write, List.take_succ_cons, List.foldl_cons]
      exact ih _ k (by simpa using hk)

theorem completeTransactionFaulty_of_pending (s : State) (failAt : Option Nat)
    (id : ObjectId) (now : Nat) (t : Transaction)
    (hfind : findById s.transactions id = some t) (hstatus : t.status.terminal = false)
    (store : FaultyStore)
    (hloop : applyStockFaulty t { stocks := s.stocks, failAt := failAt } = (false, store)) :
    completeTransactionFaulty s failAt id now
      = (.error .storeError, { transactions := s.transactions, stocks := store.stocks }) := by
  have h1 : t.status ≠ .completed := by
    intro h; rw [h] at hstatus; simp [Status.terminal] at hstatus
  have h2 : t.status ≠ .cancelled := by
    intro h; rw [h] at hstatus; simp [Status.terminal] at hstatus
  simp [completeTransactionFaulty, hfind, h1, h2, hloop]

/-- C13, as stated, fails: in a one-line transfer of 20 whose destination write fails,
the call returns the store's error and the transaction stays a draft, but the source
decrement of that same line has been applied (100 became 80 at the source) while the
destination got nothing. -/
theorem transfer_destination_failure_keeps_decrement :
    findById transferState.transactions 3 = some sampleTransfer ∧
    (completeTransactionFaulty transferState (some 1) 3 9).1 = .error .storeError ∧
    findById (completeTransactionFaulty transferState (some 1) 3 9).2.transactions 3
      = some sampleTransfer ∧
    quantityAt transferState.stocks 1 (some 10) = 100 ∧
    quantityAt (completeTransactionFaulty transferState (some 1) 3 9).2.stocks 1 (some 10)
      = 80 ∧
    findOne (completeTransactionFaulty transferState (some 1) 3 9).2.stocks 1 (some 20)
      = none := by
  refine ⟨by decide, rfl, by decide, by decide, by decide, by decide⟩

/-- C13 (amended): when a stock write for line k fails during `completeTransaction` of a
transaction in a non-terminal status, the call returns the store's error, the
transaction records are untouched (status and `completedAt` unchanged), the effects of
the lines before k are applied and no effect of a later line is.  Of line k itself
nothing is applied in a receipt, delivery or adjustment and in a transfer whose source
write fails; in a transfer whose destination write fails the source decrement of line k
stays applied. -/
theorem completeTransactionFaulty_stops_at_failure (s : State) (id : ObjectId) (now : Nat)
    (t : Transaction) (hfind : findById s.transactions id = some t)
    (hstatus : t.status.terminal = false) (k : Nat) (line : TransactionItem)
    (hk : t.items[k]? = some line) :
    (t.type ≠ .transfer →
      completeTransactionFaulty s (some k) id now
        = (.error .storeError,
            { transactions := s.transactions,
              stocks := applyStock { t with items := t.items.take k } s.stocks })) ∧
    (t.type = .transfer →
      completeTransactionFaulty s (some (2 * k)) id now
        = (.error .storeError,
            { transactions := s.transactions,
              stocks := applyStock { t with items := t.items.take k } s.stocks }) ∧
      completeTransactionFaulty s (some (2 * k + 1)) id now
        = (.error .storeError,
            { transactions := s.transactions,
              stocks := findOneAndUpdate
                (applyStock { t with items := t.items.take k } s.stocks)
                line.product t.fromWarehouse (-line.quantity) })) := by
  have hlen : k < t.items.length := by
    rcases Nat.lt_or_ge k t.items.length with h | h
    · exact h
    · rw [List.getElem?_eq_none h] at hk; cases hk
  refine ⟨fun hne => ?_, fun htr => ⟨?_, ?_⟩⟩
  · cases ht : t.type with
    | transfer => exact absurd ht hne
    | receipt =>
      rw [completeTransactionFaulty_of_pending s _ id now t hfind hstatus _
        (by simp only [applyStockFaulty, ht]; exact writeLines_fail _ _ _ _ k hlen)]
      simp only [applyStock, ht]
    | delivery =>
      rw [completeTransactionFaulty_of_pending s _ id now t hfind hstatus _
        (by simp only [applyStockFaulty, ht]; exact writeLines_fail _ _ _ _ k hlen)]
      simp only [applyStock, ht]
    | adjustment =>
      rw [completeTransactionFaulty_of_pending s _ id now t hfind hstatus _
        (by simp only [applyStockFaulty, ht]; exact writeLines_fail _ _ _ _ k hlen)]
      simp only [applyStock, ht]
  · rw [completeTransactionFaulty_of_pending s _ id now t hfind hstatus _
      (by simp only [applyStockFaulty, htr]; exact transferLines_fail_source _ _ _ _ k hlen)]
    simp only [applyStock, htr]
  · rw [completeTransactionFaulty_of_pending s _ id now t hfind hstatus _
      (by simp only [applyStockFaulty, htr]
          exact transferLines_fail_destination _ _ _ _ k line hk)]
    simp only [applyStock, htr]

theorem completeTransactionFaulty_stops_at_failure_witness :
    findById sampleState.transactions 1 = some sampleReceipt ∧
    sampleReceipt.status.terminal = false ∧
    sampleReceipt.items[1]? = some { product := 1, quantity := 20, unitPrice := none } ∧
    sampleReceipt.type ≠ .transfer ∧
    completeTransactionFaulty sampleState (some 1) 1 9
      = (.error .storeError,
          { transactions := sampleState.transactions,
            stocks := applyStock { sampleReceipt with items := sampleReceipt.items.take 1 }
              sampleState.stocks }) :=
  ⟨by decide, by decide, by decide, by decide,
    (completeTransactionFaulty_stops_at_failure sampleState 1 9 sampleReceipt (by decide) (by decide)
      1 { product := 1, quantity := 20, unitPrice := none } (by decide)).1 (by decide)⟩

/-! ## The daily demand -/

theorem isRecent_eq_withinLast60Days (now : Nat) (t : Transaction) :
    isRecent now t = withinLast60Days now t := by
  unfold isRecent withinLast60Days msPerDay
  cases t.completedAt with
  | none => rfl
  | some c =>
    simp only [decide_eq_decide]
    constructor <;> intro h <;> omega

theorem filter_isRecent (now : Nat) (ts : List Transaction) :
    ts.filter (isRecent now) = ts.filter (withinLast60Days now) := by
  congr 1
  funext t
  exact isRecent_eq_withinLast60Days now t

theorem foldl_add_quantity (items : List TransactionItem) (acc : Int) :
    items.foldl (fun total item => total + item.quantity) acc
      = acc + (items.map (fun item => item.quantity)).sum := by
  induction items generalizing acc with
  | nil => simp
  | cons item rest ih => simp [ih, add_assoc]

theorem foldl_totalQuantity (ts : List Transaction) (acc : Int) :
    ts.foldl
        (fun total transaction =>
          transaction.items.foldl (fun total item => total + item.quantity) total)
        acc
      = acc + (ts.map (fun t => (t.items.map (fun item => item.quantity)).sum)).sum := by
  induction ts generalizing acc with
  | nil => simp
  | cons t rest ih =>
    rw [List.foldl_cons, ih, foldl_add_quantity]
    simp [add_assoc]

theorem totalQuantity_eq_sum (ts : List Transaction) :
    totalQuantity ts = (ts.map (fun t => (t.items.map (fun item => item.quantity)).sum)).sum := by
  unfold totalQuantity
  rw [foldl_totalQuantity, zero_add]

theorem foldl_min_eq_foldr (now : Nat) (ds : List Nat) (d : Nat) (hd : d ≤ now) :
    ds.foldl min d = (d :: ds).foldr min now := by
  induction ds generalizing d with
  | nil => simp [Nat.min_eq_left hd]
  | cons x rest ih =>
    rw [List.foldl_cons, ih (min d x) (le_trans (Nat.min_le_left d x) hd)]
    simp only [List.foldr_cons]
    rw [min_assoc]

theorem filterMap_completedAt_ne_nil (now : Nat) (ts : List Transaction)
    (h : ts.filter (withinLast60Days now) ≠ []) :
    (ts.filter (withinLast60Days now)).filterMap (fun t => t.completedAt) ≠ [] := by
  obtain ⟨t, rest, ht⟩ := List.exists_cons_of_ne_nil h
  have hmem : t ∈ ts.filter (withinLast60Days now) := by rw [ht]; exact List.mem_cons_self _ _
  have hrec : withinLast60Days now t = true := (List.mem_filter.mp hmem).2
  rw [ht]
  cases hc : t.completedAt with
  | none => simp [withinLast60Days, hc] at hrec
  | some c => simp [List.filterMap_cons, hc]

theorem daysInPeriod_eq (now : Nat) (ts : List Transaction)
    (hpast : ∀ t ∈ ts, ∀ c, t.completedAt = some c → c ≤ now)
    (h : ts.filter (withinLast60Days now) ≠ []) :
    daysInPeriod now (ts.filter (withinLast60Days now))
      = ((max 1 ((now - ((ts.filter (withinLast60Days now)).filterMap
            (fun t => t.completedAt)).foldr min now) / 86400000) : Nat) : Int) := by
  have hne := filterMap_completedAt_ne_nil now ts h
  have hle : ∀ c ∈ (ts.filter (withinLast60Days now)).filterMap (fun t => t.completedAt),
      c ≤ now := by
    intro c hc
    obtain ⟨t, ht, htc⟩ := List.mem_filterMap.mp hc
    exact hpast t (List.mem_filter.mp ht).1 c htc
  unfold daysInPeriod oldestDate
  generalize (ts.filter (withinLast60Days now)).filterMap (fun t => t.completedAt) = ds at hne hle
  cases ds with
  | nil => exact absurd rfl hne
  | cons d rest =>
    simp only
    rw [foldl_min_eq_foldr now rest d (hle d (List.mem_cons_self _ _))]
    have hold : (d :: rest).foldr min now ≤ now := by
      simp only [List.foldr_cons]
      exact le_trans (Nat.min_le_left _ _) (hle d (List.mem_cons_self _ _))
    generalize (d :: rest).foldr min now = oldest at hold
    rw [Int.tdiv_eq_ediv (by omega) (by unfold msPerDay; omega)]
    unfold msPerDay
    split_ifs with h0 <;> omega

theorem calculateDailyDemand_nil_filter (now : Nat) (ts : List Transaction)
    (h : ts.filter (isRecent now) = []) : calculateDailyDemand now ts = 0 := by
  unfold calculateDailyDemand
  split_ifs <;> simp_all

/-- C15 (amended): for every list of deliveries completed no later than now,
`calculateDailyDemand` returns the sum of the quantities in the deliveries completed
within the last 60 days, divided by the larger of 1 and the whole days between the
oldest of those and now; it is 0 when no delivery lies within the last 60 days; and the
deliveries completed earlier change nothing: the result is that of the list with them
removed. -/
theorem calculateDailyDemand_spec (now : Nat) (deliveries : List Transaction)
    (hpast : ∀ t ∈ deliveries, t.completedAt.getD 0 ≤ now) :
    calculateDailyDemand now deliveries = dailyDemandSpec now deliveries ∧
    (deliveries.filter (withinLast60Days now) = [] →
      calculateDailyDemand now deliveries = 0) ∧
    calculateDailyDemand now deliveries
      = calculateDailyDemand now (deliveries.filter (withinLast60Days now)) := by
  have hpast' : ∀ t ∈ deliveries, ∀ c, t.completedAt = some c → c ≤ now := by
    intro t ht c hc
    have := hpast t ht
    rwa [hc] at this
  have hzero : deliveries.filter (withinLast60Days now) = [] →
      calculateDailyDemand now deliveries = 0 := by
    intro h
    exact calculateDailyDemand_nil_filter now deliveries (by rw [filter_isRecent]; exact h)
  refine ⟨?_, hzero, ?_⟩
  · by_cases h : deliveries.filter (withinLast60Days now) = []
    · rw [hzero h]
      simp [dailyDemandSpec, h]
    · have hlen : deliveries.length ≠ 0 := by
        intro h0
        rw [List.length_eq_zero] at h0
        rw [h0] at h
        exact h rfl
      have hlen2 : (deliveries.filter (withinLast60Days now)).length ≠ 0 := by
        rw [Ne, List.length_eq_zero]; exact h
      unfold calculateDailyDemand dailyDemandSpec
      rw [filter_isRecent]
      simp only [hlen, hlen2, h, if_false]
      rw [totalQuantity_eq_sum, daysInPeriod_eq now deliveries hpast' h, Int.cast_natCast]
  · unfold calculateDailyDemand
    rw [filter_isRecent, filter_isRecent, List.filter_filter]
    simp only [Bool.and_self]
    by_cases h : deliveries.filter (withinLast60Days now) = []
    · simp [h]
    · have hlen : deliveries.length ≠ 0 := by
        intro h0
        rw [List.length_eq_zero] at h0
        rw [h0] at h
        exact h rfl
      have hlen2 : (deliveries.filter (withinLast60Days now)).length ≠ 0 := by
        rw [Ne, List.length_eq_zero]; exact h
      simp only [hlen, hlen2, if_false]

theorem calculateDailyDemand_spec_witness :
    (∀ t ∈ mostlyOldDeliveries, t.completedAt.getD 0 ≤ day100) ∧
    calculateDailyDemand day100 mostlyOldDeliveries
      = dailyDemandSpec day100 mostlyOldDeliveries :=
  ⟨by decide, (calculateDailyDemand_spec day100 mostlyOldDeliveries (by decide)).1⟩

theorem calculateDailyDemand_future :
    calculateDailyDemand day100 [futureDelivery] = -15 := by
  have hf : [futureDelivery].filter (isRecent day100) = [futureDelivery] := by decide
  have ht : totalQuantity [futureDelivery] = 30 := by decide
  have hd : daysInPeriod day100 [futureDelivery] = -2 := by decide
  unfold calculateDailyDemand
  simp only [hf, ht, hd, List.length_cons, List.length_nil]
  norm_num

theorem dailyDemandSpec_future : dailyDemandSpec day100 [futureDelivery] = 30 := by
  have hf : [futureDelivery].filter (withinLast60Days day100) = [futureDelivery] := by decide
  have ht : (([futureDelivery].map
      (fun t => (t.items.map (fun item => item.quantity)).sum)).sum : Int) = 30 := by decide
  have hd : (max 1 ((day100 - ([futureDelivery].filterMap (fun t => t.completedAt)).foldr
      min day100) / 86400000) : Nat) = 1 := by decide
  unfold dailyDemandSpec
  simp only [hf, ht, hd]
  norm_num

/-- C15, as stated, fails: for the one-element list holding a delivery of 30 units whose
`completedAt` lies two days after now, the delivery passes the 60-day filter, the code
divides by -2 and returns -15, while the sum over the larger of 1 and the whole days
since the oldest delivery is 30. -/
theorem calculateDailyDemand_future_dated :
    [futureDelivery] ≠ [] ∧
    withinLast60Days day100 futureDelivery = true ∧
    totalQuantity [futureDelivery] = 30 ∧
    daysInPeriod day100 [futureDelivery] = -2 ∧
    calculateDailyDemand day100 [futureDelivery] = -15 ∧
    dailyDemandSpec day100 [futureDelivery] = 30 ∧
    calculateDailyDemand day100 [futureDelivery] ≠ dailyDemandSpec day100 [futureDelivery] := by
  refine ⟨by decide, by decide, by decide, by decide, calculateDailyDemand_future,
    dailyDemandSpec_future, ?_⟩
  rw [calculateDailyDemand_future, dailyDemandSpec_future]
  norm_num

/-- The sample deliveries at day 100: only the delivery of 30 on day 90 counts, over the
10 days since. -/
theorem calculateDailyDemand_mostlyOld : calculateDailyDemand day100 mostlyOldDeliveries = 3 := by
  have hf : mostlyOldDeliveries.filter (isRecent day100) = [deliveryOn 5 90 1 30] := by decide
  have ht : totalQuantity [deliveryOn 5 90 1 30] = 30 := by decide
  have hd : daysInPeriod day100 [deliveryOn 5 90 1 30] = 10 := by decide
  have hl : mostlyOldDeliveries.length ≠ 0 := by decide
  unfold calculateDailyDemand
  simp only [hf, hl, ht, hd, if_false, List.length_cons, List.length_nil]
  norm_num

/-! ## The forecast -/

/-- What the forecaster loads for a product: stored completed deliveries out of the
warehouse with a line for the product. -/
theorem mem_deliveryTransactionsOf {transactions : List Transaction} {w p : ObjectId}
    {t : Transaction} (h : t ∈ deliveryTransactionsOf transactions w p) :
    t ∈ transactions ∧ t.type = .delivery ∧ t.status = .completed ∧
      t.fromWarehouse = some w ∧
      t.items.any (fun item => decide (item.product = p)) = true := by
  unfold deliveryTransactionsOf findCompletedDeliveries at h
  obtain ⟨h1, h2⟩ := List.mem_filter.mp h
  have h3 := (List.mem_insertionSort _).mp (List.mem_of_mem_take h1)
  obtain ⟨h4, h5⟩ := List.mem_filter.mp h3
  simp only [decide_eq_true_eq] at h5
  exact ⟨h4, h5.1, h5.2.1, h5.2.2.1, h2⟩

theorem calculateDailyDemand_nil (now : Nat) : calculateDailyDemand now [] = 0 := by
  simp [calculateDailyDemand]

/-- The two immediate-shortage returns of `forecastDemand`. -/
theorem forecastDemand_no_demand (transactions : List Transaction) (now : Nat)
    (stock : PopulatedStock) (w : Warehouse) (hw : stock.warehouse = some w)
    (hd : demandOf transactions now stock w = 0)
    (hlow : stock.quantity ≤ minLevelOf stock) :
    ∃ f, forecastDemand transactions now stock = some f ∧ f.confidence = .low ∧
      f.daysUntilShortage = 0 ∧ f.willRunOut = true ∧
      f.suggestedReorderQuantity
        = (if maxLevelOf stock - stock.quantity = 0 then minLevelOf stock * 2
           else maxLevelOf stock - stock.quantity) := by
  unfold demandOf at hd
  unfold minLevelOf at hlow
  unfold forecastDemand
  simp only [hw]
  by_cases hlen : (deliveryTransactionsOf transactions w.id stock.product.id).length = 0
  · simp only [hlen, if_true, hlow]
    exact ⟨_, rfl, rfl, rfl, rfl, rfl⟩
  · simp only [hlen, if_false, hd, if_true, hlow]
    exact ⟨_, rfl, rfl, rfl, rfl, rfl⟩

/-- The suppression test of `forecastDemand` on the demand-based path. -/
theorem forecastDemand_none_iff (transactions : List Transaction) (now : Nat)
    (stock : PopulatedStock) (w : Warehouse) (hw : stock.warehouse = some w)
    (hd : demandOf transactions now stock w ≠ 0) :
    forecastDemand transactions now stock = none ↔
      (60 < Int.ceil ((stock.quantity : ℚ) / demandOf transactions now stock w) ∧
       21 < Int.ceil (((stock.quantity : ℚ) - (minLevelOf stock : ℚ))
              / demandOf transactions now stock w)) := by
  unfold demandOf at hd ⊢
  have hlen : (deliveryTransactionsOf transactions w.id stock.product.id).length ≠ 0 := by
    intro h0
    rw [List.length_eq_zero] at h0
    rw [h0] at hd
    exact hd (calculateDailyDemand_nil now)
  unfold forecastDemand minLevelOf
  simp only [hw, hlen, hd, if_false]
  split_ifs with hc
  · simp only [Bool.and_eq_true, Bool.not_eq_true', decide_eq_false_iff_not,
      decide_eq_true_eq, not_le, gt_iff_lt] at hc
    simp only [true_iff]
    exact ⟨hc.2, hc.1.2⟩
  · simp only [Bool.and_eq_true, Bool.not_eq_true', decide_eq_false_iff_not,
      decide_eq_true_eq, not_le, gt_iff_lt] at hc
    simp only [false_iff, reduceCtorEq]
    intro h
    exact hc ⟨⟨by omega, h.2⟩, h.1⟩

/-- The fields of the demand-based forecast. -/
theorem forecastDemand_some_fields (transactions : List Transaction) (now : Nat)
    (stock : PopulatedStock) (w : Warehouse) (hw : stock.warehouse = some w)
    (hd : demandOf transactions now stock w ≠ 0) (f : Forecast)
    (hf : forecastDemand transactions now stock = some f) :
    f.suggestedReorderQuantity
      = max (Int.ceil (demandOf transactions now stock w * 30 + (minLevelOf stock : ℚ)
              - (stock.quantity : ℚ))) (minLevelOf stock) ∧
    f.confidence
      = (if (deliveryTransactionsOf transactions w.id stock.product.id).length ≥ 20 then .high
         else if (deliveryTransactionsOf transactions w.id stock.product.id).length < 5
           then .low
         else .medium) ∧
    f.daysUntilShortage
      = max 0 (Int.ceil ((stock.quantity : ℚ) / demandOf transactions now stock w)) ∧
    f.reason = .basedOn (deliveryTransactionsOf transactions w.id stock.product.id).length := by
  unfold demandOf at hd ⊢
  have hlen : (deliveryTransactionsOf transactions w.id stock.product.id).length ≠ 0 := by
    intro h0
    rw [List.length_eq_zero] at h0
    rw [h0] at hd
    exact hd (calculateDailyDemand_nil now)
  unfold forecastDemand at hf
  unfold minLevelOf
  simp only [hw, hlen, hd, if_false] at hf
  split_ifs at hf with hc h20 h5
  all_goals
    simp only [Option.some.injEq] at hf
    subst hf
    refine ⟨rfl, ?_, rfl, rfl⟩
    simp [*]

theorem demandOf_eq_zero_of_no_qualifying (transactions : List Transaction) (now : Nat)
    (stock : PopulatedStock) (w : Warehouse)
    (hnone : qualifyingDeliveries transactions w.id stock.product.id now = []) :
    demandOf transactions now stock w = 0 := by
  unfold demandOf
  apply calculateDailyDemand_nil_filter
  rw [List.filter_eq_nil_iff]
  intro t ht hrec
  obtain ⟨hmem, h1, h2, h3, h4⟩ := mem_deliveryTransactionsOf ht
  have : t ∈ qualifyingDeliveries transactions w.id stock.product.id now := by
    unfold qualifyingDeliveries
    rw [List.mem_filter]
    refine ⟨hmem, ?_⟩
    rw [isRecent_eq_withinLast60Days] at hrec
    simp [h1, h2, h3, hrec]
    simpa using h4
  rw [hnone] at this
  exact absurd this (List.not_mem_nil _)

theorem deliveryTransactionsOf_mostlyOld :
    deliveryTransactionsOf mostlyOldDeliveries sampleWarehouse.id stockOfForty.product.id
      = mostlyOldDeliveries := by
  decide

theorem demandOf_mostlyOld :
    demandOf mostlyOldDeliveries day100 stockOfForty sampleWarehouse = 3 := by
  unfold demandOf
  rw [deliveryTransactionsOf_mostlyOld]
  exact calculateDailyDemand_mostlyOld

theorem forecastDemand_mostlyOld_some :
    ∃ f, forecastDemand mostlyOldDeliveries day100 stockOfForty = some f := by
  cases h : forecastDemand mostlyOldDeliveries day100 stockOfForty with
  | some f => exact ⟨f, rfl⟩
  | none =>
    exfalso
    have hd : demandOf mostlyOldDeliveries day100 stockOfForty sampleWarehouse ≠ 0 := by
      rw [demandOf_mostlyOld]; norm_num
    have := (forecastDemand_none_iff mostlyOldDeliveries day100 stockOfForty sampleWarehouse
      rfl hd).mp h
    rw [demandOf_mostlyOld] at this
    have h60 : Int.ceil ((stockOfForty.quantity : ℚ) / 3) ≤ 60 := by
      rw [Int.ceil_le]
      simp only [stockOfForty]
      norm_num
    omega

/-- C16: a stock record with a warehouse whose item has no completed delivery out of
that warehouse within the last 60 days (none at all, or only older ones) and whose
quantity is at most the minimum stock level gets a forecast, with confidence low and
`daysUntilShortage` 0. -/
theorem forecastDemand_low_without_recent (transactions : List Transaction) (now : Nat)
    (stock : PopulatedStock) (w : Warehouse) (hw : stock.warehouse = some w)
    (hnone : qualifyingDeliveries transactions w.id stock.product.id now = [])
    (hlow : stock.quantity ≤ minLevelOf stock) :
    ∃ f, forecastDemand transactions now stock = some f ∧ f.confidence = .low ∧
      f.daysUntilShortage = 0 := by
  obtain ⟨f, hf, hc, hdays, _⟩ := forecastDemand_no_demand transactions now stock w hw
    (demandOf_eq_zero_of_no_qualifying transactions now stock w hnone) hlow
  exact ⟨f, hf, hc, hdays⟩

theorem forecastDemand_low_without_recent_witness :
    stockAtMin.warehouse = some sampleWarehouse ∧
    qualifyingDeliveries oldDeliveries sampleWarehouse.id stockAtMin.product.id day100 = [] ∧
    oldDeliveries ≠ [] ∧
    stockAtMin.quantity = minLevelOf stockAtMin ∧
    (∃ f, forecastDemand oldDeliveries day100 stockAtMin = some f ∧ f.confidence = .low ∧
      f.daysUntilShortage = 0) :=
  ⟨rfl, by decide, by decide, by decide,
    forecastDemand_low_without_recent oldDeliveries day100 stockAtMin sampleWarehouse rfl
      (by decide) (by decide)⟩

/-- C17 at the failing input: a product with minimum level 10 and maximum level 5, 8 units
on hand and no delivery.  The forecast is the immediate-shortage one, the difference
`maxStockLevel - currentQuantity` is -3, and the suggested reorder quantity is that -3,
not 2 x 10. -/
theorem immediate_shortage_negative_suggestion :
    deliveryTransactionsOf [] sampleWarehouse.id stockAboveMax.product.id = [] ∧
    stockAboveMax.quantity ≤ minLevelOf stockAboveMax ∧
    maxLevelOf stockAboveMax - stockAboveMax.quantity = -3 ∧
    minLevelOf stockAboveMax * 2 = 20 ∧
    (forecastDemand [] day100 stockAboveMax).map (fun f => f.daysUntilShortage) = some 0 ∧
    (forecastDemand [] day100 stockAboveMax).map (fun f => f.suggestedReorderQuantity)
      = some (-3) := by
  refine ⟨by decide, by decide, by decide, by decide, by decide, by decide⟩

/-- C20, as stated, fails: of five completed deliveries of the item out of the
warehouse only one lies within the last 60 days, so the qualifying deliveries number 1,
below 5; the forecast is demand-based and its confidence is medium, not low. -/
theorem confidence_counts_older_deliveries :
    (qualifyingDeliveries mostlyOldDeliveries sampleWarehouse.id stockOfForty.product.id
      day100).length = 1 ∧
    0 < demandOf mostlyOldDeliveries day100 stockOfForty sampleWarehouse ∧
    ∃ f, forecastDemand mostlyOldDeliveries day100 stockOfForty = some f ∧
      f.confidence = .medium ∧ f.confidence ≠ .low := by
  have hd : (0 : ℚ) < demandOf mostlyOldDeliveries day100 stockOfForty sampleWarehouse := by
    rw [demandOf_mostlyOld]; norm_num
  refine ⟨by decide, hd, ?_⟩
  obtain ⟨f, hf⟩ := forecastDemand_mostlyOld_some
  have hc := (forecastDemand_some_fields mostlyOldDeliveries day100 stockOfForty
    sampleWarehouse rfl (ne_of_gt hd) f hf).2.1
  rw [deliveryTransactionsOf_mostlyOld] at hc
  have hm : f.confidence = .medium := by
    rw [hc]; decide
  exact ⟨f, hf, hm, by rw [hm]; decide⟩

/-- C20 (amended): the confidence of a demand-based forecast goes by the number of
deliveries the forecast is based on, which are the loaded completed deliveries out of
that warehouse that contain the item, whatever their age: high from 20 on, low below 5,
medium otherwise. -/
theorem confidence_by_loaded_deliveries (transactions : List Transaction) (now : Nat)
    (stock : PopulatedStock) (w : Warehouse) (hw : stock.warehouse = some w)
    (hd : 0 < demandOf transactions now stock w) (f : Forecast)
    (hf : forecastDemand transactions now stock = some f) :
    f.confidence
      = (if (deliveryTransactionsOf transactions w.id stock.product.id).length ≥ 20 then .high
         else if (deliveryTransactionsOf transactions w.id stock.product.id).length < 5
           then .low
         else .medium) ∧
    f.reason = .basedOn (deliveryTransactionsOf transactions w.id stock.product.id).length ∧
    ∀ t ∈ deliveryTransactionsOf transactions w.id stock.product.id,
      t ∈ transactions ∧ t.type = .delivery ∧ t.status = .completed ∧
        t.fromWarehouse = some w.id ∧ ∃ item ∈ t.items, item.product = stock.product.id := by
  obtain ⟨_, h2, _, h4⟩ := forecastDemand_some_fields transactions now stock w hw
    (ne_of_gt hd) f hf
  refine ⟨h2, h4, fun t ht => ?_⟩
  obtain ⟨h1, h2, h3, h4, h5⟩ := mem_deliveryTransactionsOf ht
  exact ⟨h1, h2, h3, h4, by simpa using h5⟩

theorem confidence_by_loaded_deliveries_witness :
    stockOfForty.warehouse = some sampleWarehouse ∧
    0 < demandOf mostlyOldDeliveries day100 stockOfForty sampleWarehouse ∧
    ∃ f, forecastDemand mostlyOldDeliveries day100 stockOfForty = some f ∧
      f.reason = .basedOn
        (deliveryTransactionsOf mostlyOldDeliveries sampleWarehouse.id
          stockOfForty.product.id).length :=
  ⟨rfl, by rw [demandOf_mostlyOld]; norm_num,
    forecastDemand_mostlyOld_some.elim fun f hf =>
      ⟨f, hf,
        (confidence_by_loaded_deliveries mostlyOldDeliveries day100 stockOfForty
          sampleWarehouse rfl (by rw [demandOf_mostlyOld]; norm_num) f hf).2.1⟩⟩

/-! ## Conservation, the per-line check, commuting completions -/

theorem stockTotal_findOneAndUpdate (stocks : List Stock) (p : ObjectId)
    (w : Option ObjectId) (d : Int) (p' : ObjectId) :
    stockTotal (findOneAndUpdate stocks p w d) p'
      = stockTotal stocks p' + (if p = p' then d else 0) := by
  induction stocks with
  | nil =>
    by_cases hp : p = p' <;> simp [findOneAndUpdate, stockTotal, hp]
  | cons s rest ih =>
    unfold findOneAndUpdate
    by_cases hs : s.product = p ∧ s.warehouse = w
    · rw [if_pos hs]
      obtain ⟨hsp, _⟩ := hs
      by_cases hp : p = p'
      · have : s.product = p' := hsp.trans hp
        simp [stockTotal, List.filter_cons, this, hp]
        ring
      · have : s.product ≠ p' := fun h => hp (hsp.symm.trans h)
        simp [stockTotal, List.filter_cons, this, hp]
    · rw [if_neg hs]
      unfold stockTotal at ih ⊢
      by_cases hsp : s.product = p'
      · simp only [List.filter_cons, hsp, decide_True, if_true, List.map_cons, List.sum_cons]
        rw [ih]
        ring
      · simp only [List.filter_cons, hsp, decide_False]
        exact ih

theorem stockTotal_foldl_transfer (src dst : Option ObjectId)
    (items : List TransactionItem) (stocks : List Stock) (p' : ObjectId) :
    stockTotal
        (items.foldl
          (fun st item =>
            findOneAndUpdate (findOneAndUpdate st item.product src (-item.quantity))
              item.product dst item.quantity)
          stocks) p'
      = stockTotal stocks p' := by
  induction items generalizing stocks with
  | nil => rfl
  | cons item rest ih =>
    rw [List.foldl_cons, ih, stockTotal_findOneAndUpdate, stockTotal_findOneAndUpdate]
    by_cases hp : item.product = p' <;> simp [hp]

/-- Reading the collection after a save of a stored document. -/
theorem findById_save (transactions : List Transaction) (t t' : Transaction) (id : ObjectId)
    (h : findById transactions t'.id = some t) :
    findById (save transactions t') id
      = if t'.id = id then some t' else findById transactions id := by
  by_cases e : t'.id = id
  · rw [if_pos e, ← e]
    exact findById_save_self transactions t t' h
  · rw [if_neg e]
    exact findById_save_of_ne transactions t' id e

/-- What completion does to the quantity read at any key. -/
theorem quantityAt_applyStock (t : Transaction) (stocks : List Stock) (p : ObjectId)
    (w : Option ObjectId) :
    quantityAt (applyStock t stocks) p w = quantityAt stocks p w + stockDelta t p w := by
  unfold applyStock stockDelta
  cases ht : t.type with
  | receipt =>
    simp only []
    rw [quantityAt_foldl (fun item => item.quantity)]
    simp [lineTotal]
  | delivery =>
    simp only []
    rw [quantityAt_foldl (fun item => -item.quantity)]
    by_cases hw : t.fromWarehouse = w <;> simp [hw, lineTotal, sum_map_neg_quantity]
  | transfer =>
    simp only []
    rw [quantityAt_foldl_transfer]
    ring
  | adjustment =>
    simp only []
    rw [quantityAt_foldl (fun item => item.quantity)]
    simp [lineTotal]

/-- C27: the availability check of `createDelivery` is per line.  There are a ledger with
non-negative quantities, no transaction stored, and one delivery request with two lines
for the same product, each line no larger than the available quantity and the two
together larger, such that `createDelivery` accepts the request and completing that
transaction leaves the source quantity negative. -/
theorem per_line_check_allows_negative_stock :
    ∃ (s : State) (body : DeliveryBody) (first second : TransactionItem),
      nonNegative s.stocks = true ∧ s.transactions = [] ∧
      body.items = [first, second] ∧ first.product = second.product ∧
      first.quantity ≤ availableAt s.stocks first.product body.fromWarehouse ∧
      second.quantity ≤ availableAt s.stocks first.product body.fromWarehouse ∧
      availableAt s.stocks first.product body.fromWarehouse
        < first.quantity + second.quantity ∧
      isOk (createDelivery s 1 0 0 body).1 = true ∧
      (createDelivery s 1 0 0 body).2.transactions.length = 1 ∧
      isOk (completeTransaction (createDelivery s 1 0 0 body).2 1 2).1 = true ∧
      quantityAt (completeTransaction (createDelivery s 1 0 0 body).2 1 2).2.stocks
        first.product body.fromWarehouse < 0 :=
  ⟨tenUnitsState, twoLinesOfSix, { product := 1, quantity := 6, unitPrice := none },
    { product := 1, quantity := 6, unitPrice := none },
    by decide, rfl, rfl, rfl, by decide, by decide, by decide, by decide, by decide,
    by decide, by decide⟩

/-! ## All forecasts, the loaded deliveries, product deletion -/

theorem compareForecasts_le_iff (a b : ForecastEntry) :
    compareForecasts a b ≤ 0 ↔ shortageOrder a.forecast b.forecast := by
  unfold compareForecasts shortageOrder
  split_ifs with h
  · constructor
    · intro hle
      exact Or.inl (by omega)
    · rintro (h1 | ⟨h1, _⟩)
      · omega
      · exact absurd h1 h
  · have h' : a.forecast.daysUntilShortage = b.forecast.daysUntilShortage := by
      by_contra hc
      exact h hc
    constructor
    · intro hle
      exact Or.inr ⟨h', by omega⟩
    · rintro (h1 | ⟨_, h2⟩)
      · omega
      · omega

theorem getAllForecasts_forecasts (products : List Product) (warehouses : List Warehouse)
    (transactions : List Transaction) (stocks : List Stock) (now : Nat) :
    List.Perm ((getAllForecasts products warehouses transactions stocks now).map
        (fun entry => entry.forecast))
      ((stocks.filterMap (populateStock products warehouses)).filterMap
        (forecastDemand transactions now)) := by
  unfold getAllForecasts
  refine ((List.perm_insertionSort _ _).map _).trans ?_
  rw [List.map_filterMap, List.filterMap_filterMap]
  apply List.Perm.of_eq
  congr 1
  funext stock
  cases populateStock products warehouses stock with
  | none => rfl
  | some populated =>
    cases h : forecastDemand transactions now populated with
    | none => simp [h]
    | some forecast => simp [h, toEntry]

theorem populateStock_eq (products : List Product) (warehouses : List Warehouse)
    (stock : Stock) :
    populateStock products warehouses stock = activeStockRecord products warehouses stock := by
  unfold populateStock activeStockRecord populateProduct populateWarehouse
  cases hfind : products.find? (fun product => decide (product.id = stock.product)) with
  | none => simp [Option.filter]
  | some product =>
    cases hact : product.isActive with
    | false => simp [Option.filter, hact]
    | true =>
      cases hw : stock.warehouse with
      | none => simp [Option.filter, hact]
      | some id => simp [Option.filter, hact]

/-- C21: the forecasts in the list `getAllForecasts` returns are, up to order, exactly
the non-null forecasts of the stock records whose item exists and is active (each with
its item and location resolved), and the list is ordered ascending by
`daysUntilShortage`, ties broken by ascending `currentStock`: every adjacent pair is in
that order. -/
theorem getAllForecasts_sorted_perm (products : List Product) (warehouses : List Warehouse)
    (transactions : List Transaction) (stocks : List Stock) (now : Nat) :
    List.Perm ((getAllForecasts products warehouses transactions stocks now).map
        (fun entry => entry.forecast))
      ((stocks.filterMap (activeStockRecord products warehouses)).filterMap
        (forecastDemand transactions now)) ∧
    List.Chain' (fun a b => shortageOrder a.forecast b.forecast)
      (getAllForecasts products warehouses transactions stocks now) := by
  refine ⟨?_, ?_⟩
  · have h := getAllForecasts_forecasts products warehouses transactions stocks now
    have hfun : populateStock products warehouses = activeStockRecord products warehouses :=
      funext (populateStock_eq products warehouses)
    rw [hfun] at h
    exact h
  · haveI : IsTotal ForecastEntry (fun a b => compareForecasts a b ≤ 0) :=
      ⟨fun a b => by
        simp only [compareForecasts_le_iff]
        unfold shortageOrder
        omega⟩
    haveI : IsTrans ForecastEntry (fun a b => compareForecasts a b ≤ 0) :=
      ⟨fun a b c hab hbc => by
        simp only [compareForecasts_le_iff] at hab hbc ⊢
        unfold shortageOrder at hab hbc ⊢
        omega⟩
    have hsorted := List.sorted_insertionSort (fun a b => compareForecasts a b ≤ 0)
      (stocks.filterMap (fun stock =>
        match populateStock products warehouses stock with
        | none => none
        | some populated =>
          match forecastDemand transactions now populated with
          | none => none
          | some forecast => some (toEntry populated forecast)))
    have hchain := List.Pairwise.chain' hsorted
    unfold getAllForecasts
    exact hchain.imp (fun a b h => (compareForecasts_le_iff a b).mp h)

set_option maxRecDepth 100000 in
/-- C22 at the failing input: with 201 completed deliveries out of one warehouse, one per
day, the query loads 200 of them, the delivery of day 1 (the oldest) among them and the
delivery of day 201 (the most recent) not. -/
theorem oldest_two_hundred_loaded :
    manyDeliveries.length = 201 ∧
    (findCompletedDeliveries manyDeliveries 10).length = 200 ∧
    deliveryOn 1 1 1 1 ∈ findCompletedDeliveries manyDeliveries 10 ∧
    deliveryOn 201 201 1 1 ∈ manyDeliveries ∧
    deliveryOn 201 201 1 1 ∉ findCompletedDeliveries manyDeliveries 10 := by
  decide

/-- C25 at the failing input: product 1 has 5 units at warehouse 20, but the stock record
the store returns first for it is the empty one at warehouse 10; `deleteProduct` accepts
the deletion and the product is no longer active. -/
theorem deleteProduct_checks_first_record_only :
    (∃ stock ∈ emptyThenStocked, stock.product = 1 ∧ stock.quantity > 0) ∧
    (deleteProduct [sampleProduct (some 10) (some 100)] emptyThenStocked 1).1 = .ok () ∧
    ((deleteProduct [sampleProduct (some 10) (some 100)] emptyThenStocked 1).2.map
      (fun product => product.isActive)) = [false] ∧
    (sampleProduct (some 10) (some 100)).isActive = true := by
  refine ⟨by decide, rfl, by decide, rfl⟩

/-! ## The even-demand scenario -/

theorem completedAt_isSome_of_mem {transactions : List Transaction} {w p : ObjectId}
    {t : Transaction} (h : t ∈ deliveryTransactionsOf transactions w p) :
    t.completedAt.isSome = true := by
  unfold deliveryTransactionsOf findCompletedDeliveries at h
  obtain ⟨h1, _⟩ := List.mem_filter.mp h
  have h3 := (List.mem_insertionSort _).mp (List.mem_of_mem_take h1)
  obtain ⟨_, h5⟩ := List.mem_filter.mp h3
  simp only [decide_eq_true_eq] at h5
  exact h5.2.2.2

theorem le_foldr_min (now m : Nat) (l : List Nat) (hall : ∀ x ∈ l, m ≤ x) (hm : m ≤ now) :
    m ≤ l.foldr min now := by
  induction l with
  | nil => exact hm
  | cons x rest ih =>
    simp only [List.foldr_cons]
    exact le_min (hall x (List.mem_cons_self _ _))
      (ih (fun y hy => hall y (List.mem_cons_of_mem _ hy)))

theorem foldr_min_eq (now m : Nat) (l : List Nat) (hmem : m ∈ l) (hall : ∀ x ∈ l, m ≤ x)
    (hm : m ≤ now) : l.foldr min now = m := by
  apply le_antisymm
  · clear hall
    induction l with
    | nil => simp at hmem
    | cons x rest ih =>
      simp only [List.foldr_cons]
      rcases List.mem_cons.mp hmem with rfl | h
      · exact min_le_left _ _
      · exact le_trans (min_le_right _ _) (ih h)
  · exact le_foldr_min now m l hall hm

/-- The daily demand of a list of deliveries all completed within the last 30 days, the
oldest exactly 30 days ago: the total of their lines over 30. -/
theorem calculateDailyDemand_thirty_days (now : Nat) (ds : List Transaction)
    (h30 : 30 * 86400000 ≤ now) (hne : ds ≠ [])
    (hspan : ∀ t ∈ ds, t.completedAt.isSome = true ∧
      now - 30 * 86400000 ≤ t.completedAt.getD 0 ∧ t.completedAt.getD 0 ≤ now)
    (hold : ∃ t ∈ ds, t.completedAt = some (now - 30 * 86400000)) :
    calculateDailyDemand now ds = (totalQuantity ds : ℚ) / 30 := by
  have hfilter : ds.filter (withinLast60Days now) = ds := by
    rw [List.filter_eq_self]
    intro t ht
    obtain ⟨hsome, hlo, hhi⟩ := hspan t ht
    unfold withinLast60Days
    cases hc : t.completedAt with
    | none => rw [hc] at hsome; cases hsome
    | some c =>
      rw [hc] at hlo hhi
      simp only [Option.getD_some] at hlo hhi
      simp only [decide_eq_true_eq]
      omega
  have hpast : ∀ t ∈ ds, ∀ c, t.completedAt = some c → c ≤ now := by
    intro t ht c hc
    have := (hspan t ht).2.2
    rwa [hc] at this
  have hdays := daysInPeriod_eq now ds hpast (by rw [hfilter]; exact hne)
  rw [hfilter] at hdays
  have hmin : (ds.filterMap (fun t => t.completedAt)).foldr min now = now - 30 * 86400000 := by
    apply foldr_min_eq
    · obtain ⟨t, ht, hc⟩ := hold
      exact List.mem_filterMap.mpr ⟨t, ht, hc⟩
    · intro c hc
      obtain ⟨t, ht, htc⟩ := List.mem_filterMap.mp hc
      have := (hspan t ht).2.1
      rwa [htc] at this
    · omega
  rw [hmin] at hdays
  have hthirty : (max 1 ((now - (now - 30 * 86400000)) / 86400000) : Nat) = 30 := by omega
  rw [hthirty] at hdays
  have hlen : ds.length ≠ 0 := by
    rw [Ne, List.length_eq_zero]; exact hne
  unfold calculateDailyDemand
  rw [filter_isRecent, hfilter]
  simp only [hlen, if_false, hdays]
  norm_num

/-- The rounded `dailyDemand` field of the demand-based forecast. -/
theorem forecastDemand_some_dailyDemand (transactions : List Transaction) (now : Nat)
    (stock : PopulatedStock) (w : Warehouse) (hw : stock.warehouse = some w)
    (hd : demandOf transactions now stock w ≠ 0) (f : Forecast)
    (hf : forecastDemand transactions now stock = some f) :
    f.dailyDemand = (Int.floor (demandOf transactions now stock w * 100 + 1 / 2) : ℚ) / 100 := by
  unfold demandOf at hd ⊢
  have hlen : (deliveryTransactionsOf transactions w.id stock.product.id).length ≠ 0 := by
    intro h0
    rw [List.length_eq_zero] at h0
    rw [h0] at hd
    exact hd (calculateDailyDemand_nil now)
  unfold forecastDemand at hf
  simp only [hw, hlen, hd, if_false] at hf
  split_ifs at hf with hc h20 h5
  all_goals
    simp only [Option.some.injEq] at hf
    subst hf
    rfl

/-- The demand in the even-demand scenario is 10 a day. -/
theorem demandOf_even (transactions : List Transaction) (now : Nat)
    (stock : PopulatedStock) (w : Warehouse)
    (h30 : 30 * 86400000 ≤ now)
    (hlen : (deliveryTransactionsOf transactions w.id stock.product.id).length = 25)
    (htotal : totalQuantity (deliveryTransactionsOf transactions w.id stock.product.id) = 300)
    (hspan : ∀ t ∈ deliveryTransactionsOf transactions w.id stock.product.id,
      now - 30 * 86400000 ≤ t.completedAt.getD 0 ∧ t.completedAt.getD 0 ≤ now)
    (hold : ∃ t ∈ deliveryTransactionsOf transactions w.id stock.product.id,
      t.completedAt = some (now - 30 * 86400000)) :
    demandOf transactions now stock w = 10 := by
  unfold demandOf
  rw [calculateDailyDemand_thirty_days now _ h30
    (by intro h; rw [h] at hlen; simp at hlen)
    (fun t ht => ⟨completedAt_isSome_of_mem ht, hspan t ht⟩) hold, htotal]
  norm_num

theorem deliveryTransactionsOf_even :
    deliveryTransactionsOf evenDeliveries 10 1 = evenDeliveries := by
  decide

theorem demandOf_even_sample (quantity : Int) :
    demandOf evenDeliveries day100 (stockOf quantity) sampleWarehouse = 10 := by
  apply demandOf_even evenDeliveries day100 (stockOf quantity) sampleWarehouse (by decide)
  · show (deliveryTransactionsOf evenDeliveries 10 1).length = 25
    decide
  · show totalQuantity (deliveryTransactionsOf evenDeliveries 10 1) = 300
    decide
  · show ∀ t ∈ deliveryTransactionsOf evenDeliveries 10 1,
      day100 - 30 * 86400000 ≤ t.completedAt.getD 0 ∧ t.completedAt.getD 0 ≤ day100
    decide
  · show ∃ t ∈ deliveryTransactionsOf evenDeliveries 10 1,
      t.completedAt = some (day100 - 30 * 86400000)
    decide

/-- In the even-demand scenario (25 deliveries of 12 units, evenly spread over the 30 days
before now, 300 units in all) the daily demand is 10, and for a current quantity of 1000
`forecastDemand` returns no forecast: the stock is judged safe. -/
theorem even_demand_large_stock_suppressed :
    evenDeliveries.length = 25 ∧ totalQuantity evenDeliveries = 300 ∧
    deliveryTransactionsOf evenDeliveries 10 1 = evenDeliveries ∧
    (∃ t ∈ evenDeliveries, t.completedAt = some (day100 - 30 * 86400000)) ∧
    demandOf evenDeliveries day100 (stockOf 1000) sampleWarehouse = 10 ∧
    (stockOf 1000).quantity = 1000 ∧
    forecastDemand evenDeliveries day100 (stockOf 1000) = none := by
  refine ⟨by decide, by decide, deliveryTransactionsOf_even, by decide,
    demandOf_even_sample 1000, rfl, ?_⟩
  have hd := demandOf_even_sample 1000
  rw [forecastDemand_none_iff evenDeliveries day100 (stockOf 1000) sampleWarehouse rfl
    (by rw [hd]; norm_num), hd]
  have hmin : minLevelOf (stockOf 1000) = 10 := by decide
  rw [hmin]
  constructor
  · rw [Int.lt_ceil]
    simp only [stockOf]
    norm_num
  · rw [Int.lt_ceil]
    simp only [stockOf]
    norm_num

/-- The even-demand scenario in terms of the deliveries the forecaster loaded for the
product. -/
theorem even_demand_forecast_loaded (transactions : List Transaction) (now : Nat)
    (stock : PopulatedStock) (w : Warehouse) (hw : stock.warehouse = some w)
    (h30 : 30 * 86400000 ≤ now)
    (hlen : (deliveryTransactionsOf transactions w.id stock.product.id).length = 25)
    (htotal : totalQuantity (deliveryTransactionsOf transactions w.id stock.product.id) = 300)
    (hspan : ∀ t ∈ deliveryTransactionsOf transactions w.id stock.product.id,
      now - 30 * 86400000 ≤ t.completedAt.getD 0 ∧ t.completedAt.getD 0 ≤ now)
    (hold : ∃ t ∈ deliveryTransactionsOf transactions w.id stock.product.id,
      t.completedAt = some (now - 30 * 86400000))
    (hq : 0 ≤ stock.quantity) :
    demandOf transactions now stock w = 10 ∧
    (forecastDemand transactions now stock = none ↔
      (60 < Int.ceil ((stock.quantity : ℚ) / 10) ∧
       21 < Int.ceil (((stock.quantity : ℚ) - (minLevelOf stock : ℚ)) / 10))) ∧
    (∀ f, forecastDemand transactions now stock = some f →
      f.dailyDemand = 10 ∧ f.confidence = .high ∧
      f.daysUntilShortage = Int.ceil ((stock.quantity : ℚ) / 10) ∧
      Int.floor ((stock.quantity : ℚ) / 10) ≤ f.daysUntilShortage ∧
      f.daysUntilShortage ≤ Int.floor ((stock.quantity : ℚ) / 10) + 1) := by
  have hd := demandOf_even transactions now stock w h30 hlen htotal hspan hold
  have hd0 : demandOf transactions now stock w ≠ 0 := by rw [hd]; norm_num
  refine ⟨hd, ?_, fun f hf => ?_⟩
  · rw [forecastDemand_none_iff transactions now stock w hw hd0, hd]
  · obtain ⟨_, hconf, hdays, _⟩ := forecastDemand_some_fields transactions now stock w hw hd0 f hf
    have hdemand := forecastDemand_some_dailyDemand transactions now stock w hw hd0 f hf
    rw [hd] at hdays hdemand
    have hceil : 0 ≤ Int.ceil ((stock.quantity : ℚ) / 10) := by
      apply Int.ceil_nonneg
      have : (0 : ℚ) ≤ (stock.quantity : ℚ) := by exact_mod_cast hq
      positivity
    rw [max_eq_right hceil] at hdays
    refine ⟨?_, ?_, hdays, ?_, ?_⟩
    · rw [hdemand]
      have hfloor : Int.floor ((10 : ℚ) * 100 + 1 / 2) = 1000 := by
        rw [Int.floor_eq_iff]
        constructor <;> norm_num
      rw [hfloor]
      norm_num
    · rw [hconf, hlen]
      decide
    · rw [hdays]
      exact Int.floor_le_ceil _
    · rw [hdays]
      exact Int.ceil_le_floor_add_one _

/-- With no more than 200 completed deliveries out of the warehouse stored, the forecaster
loads, up to order, exactly the stored completed deliveries of the item out of it. -/
theorem deliveryTransactionsOf_perm (transactions : List Transaction) (w p : ObjectId)
    (hall : (completedDeliveriesOut transactions w).length ≤ 200) :
    List.Perm (deliveryTransactionsOf transactions w p)
      (completedDeliveriesOf transactions w p) := by
  unfold deliveryTransactionsOf findCompletedDeliveries completedDeliveriesOf
  unfold completedDeliveriesOut at hall ⊢
  rw [List.take_of_length_le (by rw [List.length_insertionSort]; exact hall)]
  exact (List.perm_insertionSort _ _).filter _

theorem totalQuantity_perm {l1 l2 : List Transaction} (h : List.Perm l1 l2) :
    totalQuantity l1 = totalQuantity l2 := by
  rw [totalQuantity_eq_sum, totalQuantity_eq_sum]
  exact (h.map _).sum_eq

/-- The daily demand in the even-demand scenario, stated on the stored deliveries. -/
theorem demandOf_even_stored (transactions : List Transaction) (now : Nat)
    (stock : PopulatedStock) (w : Warehouse)
    (h30 : 30 * 86400000 ≤ now)
    (hall : (completedDeliveriesOut transactions w.id).length ≤ 200)
    (hlen : (completedDeliveriesOf transactions w.id stock.product.id).length = 25)
    (htotal : totalQuantity (completedDeliveriesOf transactions w.id stock.product.id) = 300)
    (hspan : ∀ t ∈ completedDeliveriesOf transactions w.id stock.product.id,
      now - 30 * 86400000 ≤ t.completedAt.getD 0 ∧ t.completedAt.getD 0 ≤ now)
    (hold : ∃ t ∈ completedDeliveriesOf transactions w.id stock.product.id,
      t.completedAt = some (now - 30 * 86400000)) :
    demandOf transactions now stock w = 10 ∧
    (deliveryTransactionsOf transactions w.id stock.product.id).length = 25 := by
  have hperm := deliveryTransactionsOf_perm transactions w.id stock.product.id hall
  have hlen' : (deliveryTransactionsOf transactions w.id stock.product.id).length = 25 := by
    rw [hperm.length_eq]; exact hlen
  refine ⟨?_, hlen'⟩
  apply demandOf_even transactions now stock w h30 hlen'
  · rw [totalQuantity_perm hperm]; exact htotal
  · exact fun t ht => hspan t (hperm.mem_iff.mp ht)
  · obtain ⟨t, ht, hc⟩ := hold
    exact ⟨t, hperm.mem_iff.mpr ht, hc⟩

set_option maxRecDepth 1000000 in
theorem crowdedStore_loads_none :
    completedDeliveriesOf crowdedStore 10 1 = evenDeliveries ∧
    (completedDeliveriesOut crowdedStore 10).length = 225 ∧
    deliveryTransactionsOf crowdedStore 10 1 = [] := by
  refine ⟨by decide, by decide, by decide⟩

/-- Without any loaded delivery of the product and with more than twice the minimum level
on hand there is no forecast. -/
theorem forecastDemand_none_of_no_history (transactions : List Transaction) (now : Nat)
    (stock : PopulatedStock) (w : Warehouse) (hw : stock.warehouse = some w)
    (hnone : deliveryTransactionsOf transactions w.id stock.product.id = [])
    (hq : minLevelOf stock * 2 < stock.quantity) (hmin : 0 ≤ minLevelOf stock) :
    forecastDemand transactions now stock = none := by
  unfold minLevelOf at hq hmin
  unfold forecastDemand
  simp only [hw, hnone, List.length_nil, if_true]
  rw [if_neg (by omega), if_neg (by omega)]

theorem forecastDemand_crowdedStore :
    forecastDemand crowdedStore day100 (stockOf 40) = none :=
  forecastDemand_none_of_no_history crowdedStore day100 (stockOf 40) sampleWarehouse rfl
    crowdedStore_loads_none.2.2 (by decide) (by decide)

theorem forecastDemand_negative_stock :
    ∃ f, forecastDemand evenDeliveries day100 (stockOf (-100)) = some f ∧
      f.daysUntilShortage = 0 := by
  have hd := demandOf_even_sample (-100)
  have hd0 : demandOf evenDeliveries day100 (stockOf (-100)) sampleWarehouse ≠ 0 := by
    rw [hd]; norm_num
  have hceil : Int.ceil (((stockOf (-100)).quantity : ℚ) / 10) ≤ 0 := by
    rw [Int.ceil_le]
    simp only [stockOf]
    norm_num
  cases h : forecastDemand evenDeliveries day100 (stockOf (-100)) with
  | none =>
    exfalso
    have := (forecastDemand_none_iff evenDeliveries day100 (stockOf (-100)) sampleWarehouse
      rfl hd0).mp h
    rw [hd] at this
    omega
  | some f =>
    obtain ⟨_, _, hdays, _⟩ := forecastDemand_some_fields evenDeliveries day100
      (stockOf (-100)) sampleWarehouse rfl hd0 f h
    rw [hd] at hdays
    exact ⟨f, rfl, by rw [hdays]; exact max_eq_left hceil⟩

/-- C23, as stated, fails, in three ways.  In the scenario (25 deliveries of 12 units of
the item, evenly spread over the 30 days before now, 300 units in all, daily demand 10):
for a current quantity of 1000 no forecast is returned, the stock being judged safe; for
a current quantity of -100 the forecast has `daysUntilShortage` 0, ten away from
floor(-100 / 10) = -10; and when the store also holds 200 older completed deliveries of
another item out of the warehouse, none of the 25 is loaded and no forecast is returned
for a quantity of 40. -/
theorem even_demand_scenario_fails :
    (evenDeliveries.length = 25 ∧ totalQuantity evenDeliveries = 300 ∧
      completedDeliveriesOf evenDeliveries 10 1 = evenDeliveries ∧
      (∃ t ∈ evenDeliveries, t.completedAt = some (day100 - 30 * 86400000))) ∧
    forecastDemand evenDeliveries day100 (stockOf 1000) = none ∧
    (∃ f, forecastDemand evenDeliveries day100 (stockOf (-100)) = some f ∧
      f.daysUntilShortage = 0 ∧ Int.floor (((-100 : Int) : ℚ) / 10) = -10) ∧
    (completedDeliveriesOf crowdedStore 10 1 = evenDeliveries ∧
      forecastDemand crowdedStore day100 (stockOf 40) = none) := by
  refine ⟨⟨by decide, by decide, by decide, by decide⟩,
    even_demand_large_stock_suppressed.2.2.2.2.2.2, ?_,
    crowdedStore_loads_none.1, forecastDemand_crowdedStore⟩
  obtain ⟨f, hf, hdays⟩ := forecastDemand_negative_stock
  refine ⟨f, hf, hdays, ?_⟩
  rw [Int.floor_eq_iff]
  constructor <;> norm_num

/-- C23 (amended): given exactly 25 stored completed deliveries of the item out of the
warehouse, all completed within the 30 days before now, the oldest exactly 30 days before
now, totalling 300 units, no more than 200 completed deliveries out of that warehouse in
the store, and a current quantity of at least 0: the daily demand is 10; `forecastDemand`
returns no forecast exactly when ceil(quantity / 10) > 60 and
ceil((quantity - minimum level) / 10) > 21; and every forecast it returns has
`dailyDemand` 10, confidence high and `daysUntilShortage` = ceil(quantity / 10), which is
floor(quantity / 10) or one more. -/
theorem even_demand_forecast (transactions : List Transaction) (now : Nat)
    (stock : PopulatedStock) (w : Warehouse) (hw : stock.warehouse = some w)
    (h30 : 30 * 86400000 ≤ now)
    (hall : (completedDeliveriesOut transactions w.id).length ≤ 200)
    (hlen : (completedDeliveriesOf transactions w.id stock.product.id).length = 25)
    (htotal : totalQuantity (completedDeliveriesOf transactions w.id stock.product.id) = 300)
    (hspan : ∀ t ∈ completedDeliveriesOf transactions w.id stock.product.id,
      now - 30 * 86400000 ≤ t.completedAt.getD 0 ∧ t.completedAt.getD 0 ≤ now)
    (hold : ∃ t ∈ completedDeliveriesOf transactions w.id stock.product.id,
      t.completedAt = some (now - 30 * 86400000))
    (hq : 0 ≤ stock.quantity) :
    demandOf transactions now stock w = 10 ∧
    (forecastDemand transactions now stock = none ↔
      (60 < Int.ceil ((stock.quantity : ℚ) / 10) ∧
       21 < Int.ceil (((stock.quantity : ℚ) - (minLevelOf stock : ℚ)) / 10))) ∧
    (∀ f, forecastDemand transactions now stock = some f →
      f.dailyDemand = 10 ∧ f.confidence = .high ∧
      f.daysUntilShortage = Int.ceil ((stock.quantity : ℚ) / 10) ∧
      Int.floor ((stock.quantity : ℚ) / 10) ≤ f.daysUntilShortage ∧
      f.daysUntilShortage ≤ Int.floor ((stock.quantity : ℚ) / 10) + 1) := by
  have hperm := deliveryTransactionsOf_perm transactions w.id stock.product.id hall
  apply even_demand_forecast_loaded transactions now stock w hw h30
  · rw [hperm.length_eq]; exact hlen
  · rw [totalQuantity_perm hperm]; exact htotal
  · exact fun t ht => hspan t (hperm.mem_iff.mp ht)
  · obtain ⟨t, ht, hc⟩ := hold
    exact ⟨t, hperm.mem_iff.mpr ht, hc⟩
  · exact hq

theorem even_demand_forecast_witness :
    (stockOf 40).warehouse = some sampleWarehouse ∧
    30 * 86400000 ≤ day100 ∧
    (completedDeliveriesOut evenDeliveries 10).length ≤ 200 ∧
    (completedDeliveriesOf evenDeliveries 10 1).length = 25 ∧
    totalQuantity (completedDeliveriesOf evenDeliveries 10 1) = 300 ∧
    (∀ t ∈ completedDeliveriesOf evenDeliveries 10 1,
      day100 - 30 * 86400000 ≤ t.completedAt.getD 0 ∧ t.completedAt.getD 0 ≤ day100) ∧
    (∃ t ∈ completedDeliveriesOf evenDeliveries 10 1,
      t.completedAt = some (day100 - 30 * 86400000)) ∧
    (0 : Int) ≤ (stockOf 40).quantity ∧
    demandOf evenDeliveries day100 (stockOf 40) sampleWarehouse = 10 :=
  ⟨rfl, by decide, by decide, by decide, by decide, by decide, by decide, by decide,
    (even_demand_forecast evenDeliveries day100 (stockOf 40) sampleWarehouse rfl (by decide)
      (by decide) (by decide) (by decide) (by decide) (by decide) (by decide)).1⟩

/-! ## The demand of one product -/

theorem lineTotal_le_sum (items : List TransactionItem) (p : ObjectId)
    (h : ∀ item ∈ items, 1 ≤ item.quantity) :
    lineTotal items p ≤ (items.map (fun item => item.quantity)).sum := by
  induction items with
  | nil => simp [lineTotal]
  | cons x rest ih =>
    have hx := h x (List.mem_cons_self _ _)
    have hrest := ih (fun y hy => h y (List.mem_cons_of_mem _ hy))
    unfold lineTotal at hrest ⊢
    by_cases hp : x.product = p
    · simp only [List.filter_cons, hp, decide_True, if_true, List.map_cons, List.sum_cons]
      omega
    · simp only [List.filter_cons, hp, decide_False, List.map_cons, List.sum_cons]
      simp only [Bool.false_eq_true, if_false]
      omega

theorem lineTotal_lt_sum (items : List TransactionItem) (p : ObjectId)
    (h : ∀ item ∈ items, 1 ≤ item.quantity) (hother : ∃ item ∈ items, item.product ≠ p) :
    lineTotal items p < (items.map (fun item => item.quantity)).sum := by
  induction items with
  | nil => simp at hother
  | cons x rest ih =>
    have hx := h x (List.mem_cons_self _ _)
    have hall := fun y hy => h y (List.mem_cons_of_mem x hy)
    have hle := lineTotal_le_sum rest p hall
    by_cases hp : x.product = p
    · have hrest : ∃ item ∈ rest, item.product ≠ p := by
        obtain ⟨item, hmem, hne⟩ := hother
        rcases List.mem_cons.mp hmem with rfl | hmem
        · exact absurd hp hne
        · exact ⟨item, hmem, hne⟩
      have := ih hall hrest
      unfold lineTotal at this ⊢
      simp only [List.filter_cons, hp, decide_True, if_true, List.map_cons, List.sum_cons]
      omega
    · unfold lineTotal at hle ⊢
      simp only [List.filter_cons, hp, decide_False, List.map_cons, List.sum_cons]
      simp only [Bool.false_eq_true, if_false]
      omega

/-- The daily demand, when it is not 0 for want of recent deliveries, in the shape of
the specification. -/
theorem calculateDailyDemand_of_recent (now : Nat) (ds : List Transaction)
    (hpast : ∀ t ∈ ds, t.completedAt.getD 0 ≤ now)
    (h : ds.filter (withinLast60Days now) ≠ []) :
    calculateDailyDemand now ds
      = ((((ds.filter (withinLast60Days now)).map
            (fun t => (t.items.map (fun item => item.quantity)).sum)).sum : Int) : ℚ)
        / ((max 1 ((now - ((ds.filter (withinLast60Days now)).filterMap
              (fun t => t.completedAt)).foldr min now) / 86400000) : Nat) : ℚ) := by
  have hpast' : ∀ t ∈ ds, ∀ c, t.completedAt = some c → c ≤ now := by
    intro t ht c hc
    have := hpast t ht
    rwa [hc] at this
  have hlen : ds.length ≠ 0 := by
    intro h0
    rw [List.length_eq_zero] at h0
    rw [h0] at h
    exact h rfl
  have hlen2 : (ds.filter (withinLast60Days now)).length ≠ 0 := by
    rw [Ne, List.length_eq_zero]; exact h
  unfold calculateDailyDemand
  rw [filter_isRecent]
  simp only [hlen, hlen2, if_false]
  rw [totalQuantity_eq_sum, daysInPeriod_eq now ds hpast' h, Int.cast_natCast]

/-- C28 (amended): the daily demand `forecastDemand` uses for a product is the sum of
the quantities of every line of the recent loaded deliveries that contain the product,
over the days; when the stored lines have a quantity of at least 1 and the deliveries
were completed no later than now, it is at least the demand of the product's own lines,
and strictly more as soon as one of those recent deliveries has a line for another
product. -/
theorem demand_counts_every_line (transactions : List Transaction) (now : Nat)
    (stock : PopulatedStock) (w : Warehouse)
    (hvalid : ∀ t ∈ transactions, ∀ item ∈ t.items, 1 ≤ item.quantity)
    (hpast : ∀ t ∈ transactions, t.completedAt.getD 0 ≤ now) :
    demandOf transactions now stock w
      = dailyDemandSpec now (deliveryTransactionsOf transactions w.id stock.product.id) ∧
    ownDailyDemand now (deliveryTransactionsOf transactions w.id stock.product.id)
        stock.product.id
      ≤ demandOf transactions now stock w ∧
    ((∃ t ∈ (deliveryTransactionsOf transactions w.id stock.product.id).filter
          (withinLast60Days now),
        ∃ item ∈ t.items, item.product ≠ stock.product.id) →
      ownDailyDemand now (deliveryTransactionsOf transactions w.id stock.product.id)
          stock.product.id
        < demandOf transactions now stock w) := by
  have hmemT : ∀ t ∈ deliveryTransactionsOf transactions w.id stock.product.id,
      t ∈ transactions := fun t ht => (mem_deliveryTransactionsOf ht).1
  have hpastD : ∀ t ∈ deliveryTransactionsOf transactions w.id stock.product.id,
      t.completedAt.getD 0 ≤ now := fun t ht => hpast t (hmemT t ht)
  unfold demandOf
  by_cases hrec : (deliveryTransactionsOf transactions w.id stock.product.id).filter
      (withinLast60Days now) = []
  · have hzero := calculateDailyDemand_nil_filter now
      (deliveryTransactionsOf transactions w.id stock.product.id)
      (by rw [filter_isRecent]; exact hrec)
    rw [hzero]
    refine ⟨by simp [dailyDemandSpec, hrec], by simp [ownDailyDemand, hrec], ?_⟩
    rintro ⟨t, ht, _⟩
    rw [hrec] at ht
    exact absurd ht (List.not_mem_nil _)
  · rw [calculateDailyDemand_of_recent now _ hpastD hrec]
    have hvalidR : ∀ t ∈ (deliveryTransactionsOf transactions w.id stock.product.id).filter
        (withinLast60Days now), ∀ item ∈ t.items, 1 ≤ item.quantity :=
      fun t ht => hvalid t (hmemT t (List.mem_filter.mp ht).1)
    have hpos : (0 : ℚ) < ((max 1 ((now -
        (((deliveryTransactionsOf transactions w.id stock.product.id).filter
          (withinLast60Days now)).filterMap (fun t => t.completedAt)).foldr min now)
        / 86400000) : Nat) : ℚ) := by
      have : 0 < max 1 ((now -
        (((deliveryTransactionsOf transactions w.id stock.product.id).filter
          (withinLast60Days now)).filterMap (fun t => t.completedAt)).foldr min now)
        / 86400000) := by omega
      exact_mod_cast this
    refine ⟨by simp [dailyDemandSpec, hrec], ?_, ?_⟩
    · simp only [ownDailyDemand, hrec, if_false]
      apply div_le_div_of_nonneg_right _ hpos.le
      have := List.sum_le_sum (l := (deliveryTransactionsOf transactions w.id
          stock.product.id).filter (withinLast60Days now))
        (f := fun t => lineTotal t.items stock.product.id)
        (g := fun t => (t.items.map (fun item => item.quantity)).sum)
        (fun t ht => lineTotal_le_sum t.items stock.product.id (hvalidR t ht))
      exact_mod_cast this
    · rintro ⟨t, ht, hitem⟩
      simp only [ownDailyDemand, hrec, if_false]
      apply div_lt_div_of_pos_right _ hpos
      have := List.sum_lt_sum (l := (deliveryTransactionsOf transactions w.id
          stock.product.id).filter (withinLast60Days now))
        (fun t => lineTotal t.items stock.product.id)
        (fun t => (t.items.map (fun item => item.quantity)).sum)
        (fun t ht => lineTotal_le_sum t.items stock.product.id (hvalidR t ht))
        ⟨t, ht, lineTotal_lt_sum t.items stock.product.id (hvalidR t ht) hitem⟩
      exact_mod_cast this

theorem demand_counts_every_line_witness :
    (∀ t ∈ [mixedDelivery], ∀ item ∈ t.items, 1 ≤ item.quantity) ∧
    (∀ t ∈ [mixedDelivery], t.completedAt.getD 0 ≤ day100) ∧
    (∃ t ∈ (deliveryTransactionsOf [mixedDelivery] sampleWarehouse.id
          (stockOf 40).product.id).filter (withinLast60Days day100),
        ∃ item ∈ t.items, item.product ≠ (stockOf 40).product.id) ∧
    ownDailyDemand day100
        (deliveryTransactionsOf [mixedDelivery] sampleWarehouse.id (stockOf 40).product.id)
        (stockOf 40).product.id
      < demandOf [mixedDelivery] day100 (stockOf 40) sampleWarehouse :=
  ⟨by decide, by decide, by decide,
    (demand_counts_every_line [mixedDelivery] day100 (stockOf 40) sampleWarehouse
      (by decide) (by decide)).2.2 (by decide)⟩

/-- The demand used for product 1 when a delivery dated two days after now holds 30
units of it and 60 of product 2: 90 / -2 = -45, below the demand of its own lines. -/
theorem demandOf_futureMixedDelivery :
    deliveryTransactionsOf [futureMixedDelivery] sampleWarehouse.id (stockOf 40).product.id
      = [futureMixedDelivery] ∧
    demandOf [futureMixedDelivery] day100 (stockOf 40) sampleWarehouse = -45 ∧
    ownDailyDemand day100 [futureMixedDelivery] (stockOf 40).product.id = 30 := by
  have hdel : deliveryTransactionsOf [futureMixedDelivery] sampleWarehouse.id
      (stockOf 40).product.id = [futureMixedDelivery] := by decide
  have hdem : demandOf [futureMixedDelivery] day100 (stockOf 40) sampleWarehouse = -45 := by
    unfold demandOf
    rw [hdel]
    have hf : [futureMixedDelivery].filter (isRecent day100) = [futureMixedDelivery] := by
      decide
    have ht : totalQuantity [futureMixedDelivery] = 90 := by decide
    have hd : daysInPeriod day100 [futureMixedDelivery] = -2 := by decide
    unfold calculateDailyDemand
    simp only [hf, ht, hd, List.length_cons, List.length_nil]
    norm_num
  have hown : ownDailyDemand day100 [futureMixedDelivery] (stockOf 40).product.id = 30 := by
    have hf : [futureMixedDelivery].filter (withinLast60Days day100) = [futureMixedDelivery] := by
      decide
    have ht : (([futureMixedDelivery].map
        (fun t => lineTotal t.items (stockOf 40).product.id)).sum : Int) = 30 := by decide
    have hd : (max 1 ((day100 - ([futureMixedDelivery].filterMap
        (fun t => t.completedAt)).foldr min day100) / 86400000) : Nat) = 1 := by decide
    unfold ownDailyDemand
    simp only [hf, ht, hd]
    norm_num
  exact ⟨hdel, hdem, hown⟩

/-- The demand used for product 1 when a delivery of day 90 holds 30 units of it and a
line of 0 units of product 2: 30 / 10 = 3, the demand of its own lines. -/
theorem demandOf_deliveryWithEmptyLine :
    deliveryTransactionsOf [deliveryWithEmptyLine] sampleWarehouse.id (stockOf 40).product.id
      = [deliveryWithEmptyLine] ∧
    demandOf [deliveryWithEmptyLine] day100 (stockOf 40) sampleWarehouse = 3 ∧
    ownDailyDemand day100 [deliveryWithEmptyLine] (stockOf 40).product.id = 3 := by
  have hdel : deliveryTransactionsOf [deliveryWithEmptyLine] sampleWarehouse.id
      (stockOf 40).product.id = [deliveryWithEmptyLine] := by decide
  have hdem : demandOf [deliveryWithEmptyLine] day100 (stockOf 40) sampleWarehouse = 3 := by
    unfold demandOf
    rw [hdel]
    have hf : [deliveryWithEmptyLine].filter (isRecent day100) = [deliveryWithEmptyLine] := by
      decide
    have ht : totalQuantity [deliveryWithEmptyLine] = 30 := by decide
    have hd : daysInPeriod day100 [deliveryWithEmptyLine] = 10 := by decide
    unfold calculateDailyDemand
    simp only [hf, ht, hd, List.length_cons, List.length_nil]
    norm_num
  have hown : ownDailyDemand day100 [deliveryWithEmptyLine] (stockOf 40).product.id = 3 := by
    have hf : [deliveryWithEmptyLine].filter (withinLast60Days day100)
        = [deliveryWithEmptyLine] := by decide
    have ht : (([deliveryWithEmptyLine].map
        (fun t => lineTotal t.items (stockOf 40).product.id)).sum : Int) = 30 := by decide
    have hd : (max 1 ((day100 - ([deliveryWithEmptyLine].filterMap
        (fun t => t.completedAt)).foldr min day100) / 86400000) : Nat) = 10 := by decide
    unfold ownDailyDemand
    simp only [hf, ht, hd]
    norm_num
  exact ⟨hdel, hdem, hown⟩

/-- C28, as stated, fails: for a delivery with 30 units of product 1 and 60 of product 2
whose `completedAt` lies two days after now, the daily demand used for product 1 is
90 / -2 = -45, below the demand of the product's own lines, 30.  And were a line of
quantity 0 stored, which the validator of `Transaction.create` refuses, a delivery with
such a line for another product would give a demand equal to the product's own, not
strictly greater. -/
theorem demand_below_own_when_future_dated :
    (deliveryTransactionsOf [futureMixedDelivery] sampleWarehouse.id (stockOf 40).product.id
        = [futureMixedDelivery] ∧
      demandOf [futureMixedDelivery] day100 (stockOf 40) sampleWarehouse = -45 ∧
      ownDailyDemand day100 [futureMixedDelivery] (stockOf 40).product.id = 30 ∧
      ¬ (ownDailyDemand day100
            (deliveryTransactionsOf [futureMixedDelivery] sampleWarehouse.id
              (stockOf 40).product.id) (stockOf 40).product.id
          ≤ demandOf [futureMixedDelivery] day100 (stockOf 40) sampleWarehouse)) ∧
    (deliveryTransactionsOf [deliveryWithEmptyLine] sampleWarehouse.id
          (stockOf 40).product.id = [deliveryWithEmptyLine] ∧
      (∃ t ∈ [deliveryWithEmptyLine].filter (withinLast60Days day100),
        ∃ item ∈ t.items, item.product ≠ (stockOf 40).product.id) ∧
      demandOf [deliveryWithEmptyLine] day100 (stockOf 40) sampleWarehouse = 3 ∧
      ownDailyDemand day100 [deliveryWithEmptyLine] (stockOf 40).product.id = 3 ∧
      ¬ (ownDailyDemand day100
            (deliveryTransactionsOf [deliveryWithEmptyLine] sampleWarehouse.id
              (stockOf 40).product.id) (stockOf 40).product.id
          < demandOf [deliveryWithEmptyLine] day100 (stockOf 40) sampleWarehouse)) := by
  obtain ⟨hdel, hdem, hown⟩ := demandOf_futureMixedDelivery
  obtain ⟨hdel2, hdem2, hown2⟩ := demandOf_deliveryWithEmptyLine
  refine ⟨⟨hdel, hdem, hown, ?_⟩, hdel2, by decide, hdem2, hown2, ?_⟩
  · rw [hdel, hdem, hown]
    norm_num
  · rw [hdel2, hdem2, hown2]
    norm_num

/-! ## Linear regression -/

theorem foldl_add_eq_sum (points : List Point) (g : Point → ℚ) (a : ℚ) :
    points.foldl (fun acc point => acc + g point) a = a + (points.map g).sum := by
  induction points generalizing a with
  | nil => simp
  | cons p rest ih => simp [ih, add_assoc]

theorem sums_foldl (points : List Point) (s : Sums) :
    points.foldl
        (fun s point =>
          ({ sumX := s.sumX + point.x, sumY := s.sumY + point.y,
             sumXY := s.sumXY + point.x * point.y, sumXX := s.sumXX + point.x * point.x,
             sumYY := s.sumYY + point.y * point.y } : Sums))
        s
      = { sumX := s.sumX + (points.map (fun p => p.x)).sum,
          sumY := s.sumY + (points.map (fun p => p.y)).sum,
          sumXY := s.sumXY + (points.map (fun p => p.x * p.y)).sum,
          sumXX := s.sumXX + (points.map (fun p => p.x * p.x)).sum,
          sumYY := s.sumYY + (points.map (fun p => p.y * p.y)).sum } := by
  induction points generalizing s with
  | nil => simp
  | cons p rest ih => simp [ih, add_assoc]

theorem sums_eq (points : List Point) :
    sums points
      = { sumX := (points.map (fun p => p.x)).sum,
          sumY := (points.map (fun p => p.y)).sum,
          sumXY := (points.map (fun p => p.x * p.y)).sum,
          sumXX := (points.map (fun p => p.x * p.x)).sum,
          sumYY := (points.map (fun p => p.y * p.y)).sum } := by
  unfold sums
  rw [sums_foldl]
  simp

/-- The squared deviations of `x` from any value, in terms of the sums. -/
theorem sum_sq_deviation (points : List Point) (mu : ℚ) :
    (points.map (fun p => (p.x - mu) ^ 2)).sum
      = (points.map (fun p => p.x * p.x)).sum - 2 * mu * (points.map (fun p => p.x)).sum
        + (points.length : ℚ) * mu ^ 2 := by
  induction points with
  | nil => simp
  | cons p rest ih =>
    simp only [List.map_cons, List.sum_cons, List.length_cons, ih]
    push_cast
    ring

/-- The squared residuals of a line, in terms of the sums. -/
theorem squaredResiduals_expand (points : List Point) (m c : ℚ) :
    squaredResiduals points m c
      = (points.map (fun p => p.y * p.y)).sum
        - 2 * m * (points.map (fun p => p.x * p.y)).sum
        - 2 * c * (points.map (fun p => p.y)).sum
        + m ^ 2 * (points.map (fun p => p.x * p.x)).sum
        + 2 * m * c * (points.map (fun p => p.x)).sum
        + (points.length : ℚ) * c ^ 2 := by
  unfold squaredResiduals
  induction points with
  | nil => simp
  | cons p rest ih =>
    simp only [List.map_cons, List.sum_cons, List.length_cons, ih]
    push_cast
    ring

theorem sum_sq_nonneg (points : List Point) (g : Point → ℚ) :
    0 ≤ (points.map (fun p => (g p) ^ 2)).sum := by
  induction points with
  | nil => simp
  | cons p rest ih =>
    simp only [List.map_cons, List.sum_cons]
    exact add_nonneg (sq_nonneg _) ih

theorem sum_sq_eq_zero (points : List Point) (g : Point → ℚ)
    (h : (points.map (fun p => (g p) ^ 2)).sum = 0) : ∀ p ∈ points, g p = 0 := by
  induction points with
  | nil => intro p hp; simp at hp
  | cons q rest ih =>
    simp only [List.map_cons, List.sum_cons] at h
    have h1 := sq_nonneg (g q)
    have h2 := sum_sq_nonneg rest g
    have hq : (g q) ^ 2 = 0 := by linarith
    have hrest : (rest.map (fun p => (g p) ^ 2)).sum = 0 := by linarith
    intro p hp
    rcases List.mem_cons.mp hp with rfl | hp
    · exact pow_eq_zero_iff (by norm_num) |>.mp hq
    · exact ih hrest p hp

/-- The divisor of the slope is `n` times the squared deviations of `x` from its mean. -/
theorem slopeDenominator_eq (points : List Point) (hn : points ≠ []) :
    slopeDenominator points
      = (points.length : ℚ)
        * (points.map (fun p =>
            (p.x - (points.map (fun q => q.x)).sum / (points.length : ℚ)) ^ 2)).sum := by
  have hlen : (points.length : ℚ) ≠ 0 := by
    have : points.length ≠ 0 := by rw [Ne, List.length_eq_zero]; exact hn
    exact_mod_cast this
  unfold slopeDenominator
  rw [sums_eq, sum_sq_deviation]
  simp only
  field_simp
  ring

theorem sums_of_constant_x (points : List Point) (x0 : ℚ) (h : ∀ p ∈ points, p.x = x0) :
    (points.map (fun p => p.x)).sum = (points.length : ℚ) * x0 ∧
    (points.map (fun p => p.x * p.x)).sum = (points.length : ℚ) * (x0 * x0) := by
  induction points with
  | nil => simp
  | cons p rest ih =>
    have hp := h p (List.mem_cons_self _ _)
    obtain ⟨h1, h2⟩ := ih (fun q hq => h q (List.mem_cons_of_mem _ hq))
    simp only [List.map_cons, List.sum_cons, List.length_cons, h1, h2, hp]
    push_cast
    constructor <;> ring

theorem slopeDenominator_nonneg (points : List Point) : 0 ≤ slopeDenominator points := by
  by_cases hn : points = []
  · subst hn
    simp [slopeDenominator, sums]
  · rw [slopeDenominator_eq points hn]
    exact mul_nonneg (by positivity) (sum_sq_nonneg points _)

theorem slopeDenominator_eq_zero_iff (points : List Point) :
    slopeDenominator points = 0 ↔ ∀ p ∈ points, ∀ q ∈ points, p.x = q.x := by
  by_cases hn : points = []
  · subst hn
    simp [slopeDenominator, sums]
  · have hlen : (points.length : ℚ) ≠ 0 := by
      have : points.length ≠ 0 := by rw [Ne, List.length_eq_zero]; exact hn
      exact_mod_cast this
    constructor
    · intro h
      rw [slopeDenominator_eq points hn] at h
      have hz := (mul_eq_zero.mp h).resolve_left hlen
      have hall := sum_sq_eq_zero points
        (fun p => p.x - (points.map (fun q => q.x)).sum / (points.length : ℚ)) hz
      intro p hp q hq
      have h1 := hall p hp
      have h2 := hall q hq
      simp only at h1 h2
      linarith
    · intro h
      obtain ⟨p0, rest, hp0⟩ := List.exists_cons_of_ne_nil hn
      have hp0mem : p0 ∈ points := by rw [hp0]; exact List.mem_cons_self _ _
      obtain ⟨h1, h2⟩ := sums_of_constant_x points p0.x (fun p hp => h p hp p0 hp0mem)
      unfold slopeDenominator
      rw [sums_eq]
      simp only [h1, h2]
      ring

theorem slopeDenominator_pos (points : List Point)
    (h : ∃ p ∈ points, ∃ q ∈ points, p.x ≠ q.x) : 0 < slopeDenominator points := by
  rcases lt_or_eq_of_le (slopeDenominator_nonneg points) with hlt | heq
  · exact hlt
  · exfalso
    obtain ⟨p, hp, q, hq, hne⟩ := h
    exact hne ((slopeDenominator_eq_zero_iff points).mp heq.symm p hp q hq)
/-- What `linearRegression` returns when there are at least two points and the divisor
of the slope is not 0: a slope and an intercept that solve the two normal equations, and
the coefficient of determination of that line. -/
theorem linearRegression_eq (points : List Point) (hn : 2 ≤ points.length)
    (hD : slopeDenominator points ≠ 0) :
    ∃ m c : ℚ,
      m * slopeDenominator points
        = (points.length : ℚ) * (points.map (fun p => p.x * p.y)).sum
          - (points.map (fun p => p.x)).sum * (points.map (fun p => p.y)).sum ∧
      (points.length : ℚ) * c + m * (points.map (fun p => p.x)).sum
        = (points.map (fun p => p.y)).sum ∧
      linearRegression points
        = { slope := some m, intercept := some c,
            rSquared := some (if totalSquares points = 0 then 0
              else 1 - squaredResiduals points m c / totalSquares points) } := by
  have hlen : ¬ points.length < 2 := by omega
  have hnq : (points.length : ℚ) ≠ 0 := by
    have : points.length ≠ 0 := by omega
    exact_mod_cast this
  refine ⟨((points.length : ℚ) * (points.map (fun p => p.x * p.y)).sum
          - (points.map (fun p => p.x)).sum * (points.map (fun p => p.y)).sum)
        / slopeDenominator points,
    ((points.map (fun p => p.y)).sum
        - ((points.length : ℚ) * (points.map (fun p => p.x * p.y)).sum
          - (points.map (fun p => p.x)).sum * (points.map (fun p => p.y)).sum)
        / slopeDenominator points * (points.map (fun p => p.x)).sum) / (points.length : ℚ),
    ?_, ?_, ?_⟩
  · field_simp
  · field_simp
    ring
  · unfold linearRegression
    simp only [hlen, if_false, divide, hD, hnq, Option.bind_some, Option.map_some',
      foldl_add_eq_sum, zero_add]
    rw [sums_eq]
    simp only [totalSquares, squaredResiduals]
    split_ifs <;> rfl

/-- A line that solves the normal equations has the least squared residuals. -/
theorem squaredResiduals_min (points : List Point) (m c : ℚ) (hn : points ≠ [])
    (h1 : m * slopeDenominator points
        = (points.length : ℚ) * (points.map (fun p => p.x * p.y)).sum
          - (points.map (fun p => p.x)).sum * (points.map (fun p => p.y)).sum)
    (h2 : (points.length : ℚ) * c + m * (points.map (fun p => p.x)).sum
        = (points.map (fun p => p.y)).sum) (m' c' : ℚ) :
    squaredResiduals points m c ≤ squaredResiduals points m' c' := by
  have hD := slopeDenominator_nonneg points
  have hDeq : slopeDenominator points
      = (points.length : ℚ) * (points.map (fun p => p.x * p.x)).sum
        - (points.map (fun p => p.x)).sum * (points.map (fun p => p.x)).sum := by
    unfold slopeDenominator
    rw [sums_eq]
  rw [hDeq] at h1 hD
  have hnpos : (0 : ℚ) < (points.length : ℚ) := by
    have : 0 < points.length := List.length_pos.mpr hn
    exact_mod_cast this
  rw [squaredResiduals_expand, squaredResiduals_expand]
  generalize (points.length : ℚ) = n at h1 h2 hD hnpos ⊢
  generalize (points.map (fun p => p.x)).sum = Sx at h1 h2 hD ⊢
  generalize (points.map (fun p => p.y)).sum = Sy at h1 h2 ⊢
  generalize (points.map (fun p => p.x * p.y)).sum = Sxy at h1 ⊢
  generalize (points.map (fun p => p.x * p.x)).sum = Sxx at h1 hD ⊢
  generalize (points.map (fun p => p.y * p.y)).sum = Syy
  have h3 : m * Sxx + c * Sx = Sxy := by
    have : n * (m * Sxx + c * Sx) = n * Sxy := by linear_combination h1 + Sx * h2
    exact mul_left_cancel₀ hnpos.ne' this
  have key : n * ((Syy - 2 * m' * Sxy - 2 * c' * Sy + m' ^ 2 * Sxx + 2 * m' * c' * Sx + n * c' ^ 2)
        - (Syy - 2 * m * Sxy - 2 * c * Sy + m ^ 2 * Sxx + 2 * m * c * Sx + n * c ^ 2))
      = (n * (c' - c) + Sx * (m' - m)) ^ 2 + (n * Sxx - Sx * Sx) * (m' - m) ^ 2 := by
    rw [← h3, ← h2]
    ring
  have hge : 0 ≤ n * ((Syy - 2 * m' * Sxy - 2 * c' * Sy + m' ^ 2 * Sxx + 2 * m' * c' * Sx
        + n * c' ^ 2)
        - (Syy - 2 * m * Sxy - 2 * c * Sy + m ^ 2 * Sxx + 2 * m * c * Sx + n * c ^ 2)) := by
    rw [key]
    exact add_nonneg (sq_nonneg _) (mul_nonneg hD (sq_nonneg _))
  have := (mul_nonneg_iff_of_pos_left hnpos).mp hge
  linarith
theorem sums_on_line (points : List Point) (a b : ℚ)
    (h : ∀ p ∈ points, p.y = a * p.x + b) :
    (points.map (fun p => p.y)).sum
      = a * (points.map (fun p => p.x)).sum + (points.length : ℚ) * b ∧
    (points.map (fun p => p.x * p.y)).sum
      = a * (points.map (fun p => p.x * p.x)).sum + b * (points.map (fun p => p.x)).sum := by
  induction points with
  | nil => simp
  | cons p rest ih =>
    have hp := h p (List.mem_cons_self _ _)
    obtain ⟨h1, h2⟩ := ih (fun q hq => h q (List.mem_cons_of_mem _ hq))
    simp only [List.map_cons, List.sum_cons, List.length_cons, h1, h2, hp]
    push_cast
    constructor <;> ring

theorem squaredResiduals_on_line (points : List Point) (a b : ℚ)
    (h : ∀ p ∈ points, p.y = a * p.x + b) : squaredResiduals points a b = 0 := by
  unfold squaredResiduals
  induction points with
  | nil => simp
  | cons p rest ih =>
    have hp := h p (List.mem_cons_self _ _)
    simp only [List.map_cons, List.sum_cons, ih (fun q hq => h q (List.mem_cons_of_mem _ hq)),
      hp]
    ring

theorem totalSquares_ne_zero_on_line (points : List Point) (a b : ℚ) (ha : a ≠ 0)
    (hx : ∃ p ∈ points, ∃ q ∈ points, p.x ≠ q.x)
    (h : ∀ p ∈ points, p.y = a * p.x + b) : totalSquares points ≠ 0 := by
  intro hz
  unfold totalSquares at hz
  have hall := sum_sq_eq_zero points
    (fun p => p.y - (points.map (fun q => q.y)).sum / (points.length : ℚ)) hz
  obtain ⟨p, hp, q, hq, hne⟩ := hx
  have h1 := hall p hp
  have h2 := hall q hq
  simp only at h1 h2
  have hy : p.y = q.y := by linarith
  rw [h p hp, h q hq] at hy
  have : a * (p.x - q.x) = 0 := by linarith
  rcases mul_eq_zero.mp this with h0 | h0
  · exact ha h0
  · exact hne (by linarith)

/-- C24: `linearRegression` is ordinary least squares over the rationals.  With fewer than
two points it returns slope 0, intercept 0, rSquared 0.  With at least two points whose x
values are not all equal it returns a slope and an intercept whose line has squared
residuals no larger than those of any other line, and rSquared = 1 - SSres / SStot, or 0
when SStot = 0.  Points lying on y = a x + b with a not 0 give slope a, intercept b and
rSquared 1. -/
theorem linearRegression_least_squares (points : List Point) :
    (points.length < 2 →
      linearRegression points = { slope := some 0, intercept := some 0, rSquared := some 0 }) ∧
    (2 ≤ points.length → (∃ p ∈ points, ∃ q ∈ points, p.x ≠ q.x) →
      ∃ m c : ℚ,
        (linearRegression points).slope = some m ∧
        (linearRegression points).intercept = some c ∧
        (∀ m' c' : ℚ, squaredResiduals points m c ≤ squaredResiduals points m' c') ∧
        (linearRegression points).rSquared
          = some (if totalSquares points = 0 then 0
              else 1 - squaredResiduals points m c / totalSquares points)) ∧
    (∀ a b : ℚ, a ≠ 0 → 2 ≤ points.length → (∃ p ∈ points, ∃ q ∈ points, p.x ≠ q.x) →
      (∀ p ∈ points, p.y = a * p.x + b) →
      linearRegression points = { slope := some a, intercept := some b, rSquared := some 1 }) := by
  refine ⟨fun h => ?_, fun hn hx => ?_, fun a b ha hn hx hline => ?_⟩
  · simp [linearRegression, h]
  · have hD := slopeDenominator_pos points hx
    have hne : points ≠ [] := by
      intro h0; rw [h0] at hn; simp at hn
    obtain ⟨m, c, h1, h2, hreg⟩ := linearRegression_eq points hn hD.ne'
    refine ⟨m, c, by rw [hreg], by rw [hreg], ?_, by rw [hreg]⟩
    exact fun m' c' => squaredResiduals_min points m c hne h1 h2 m' c'
  · have hD := slopeDenominator_pos points hx
    obtain ⟨m, c, h1, h2, hreg⟩ := linearRegression_eq points hn hD.ne'
    obtain ⟨hy, hxy⟩ := sums_on_line points a b hline
    have hDeq : slopeDenominator points
        = (points.length : ℚ) * (points.map (fun p => p.x * p.x)).sum
          - (points.map (fun p => p.x)).sum * (points.map (fun p => p.x)).sum := by
      unfold slopeDenominator
      rw [sums_eq]
    have hnq : (points.length : ℚ) ≠ 0 := by
      have : points.length ≠ 0 := by omega
      exact_mod_cast this
    have hm : m = a := by
      have : m * slopeDenominator points = a * slopeDenominator points := by
        rw [h1, hy, hxy, hDeq]
        ring
      exact mul_right_cancel₀ hD.ne' this
    have hc : c = b := by
      have : (points.length : ℚ) * c = (points.length : ℚ) * b := by
        rw [hm, hy] at h2
        linarith
      exact mul_left_cancel₀ hnq this
    rw [hreg, hm, hc, squaredResiduals_on_line points a b hline,
      if_neg (totalSquares_ne_zero_on_line points a b ha hx hline)]
    simp

theorem linearRegression_least_squares_witness :
    (2 : ℚ) ≠ 0 ∧ 2 ≤ pointsOnLine.length ∧
    (∃ p ∈ pointsOnLine, ∃ q ∈ pointsOnLine, p.x ≠ q.x) ∧
    (∀ p ∈ pointsOnLine, p.y = 2 * p.x + 1) ∧
    linearRegression pointsOnLine
      = { slope := some 2, intercept := some 1, rSquared := some 1 } :=
  have h1 : (2 : ℚ) ≠ 0 := by norm_num
  have h2 : 2 ≤ pointsOnLine.length := by decide
  have h3 : ∃ p ∈ pointsOnLine, ∃ q ∈ pointsOnLine, p.x ≠ q.x :=
    ⟨{ x := 0, y := 1 }, by simp [pointsOnLine], { x := 1, y := 3 }, by simp [pointsOnLine],
      by norm_num⟩
  have h4 : ∀ p ∈ pointsOnLine, p.y = 2 * p.x + 1 := by
    intro p hp
    simp only [pointsOnLine, List.mem_cons, List.mem_singleton, List.not_mem_nil, or_false]
      at hp
    rcases hp with rfl | rfl | rfl <;> norm_num
  ⟨h1, h2, h3, h4, (linearRegression_least_squares pointsOnLine).2.2 2 1 h1 h2 h3 h4⟩

/-- Over exact rationals: for every list of at least two points the divisor of the
slope, n * sum of x squared - (sum of x) squared, is at least 0 and is 0 exactly when all
x values are equal; when two points differ in x the quotient is a slope, and when all
points share one x value neither the slope nor the intercept is a number. -/
theorem slopeDenominator_sign (points : List Point) (hn : 2 ≤ points.length) :
    slopeDenominator points
      = (points.length : ℚ) * (points.map (fun p => p.x * p.x)).sum
        - ((points.map (fun p => p.x)).sum) ^ 2 ∧
    0 ≤ slopeDenominator points ∧
    (slopeDenominator points = 0 ↔ ∀ p ∈ points, ∀ q ∈ points, p.x = q.x) ∧
    ((∃ p ∈ points, ∃ q ∈ points, p.x ≠ q.x) →
      0 < slopeDenominator points ∧ ∃ m, (linearRegression points).slope = some m) ∧
    ((∀ p ∈ points, ∀ q ∈ points, p.x = q.x) →
      slopeDenominator points = 0 ∧ (linearRegression points).slope = none ∧
        (linearRegression points).intercept = none) := by
  have hlen : ¬ points.length < 2 := by omega
  refine ⟨?_, slopeDenominator_nonneg points, slopeDenominator_eq_zero_iff points,
    fun hx => ?_, fun hall => ?_⟩
  · unfold slopeDenominator
    rw [sums_eq]
    ring
  · have hD := slopeDenominator_pos points hx
    obtain ⟨m, c, _, _, hreg⟩ := linearRegression_eq points hn hD.ne'
    exact ⟨hD, m, by rw [hreg]⟩
  · have hD := (slopeDenominator_eq_zero_iff points).mpr hall
    refine ⟨hD, ?_, ?_⟩ <;> simp [linearRegression, hlen, divide, hD]

/-! ## Lemmas on JavaScript numbers -/

theorem bitLengthAux_le (fuel n k : Nat) (h : n < 2 ^ k) : Ieee.bitLengthAux fuel n ≤ k := by
  induction fuel generalizing n k with
  | zero => simp [Ieee.bitLengthAux]
  | succ fuel ih =>
    unfold Ieee.bitLengthAux
    by_cases hn : n = 0
    · simp [hn]
    · rw [if_neg hn]
      cases k with
      | zero => simp at h; exact absurd h hn
      | succ k =>
        have : n / 2 < 2 ^ k := by
          rw [Nat.div_lt_iff_lt_mul (by norm_num)]
          rw [pow_succ] at h
          exact h
        have := ih (n / 2) k this
        omega

theorem scale_eq : Ieee.scale = 2 ^ 1074 := by
  unfold Ieee.scale
  exact Nat.one_shiftLeft _

theorem scale_pos : 0 < Ieee.scale := by
  rw [scale_eq]; positivity

/-- Rounding is exact on `j` whole units of 1 when `j` has at most 53 binary digits. -/
theorem roundMagnitude_exact (j d : Nat) (hj : j < 2 ^ 53) (hd : 0 < d) :
    Ieee.roundMagnitude (j * Ieee.scale * d) d = j * Ieee.scale := by
  unfold Ieee.roundMagnitude
  simp only []
  rw [Nat.mul_div_cancel _ hd]
  have hlen : Ieee.bitLength (j * Ieee.scale) ≤ 53 + 1074 := by
    apply bitLengthAux_le
    rw [scale_eq, pow_add]
    exact Nat.mul_lt_mul_of_pos_right hj (by positivity)
  obtain ⟨s, hs⟩ : ∃ s, s = Ieee.bitLength (j * Ieee.scale) - 53 := ⟨_, rfl⟩
  rw [← hs]
  have hs1074 : s ≤ 1074 := by omega
  have hscale : Ieee.scale = 2 ^ (1074 - s) * 2 ^ s := by
    rw [scale_eq, ← pow_add]
    congr 1
    omega
  rw [Nat.shiftLeft_eq, Nat.shiftLeft_eq]
  have hn : j * Ieee.scale * d = j * 2 ^ (1074 - s) * (d * 2 ^ s) := by
    rw [hscale]; ring
  have hpos : 0 < d * 2 ^ s := Nat.mul_pos hd (by positivity)
  unfold Ieee.roundHalfEven
  simp only []
  rw [hn, Nat.mul_mod_left, Nat.mul_div_cancel _ hpos]
  rw [if_pos (by simpa using hpos)]
  rw [hscale]
  ring

theorem roundUnits_exact (k : Int) (d : Nat) (hk : k.natAbs < 2 ^ 53) (hd : 0 < d) :
    Ieee.roundUnits (k * (Ieee.scale : Int) * (d : Int)) d = .finite (k * (Ieee.scale : Int)) := by
  unfold Ieee.roundUnits
  simp only []
  have habs : (k * (Ieee.scale : Int) * (d : Int)).natAbs = k.natAbs * Ieee.scale * d := by
    rw [Int.natAbs_mul, Int.natAbs_mul, Int.natAbs_ofNat, Int.natAbs_ofNat]
  rw [habs, roundMagnitude_exact _ _ hk hd]
  have hlt : ¬ (1 <<< 2098 ≤ k.natAbs * Ieee.scale) := by
    rw [Nat.one_shiftLeft, scale_eq, not_le]
    calc k.natAbs * 2 ^ 1074 < 2 ^ 53 * 2 ^ 1074 :=
          Nat.mul_lt_mul_of_pos_right hk (by positivity)
      _ = 2 ^ (53 + 1074) := (pow_add 2 _ _).symm
      _ ≤ 2 ^ 2098 := Nat.pow_le_pow_right (by norm_num) (by norm_num)
  rw [if_neg hlt]
  have hsc : (0 : Int) < (Ieee.scale : Int) := by exact_mod_cast scale_pos
  have hdp : (0 : Int) < (d : Int) := by exact_mod_cast hd
  congr 1
  by_cases h0 : 0 ≤ k
  · have : 0 ≤ k * (Ieee.scale : Int) * (d : Int) :=
      Int.mul_nonneg (Int.mul_nonneg h0 hsc.le) hdp.le
    rw [if_pos this]
    push_cast
    rw [abs_of_nonneg h0]
  · have hneg : k < 0 := not_le.mp h0
    have : ¬ 0 ≤ k * (Ieee.scale : Int) * (d : Int) := by
      rw [not_le]
      exact Int.mul_neg_of_neg_of_pos (Int.mul_neg_of_neg_of_pos hneg hsc) hdp
    rw [if_neg this]
    push_cast
    rw [abs_of_neg hneg]
    ring

/-- A whole number of magnitude below 2^53 is a double. -/
theorem ofInt_eq (k : Int) (hk : k.natAbs < 2 ^ 53) :
    Ieee.ofInt k = .finite (k * (Ieee.scale : Int)) := by
  have := roundUnits_exact k 1 hk (by norm_num)
  simpa [Ieee.ofInt] using this

/-- The sum of two whole numbers is exact when its magnitude is below 2^53. -/
theorem add_exact (m n : Int) (h : (m + n).natAbs < 2 ^ 53) :
    (Ieee.Number.finite (m * (Ieee.scale : Int))).add (.finite (n * (Ieee.scale : Int)))
      = .finite ((m + n) * (Ieee.scale : Int)) := by
  have := roundUnits_exact (m + n) 1 h (by norm_num)
  simp only [Ieee.Number.add]
  rw [← this]
  congr 1
  push_cast
  ring

theorem toInt_finite (k : Int) :
    (Ieee.Number.finite (k * (Ieee.scale : Int))).toInt = k := by
  have hsc : (Ieee.scale : Int) ≠ 0 := by
    have := scale_pos
    exact_mod_cast this.ne'
  simp [Ieee.Number.toInt, Int.mul_ediv_cancel _ hsc]

theorem isInteger_iff (x : Ieee.Number) :
    x.isInteger = true ↔ ∃ k : Int, x = .finite (k * (Ieee.scale : Int)) := by
  constructor
  · intro h
    exact ⟨x.toInt, by simpa [Ieee.Number.isInteger] using h⟩
  · rintro ⟨k, rfl⟩
    simp [Ieee.Number.isInteger, toInt_finite]

/-! ## Lemmas on the ledger over JavaScript numbers -/

theorem ieee_isInteger_finite (k : Int) :
    (Ieee.Number.finite (k * (Ieee.scale : Int))).isInteger = true :=
  (isInteger_iff _).mpr ⟨k, rfl⟩

theorem ieee_finite_toInt {x : Ieee.Number} (h : x.isInteger = true) :
    x = .finite (x.toInt * (Ieee.scale : Int)) := by
  simpa [Ieee.Number.isInteger] using h

theorem ieee_mem_largestQuantity {stocks : List Ieee.Stock} {stock : Ieee.Stock}
    (h : stock ∈ stocks) : stock.quantity.toInt.natAbs ≤ Ieee.largestQuantity stocks := by
  induction stocks with
  | nil => cases h
  | cons s rest ih =>
    simp only [Ieee.largestQuantity, List.map_cons, List.foldr_cons]
    rcases List.mem_cons.mp h with rfl | h'
    · exact le_max_left _ _
    · exact le_trans (ih h') (le_max_right _ _)

/-- One upsert on a ledger of whole numbers, by a whole number, within the exact range:
the ledger stays one of whole numbers. -/
theorem ieee_findOneAndUpdate_integer (stocks : List Ieee.Stock) (k w : Option ObjectId)
    (c : Int) (B : Nat)
    (hint : ∀ stock ∈ stocks, stock.quantity.isInteger = true)
    (hB : ∀ stock ∈ stocks, stock.quantity.toInt.natAbs ≤ B)
    (hc : B + c.natAbs < 2 ^ 53) :
    ∀ stock ∈ Ieee.findOneAndUpdate stocks k w (.finite (c * (Ieee.scale : Int))),
      stock.quantity.isInteger = true ∧ stock.quantity.toInt.natAbs ≤ B + c.natAbs := by
  induction stocks with
  | nil =>
    intro stock hmem
    simp only [Ieee.findOneAndUpdate, List.mem_singleton] at hmem
    subst hmem
    simp only [ieee_isInteger_finite, toInt_finite, true_and]
    omega
  | cons s rest ih =>
    have hrest := ih (fun x hx => hint x (List.mem_cons_of_mem _ hx))
      (fun x hx => hB x (List.mem_cons_of_mem _ hx))
    intro stock hmem
    unfold Ieee.findOneAndUpdate at hmem
    by_cases hs : s.product = k ∧ s.warehouse = w
    · rw [if_pos hs] at hmem
      rcases List.mem_cons.mp hmem with rfl | h'
      · have hsq := ieee_finite_toInt (hint s (List.mem_cons_self _ _))
        have hsB := hB s (List.mem_cons_self _ _)
        have hsum : (s.quantity.toInt + c).natAbs < 2 ^ 53 :=
          lt_of_le_of_lt (Int.natAbs_add_le _ _) (by omega)
        simp only []
        rw [hsq, add_exact _ _ hsum]
        simp only [ieee_isInteger_finite, toInt_finite, true_and]
        exact le_trans (Int.natAbs_add_le _ _) (by omega)
      · exact ⟨hint stock (List.mem_cons_of_mem _ h'),
          le_trans (hB stock (List.mem_cons_of_mem _ h')) (by omega)⟩
    · rw [if_neg hs] at hmem
      rcases List.mem_cons.mp hmem with rfl | h'
      · exact ⟨hint _ (List.mem_cons_self _ _),
          le_trans (hB _ (List.mem_cons_self _ _)) (by omega)⟩
      · exact hrest stock h'

theorem ieee_toInt_zero : (Ieee.Number.finite 0).toInt = 0 := by
  simp [Ieee.Number.toInt]

/-- What one upsert does to the quantity read at any key, on a ledger of whole numbers. -/
theorem ieee_quantityAt_findOneAndUpdate (stocks : List Ieee.Stock) (k w : Option ObjectId)
    (c : Int) (B : Nat)
    (hint : ∀ stock ∈ stocks, stock.quantity.isInteger = true)
    (hB : ∀ stock ∈ stocks, stock.quantity.toInt.natAbs ≤ B)
    (hc : B + c.natAbs < 2 ^ 53) (k' w' : Option ObjectId) :
    Ieee.quantityAt (Ieee.findOneAndUpdate stocks k w (.finite (c * (Ieee.scale : Int)))) k' w'
      = .finite (((Ieee.quantityAt stocks k' w').toInt
          + (if k' = k ∧ w' = w then c else 0)) * (Ieee.scale : Int)) := by
  induction stocks with
  | nil =>
    by_cases hk : k' = k ∧ w' = w
    · obtain ⟨rfl, rfl⟩ := hk
      simp [Ieee.findOneAndUpdate, Ieee.quantityAt, Ieee.findOne, ieee_toInt_zero]
    · have hk' : ¬ (k = k' ∧ w = w') := fun h => hk ⟨h.1.symm, h.2.symm⟩
      simp [Ieee.findOneAndUpdate, Ieee.quantityAt, Ieee.findOne, ieee_toInt_zero, hk, hk']
  | cons s rest ih =>
    have hrest := ih (fun x hx => hint x (List.mem_cons_of_mem _ hx))
      (fun x hx => hB x (List.mem_cons_of_mem _ hx))
    have hsq := ieee_finite_toInt (hint s (List.mem_cons_self _ _))
    have hsB := hB s (List.mem_cons_self _ _)
    unfold Ieee.findOneAndUpdate
    by_cases hs : s.product = k ∧ s.warehouse = w
    · rw [if_pos hs]
      obtain ⟨hsp, hsw⟩ := hs
      have hsum : (s.quantity.toInt + c).natAbs < 2 ^ 53 :=
        lt_of_le_of_lt (Int.natAbs_add_le _ _) (by omega)
      by_cases hk : k' = k ∧ w' = w
      · obtain ⟨rfl, rfl⟩ := hk
        simp only [Ieee.quantityAt, Ieee.findOne, List.find?_cons, hsp, hsw, and_self,
          decide_True, if_true]
        rw [hsq, add_exact _ _ hsum, toInt_finite]
      · have hk' : ¬ (s.product = k' ∧ s.warehouse = w') := by
          rw [hsp, hsw]
          exact fun h => hk ⟨h.1.symm, h.2.symm⟩
        simp only [Ieee.quantityAt, Ieee.findOne, List.find?_cons, hk', decide_False, hk,
          if_false, add_zero]
        have := ieee_finite_toInt
          (x := Ieee.quantityAt rest k' w') (by
            unfold Ieee.quantityAt
            cases hf : Ieee.findOne rest k' w' with
            | none => exact ieee_isInteger_finite 0 |> fun h => by simpa using h
            | some r =>
              exact hint r (List.mem_cons_of_mem _ (List.mem_of_find?_eq_some hf)))
        simpa [Ieee.quantityAt, Ieee.findOne] using this
    · rw [if_neg hs]
      by_cases hs' : s.product = k' ∧ s.warehouse = w'
      · have hk : ¬ (k' = k ∧ w' = w) := by
          rw [← hs'.1, ← hs'.2]
          exact hs
        simp only [Ieee.quantityAt, Ieee.findOne, List.find?_cons, hs', and_self, decide_True,
          hk, if_false, add_zero]
        exact hsq
      · have := hrest
        simp only [Ieee.quantityAt, Ieee.findOne, List.find?_cons, hs', decide_False] at this ⊢
        exact this

theorem ieee_quantityAt_isInteger (stocks : List Ieee.Stock)
    (hint : ∀ stock ∈ stocks, stock.quantity.isInteger = true) (k w : Option ObjectId) :
    (Ieee.quantityAt stocks k w).isInteger = true := by
  unfold Ieee.quantityAt
  cases hf : Ieee.findOne stocks k w with
  | none => simpa using ieee_isInteger_finite 0
  | some r => exact hint r (List.mem_of_find?_eq_some hf)

theorem ieee_quantityAt_le (stocks : List Ieee.Stock) (B : Nat)
    (hB : ∀ stock ∈ stocks, stock.quantity.toInt.natAbs ≤ B) (k w : Option ObjectId) :
    (Ieee.quantityAt stocks k w).toInt.natAbs ≤ B := by
  unfold Ieee.quantityAt
  cases hf : Ieee.findOne stocks k w with
  | none => simp [ieee_toInt_zero]
  | some r => exact hB r (List.mem_of_find?_eq_some hf)

/-- What one upsert does to the total recorded under a product key. -/
theorem ieee_stockTotal_findOneAndUpdate (stocks : List Ieee.Stock) (k w : Option ObjectId)
    (c : Int) (B : Nat)
    (hint : ∀ stock ∈ stocks, stock.quantity.isInteger = true)
    (hB : ∀ stock ∈ stocks, stock.quantity.toInt.natAbs ≤ B)
    (hc : B + c.natAbs < 2 ^ 53) (k' : Option ObjectId) :
    Ieee.stockTotal (Ieee.findOneAndUpdate stocks k w (.finite (c * (Ieee.scale : Int)))) k'
      = Ieee.stockTotal stocks k' + (if k = k' then c * (Ieee.scale : Int) else 0) := by
  induction stocks with
  | nil =>
    by_cases hk : k = k' <;>
      simp [Ieee.findOneAndUpdate, Ieee.stockTotal, hk, Ieee.Number.units]
  | cons s rest ih =>
    have hrest := ih (fun x hx => hint x (List.mem_cons_of_mem _ hx))
      (fun x hx => hB x (List.mem_cons_of_mem _ hx))
    have hsq := ieee_finite_toInt (hint s (List.mem_cons_self _ _))
    have hsB := hB s (List.mem_cons_self _ _)
    unfold Ieee.findOneAndUpdate
    by_cases hs : s.product = k ∧ s.warehouse = w
    · rw [if_pos hs]
      obtain ⟨hsp, _⟩ := hs
      have hsum : (s.quantity.toInt + c).natAbs < 2 ^ 53 :=
        lt_of_le_of_lt (Int.natAbs_add_le _ _) (by omega)
      have hadd : (s.quantity.add (.finite (c * (Ieee.scale : Int)))).units
          = s.quantity.units + c * (Ieee.scale : Int) := by
        obtain ⟨n, hn⟩ := (isInteger_iff _).mp (hint s (List.mem_cons_self _ _))
        rw [hn, toInt_finite] at hsum
        rw [hn, add_exact _ _ hsum]
        simp only [Ieee.Number.units]
        ring
      by_cases hp : k = k'
      · have : s.product = k' := hsp.trans hp
        simp only [Ieee.stockTotal, List.filter_cons, this, decide_True, if_true, List.map_cons,
          List.sum_cons, hadd, hp]
        ring
      · have : s.product ≠ k' := fun h => hp (hsp.symm.trans h)
        simp [Ieee.stockTotal, List.filter_cons, this, hp]
    · rw [if_neg hs]
      unfold Ieee.stockTotal at hrest ⊢
      by_cases hsp : s.product = k'
      · simp only [List.filter_cons, hsp, decide_True, if_true, List.map_cons, List.sum_cons]
        rw [hrest]
        ring
      · simp only [List.filter_cons, hsp, decide_False]
        exact hrest

/-- A run of upserts at one warehouse, one per line, on a ledger of whole numbers. -/
theorem ieee_foldl_update (g : Ieee.TransactionItem → Option ObjectId) (w : Option ObjectId)
    (inc : Ieee.TransactionItem → Ieee.Number) (f : Ieee.TransactionItem → Int)
    (items : List Ieee.TransactionItem) (stocks : List Ieee.Stock) (B : Nat)
    (hinc : ∀ item ∈ items, inc item = .finite (f item * (Ieee.scale : Int)))
    (hint : ∀ stock ∈ stocks, stock.quantity.isInteger = true)
    (hB : ∀ stock ∈ stocks, stock.quantity.toInt.natAbs ≤ B)
    (hbound : B + (items.map (fun item => (f item).natAbs)).sum < 2 ^ 53) :
    (∀ stock ∈ items.foldl (fun st item => Ieee.findOneAndUpdate st (g item) w (inc item)) stocks,
      stock.quantity.isInteger = true ∧
      stock.quantity.toInt.natAbs ≤ B + (items.map (fun item => (f item).natAbs)).sum) ∧
    (∀ k' w',
      Ieee.quantityAt
          (items.foldl (fun st item => Ieee.findOneAndUpdate st (g item) w (inc item)) stocks)
          k' w'
        = .finite (((Ieee.quantityAt stocks k' w').toInt
            + (if w' = w then ((items.filter (fun item => decide (g item = k'))).map f).sum
               else 0)) * (Ieee.scale : Int))) ∧
    (∀ k',
      Ieee.stockTotal
          (items.foldl (fun st item => Ieee.findOneAndUpdate st (g item) w (inc item)) stocks) k'
        = Ieee.stockTotal stocks k'
          + ((items.filter (fun item => decide (g item = k'))).map f).sum
            * (Ieee.scale : Int)) := by
  induction items generalizing stocks B with
  | nil =>
    refine ⟨fun stock h => ⟨hint stock h, by simpa using hB stock h⟩, fun k' w' => ?_,
      fun k' => by simp⟩
    simpa using ieee_finite_toInt (ieee_quantityAt_isInteger stocks hint k' w')
  | cons item rest ih =>
    simp only [List.map_cons, List.sum_cons] at hbound
    have hc : B + (f item).natAbs < 2 ^ 53 := by omega
    have hi := hinc item (List.mem_cons_self _ _)
    have hmid := ieee_findOneAndUpdate_integer stocks (g item) w (f item) B hint hB hc
    have hq := ieee_quantityAt_findOneAndUpdate stocks (g item) w (f item) B hint hB hc
    have ht := ieee_stockTotal_findOneAndUpdate stocks (g item) w (f item) B hint hB hc
    obtain ⟨h1, h2, h3⟩ := ih (Ieee.findOneAndUpdate stocks (g item) w (inc item))
      (B + (f item).natAbs) (fun x hx => hinc x (List.mem_cons_of_mem _ hx))
      (fun x hx => by rw [hi] at hx; exact (hmid x hx).1)
      (fun x hx => by rw [hi] at hx; exact (hmid x hx).2)
      (by omega)
    simp only [List.foldl_cons, List.map_cons, List.sum_cons]
    refine ⟨fun stock h => ⟨(h1 stock h).1, by have := (h1 stock h).2; omega⟩,
      fun k' w' => ?_, fun k' => ?_⟩
    · rw [h2 k' w', hi, hq k' w', toInt_finite]
      refine congrArg Ieee.Number.finite (congrArg (fun x => x * (Ieee.scale : Int)) ?_)
      by_cases hw : w' = w <;> by_cases hk : g item = k'
      · subst hk
        simp only [hw, List.filter_cons, and_self, if_true, decide_True, List.map_cons,
          List.sum_cons]
        ring
      · have hk' : ¬ k' = g item := fun h => hk h.symm
        simp [hw, hk, hk', List.filter_cons]
      · subst hk
        simp [hw, List.filter_cons]
      · simp [hw, hk, List.filter_cons]
    · rw [h3 k', hi, ht k']
      by_cases hk : g item = k'
      · simp only [hk, List.filter_cons, decide_True, if_true, List.map_cons, List.sum_cons]
        ring
      · simp [hk, List.filter_cons]

theorem ieee_findOne_findOneAndUpdate_of_ne (stocks : List Ieee.Stock)
    (k w : Option ObjectId) (inc : Ieee.Number) (k' w' : Option ObjectId)
    (h : ¬ (k = k' ∧ w = w')) :
    Ieee.findOne (Ieee.findOneAndUpdate stocks k w inc) k' w' = Ieee.findOne stocks k' w' := by
  induction stocks with
  | nil =>
    simp only [Ieee.findOneAndUpdate, Ieee.findOne, List.find?_cons, List.find?_nil]
    simp [h]
  | cons s rest ih =>
    unfold Ieee.findOneAndUpdate
    by_cases hs : s.product = k ∧ s.warehouse = w
    · rw [if_pos hs]
      have hne : ¬ (s.product = k' ∧ s.warehouse = w') := by
        rintro ⟨h1, h2⟩
        exact h ⟨hs.1 ▸ h1, hs.2 ▸ h2⟩
      simp only [Ieee.findOne, List.find?_cons]
      simp [hne]
    · rw [if_neg hs]
      simp only [Ieee.findOne, List.find?_cons] at ih ⊢
      by_cases hk : s.product = k' ∧ s.warehouse = w'
      · simp [hk]
      · simp only [hk, decide_False]
        exact ih

/-- A run of upserts at one warehouse leaves the record of every other key as it was,
whatever the quantities. -/
theorem ieee_findOne_foldl_of_ne (g : Ieee.TransactionItem → Option ObjectId)
    (inc : Ieee.TransactionItem → Ieee.Number) (w : Option ObjectId)
    (items : List Ieee.TransactionItem) (stocks : List Ieee.Stock) (k' w' : Option ObjectId)
    (h : w ≠ w' ∨ ∀ item ∈ items, g item ≠ k') :
    Ieee.findOne
        (items.foldl (fun st item => Ieee.findOneAndUpdate st (g item) w (inc item)) stocks)
        k' w' = Ieee.findOne stocks k' w' := by
  induction items generalizing stocks with
  | nil => simp
  | cons item rest ih =>
    rw [List.foldl_cons, ih, ieee_findOne_findOneAndUpdate_of_ne]
    · rintro ⟨hp, hw⟩
      rcases h with h | h
      · exact h hw
      · exact h item (List.mem_cons_self _ _) hp
    · rcases h with h | h
      · exact Or.inl h
      · exact Or.inr (fun x hx => h x (List.mem_cons_of_mem _ hx))

theorem ieee_neg_finite (n : Int) :
    (Ieee.Number.finite (n * (Ieee.scale : Int))).neg = .finite (-n * (Ieee.scale : Int)) := by
  simp [Ieee.Number.neg]

/-- The loop of a transfer on a ledger of whole numbers: per line one upsert at the
source and one at the destination. -/
theorem ieee_foldl_transfer (g : Ieee.TransactionItem → Option ObjectId)
    (src dst : Option ObjectId) (items : List Ieee.TransactionItem) (stocks : List Ieee.Stock)
    (B : Nat)
    (hitems : ∀ item ∈ items, item.quantity.isInteger = true)
    (hint : ∀ stock ∈ stocks, stock.quantity.isInteger = true)
    (hB : ∀ stock ∈ stocks, stock.quantity.toInt.natAbs ≤ B)
    (hbound : B + 2 * Ieee.lineSum items < 2 ^ 53) :
    (∀ stock ∈ items.foldl
        (fun st item =>
          Ieee.findOneAndUpdate (Ieee.findOneAndUpdate st (g item) src item.quantity.neg)
            (g item) dst item.quantity) stocks,
      stock.quantity.isInteger = true ∧
      stock.quantity.toInt.natAbs ≤ B + 2 * Ieee.lineSum items) ∧
    (∀ k' w',
      Ieee.quantityAt
          (items.foldl
            (fun st item =>
              Ieee.findOneAndUpdate (Ieee.findOneAndUpdate st (g item) src item.quantity.neg)
                (g item) dst item.quantity) stocks)
          k' w'
        = .finite (((Ieee.quantityAt stocks k' w').toInt
            + ((if w' = dst then
                  ((items.filter (fun item => decide (g item = k'))).map
                    (fun item => item.quantity.toInt)).sum
                else 0)
              - (if w' = src then
                  ((items.filter (fun item => decide (g item = k'))).map
                    (fun item => item.quantity.toInt)).sum
                else 0))) * (Ieee.scale : Int))) ∧
    (∀ k',
      Ieee.stockTotal
          (items.foldl
            (fun st item =>
              Ieee.findOneAndUpdate (Ieee.findOneAndUpdate st (g item) src item.quantity.neg)
                (g item) dst item.quantity) stocks) k'
        = Ieee.stockTotal stocks k') := by
  induction items generalizing stocks B with
  | nil =>
    refine ⟨fun stock h => ⟨hint stock h, by simpa [Ieee.lineSum] using hB stock h⟩,
      fun k' w' => ?_, fun k' => by simp⟩
    simpa using ieee_finite_toInt (ieee_quantityAt_isInteger stocks hint k' w')
  | cons item rest ih =>
    simp only [Ieee.lineSum, List.map_cons, List.sum_cons] at hbound
    have hi := ieee_finite_toInt (hitems item (List.mem_cons_self _ _))
    obtain ⟨n, hn⟩ : ∃ n, n = item.quantity.toInt := ⟨_, rfl⟩
    rw [← hn] at hi hbound
    have hneg : item.quantity.neg = .finite (-n * (Ieee.scale : Int)) := by
      rw [hi]; exact ieee_neg_finite n
    have hc1 : B + (-n).natAbs < 2 ^ 53 := by rw [Int.natAbs_neg]; omega
    have hmid1 := ieee_findOneAndUpdate_integer stocks (g item) src (-n) B hint hB hc1
    have hq1 := ieee_quantityAt_findOneAndUpdate stocks (g item) src (-n) B hint hB hc1
    have ht1 := ieee_stockTotal_findOneAndUpdate stocks (g item) src (-n) B hint hB hc1
    rw [Int.natAbs_neg] at hmid1
    have hint1 := fun x hx => (hmid1 x hx).1
    have hB1 := fun x hx => (hmid1 x hx).2
    have hc2 : B + n.natAbs + n.natAbs < 2 ^ 53 := by omega
    have hmid2 := ieee_findOneAndUpdate_integer _ (g item) dst n (B + n.natAbs) hint1 hB1 hc2
    have hq2 := ieee_quantityAt_findOneAndUpdate _ (g item) dst n (B + n.natAbs) hint1 hB1 hc2
    have ht2 := ieee_stockTotal_findOneAndUpdate _ (g item) dst n (B + n.natAbs) hint1 hB1 hc2
    obtain ⟨h1, h2, h3⟩ := ih
      (Ieee.findOneAndUpdate (Ieee.findOneAndUpdate stocks (g item) src item.quantity.neg)
        (g item) dst item.quantity)
      (B + n.natAbs + n.natAbs) (fun x hx => hitems x (List.mem_cons_of_mem _ hx))
      (fun x hx => by rw [hneg, hi] at hx; exact (hmid2 x hx).1)
      (fun x hx => by rw [hneg, hi] at hx; exact (hmid2 x hx).2)
      (by simp only [Ieee.lineSum]; omega)
    simp only [List.foldl_cons]
    refine ⟨fun stock h => ⟨(h1 stock h).1, ?_⟩, fun k' w' => ?_, fun k' => ?_⟩
    · have := (h1 stock h).2
      simp only [Ieee.lineSum, List.map_cons, List.sum_cons] at this ⊢
      rw [← hn]
      omega
    · rw [h2 k' w']
      have e : Ieee.quantityAt
          (Ieee.findOneAndUpdate (Ieee.findOneAndUpdate stocks (g item) src item.quantity.neg)
            (g item) dst item.quantity) k' w'
          = .finite (((Ieee.quantityAt stocks k' w').toInt
              + (if k' = g item ∧ w' = src then -n else 0)
              + (if k' = g item ∧ w' = dst then n else 0)) * (Ieee.scale : Int)) := by
        rw [hneg]
        conv_lhs => rw [hi]
        rw [hq2 k' w', hq1 k' w', toInt_finite]
      rw [e, toInt_finite]
      refine congrArg Ieee.Number.finite (congrArg (fun x => x * (Ieee.scale : Int)) ?_)
      by_cases hk : g item = k'
      · subst hk
        simp only [List.filter_cons, decide_True, if_true, true_and, List.map_cons,
          List.sum_cons, ← hn]
        split_ifs <;> ring
      · have hk' : ¬ k' = g item := fun h => hk h.symm
        simp [hk, hk', List.filter_cons]
    · rw [h3 k']
      have e : Ieee.stockTotal
          (Ieee.findOneAndUpdate (Ieee.findOneAndUpdate stocks (g item) src item.quantity.neg)
            (g item) dst item.quantity) k'
          = Ieee.stockTotal stocks k' + (if g item = k' then -n * (Ieee.scale : Int) else 0)
            + (if g item = k' then n * (Ieee.scale : Int) else 0) := by
        rw [hneg]
        conv_lhs => rw [hi]
        rw [ht2 k', ht1 k']
      rw [e]
      by_cases hk : g item = k' <;> simp [hk]

theorem ieee_lineSum_eq (items : List Ieee.TransactionItem) :
    (items.map (fun item => (item.quantity.toInt).natAbs)).sum = Ieee.lineSum items := rfl

theorem ieee_sum_map_neg (items : List Ieee.TransactionItem) :
    (items.map (fun item => -item.quantity.toInt)).sum
      = -(items.map (fun item => item.quantity.toInt)).sum := by
  induction items with
  | nil => simp
  | cons item rest ih => simp [ih]; ring

/-- What completion does to a ledger of whole numbers, within the exact range: the
ledger stays one of whole numbers, and the quantity read at any key moves by the whole
change `stockDelta`. -/
theorem ieee_applyStock (products : List ObjectId) (t : Ieee.Transaction)
    (stocks : List Ieee.Stock) (B : Nat)
    (hitems : ∀ item ∈ t.items, item.quantity.isInteger = true)
    (hint : ∀ stock ∈ stocks, stock.quantity.isInteger = true)
    (hB : ∀ stock ∈ stocks, stock.quantity.toInt.natAbs ≤ B)
    (hbound : B + 2 * Ieee.lineSum t.items < 2 ^ 53) :
    (∀ stock ∈ Ieee.applyStock products t stocks,
      stock.quantity.isInteger = true ∧
      stock.quantity.toInt.natAbs ≤ B + 2 * Ieee.lineSum t.items) ∧
    (∀ k w,
      Ieee.quantityAt (Ieee.applyStock products t stocks) k w
        = .finite (((Ieee.quantityAt stocks k w).toInt + Ieee.stockDelta products t k w)
            * (Ieee.scale : Int))) := by
  have hsum : B + (t.items.map (fun item => (item.quantity.toInt).natAbs)).sum < 2 ^ 53 := by
    rw [ieee_lineSum_eq]; omega
  have hsumneg :
      B + (t.items.map (fun item => (-item.quantity.toInt).natAbs)).sum < 2 ^ 53 := by
    simp only [Int.natAbs_neg]
    exact hsum
  have hpos : ∀ item ∈ t.items,
      item.quantity = .finite (item.quantity.toInt * (Ieee.scale : Int)) :=
    fun item h => ieee_finite_toInt (hitems item h)
  have hneg : ∀ item ∈ t.items,
      item.quantity.neg = .finite (-item.quantity.toInt * (Ieee.scale : Int)) := by
    intro item h
    conv_lhs => rw [hpos item h]
    exact ieee_neg_finite _
  unfold Ieee.applyStock Ieee.stockDelta
  cases ht : t.type with
  | receipt =>
    simp only []
    obtain ⟨h1, h2, _⟩ := ieee_foldl_update (Ieee.populate products) t.toWarehouse
      (fun item => item.quantity) (fun item => item.quantity.toInt) t.items stocks B
      hpos hint hB hsum
    refine ⟨fun stock h => ⟨(h1 stock h).1, ?_⟩, fun k w => ?_⟩
    · have := (h1 stock h).2
      rw [ieee_lineSum_eq] at this
      omega
    · rw [h2 k w]
      by_cases hw : t.toWarehouse = w
      · subst hw; simp [Ieee.lineTotal]
      · have hw' : ¬ w = t.toWarehouse := fun h => hw h.symm
        simp [hw, hw']
  | delivery =>
    simp only []
    obtain ⟨h1, h2, _⟩ := ieee_foldl_update (Ieee.populate products) t.fromWarehouse
      (fun item => item.quantity.neg) (fun item => -item.quantity.toInt) t.items stocks B
      hneg hint hB hsumneg
    refine ⟨fun stock h => ⟨(h1 stock h).1, ?_⟩, fun k w => ?_⟩
    · have := (h1 stock h).2
      simp only [Int.natAbs_neg] at this
      rw [ieee_lineSum_eq] at this
      omega
    · rw [h2 k w]
      by_cases hw : t.fromWarehouse = w
      · subst hw
        simp only [if_true, Ieee.lineTotal]
        rw [← ieee_sum_map_neg]
      · have hw' : ¬ w = t.fromWarehouse := fun h => hw h.symm
        simp [hw, hw']
  | transfer =>
    simp only []
    obtain ⟨h1, h2, _⟩ := ieee_foldl_transfer (Ieee.populate products) t.fromWarehouse
      t.toWarehouse t.items stocks B hitems hint hB hbound
    refine ⟨h1, fun k w => ?_⟩
    rw [h2 k w]
    refine congrArg Ieee.Number.finite (congrArg (fun x => x * (Ieee.scale : Int)) ?_)
    simp only [Ieee.lineTotal, eq_comm]
  | adjustment =>
    simp only []
    obtain ⟨h1, h2, _⟩ := ieee_foldl_update (Ieee.populate products) t.fromWarehouse
      (fun item => item.quantity) (fun item => item.quantity.toInt) t.items stocks B
      hpos hint hB hsum
    refine ⟨fun stock h => ⟨(h1 stock h).1, ?_⟩, fun k w => ?_⟩
    · have := (h1 stock h).2
      rw [ieee_lineSum_eq] at this
      omega
    · rw [h2 k w]
      by_cases hw : t.fromWarehouse = w
      · subst hw; simp [Ieee.lineTotal]
      · have hw' : ¬ w = t.fromWarehouse := fun h => hw h.symm
        simp [hw, hw']

theorem ieee_findById_some_id {transactions : List Ieee.Transaction} {id : ObjectId}
    {t : Ieee.Transaction} (h : Ieee.findById transactions id = some t) : t.id = id := by
  have := List.find?_some h
  simpa using this

theorem ieee_findById_save_self (transactions : List Ieee.Transaction)
    (t t' : Ieee.Transaction) (h : Ieee.findById transactions t'.id = some t) :
    Ieee.findById (Ieee.save transactions t') t'.id = some t' := by
  induction transactions with
  | nil => simp [Ieee.findById] at h
  | cons x rest ih =>
    unfold Ieee.save
    by_cases hx : x.id = t'.id
    · simp [hx, Ieee.findById]
    · rw [if_neg hx]
      simp only [Ieee.findById, List.find?_cons, hx, decide_False] at h ih ⊢
      exact ih h

theorem ieee_findById_save_of_ne (transactions : List Ieee.Transaction)
    (t' : Ieee.Transaction) (id : ObjectId) (h : t'.id ≠ id) :
    Ieee.findById (Ieee.save transactions t') id = Ieee.findById transactions id := by
  induction transactions with
  | nil => simp [Ieee.save]
  | cons x rest ih =>
    unfold Ieee.save
    by_cases hx : x.id = t'.id
    · rw [if_pos hx]
      have hx' : x.id ≠ id := hx ▸ h
      simp [Ieee.findById, List.find?_cons, h, hx']
    · rw [if_neg hx]
      simp only [Ieee.findById, List.find?_cons] at ih ⊢
      rw [ih]

theorem ieee_findById_save (transactions : List Ieee.Transaction) (t t' : Ieee.Transaction)
    (id : ObjectId) (h : Ieee.findById transactions t'.id = some t) :
    Ieee.findById (Ieee.save transactions t') id
      = if t'.id = id then some t' else Ieee.findById transactions id := by
  by_cases e : t'.id = id
  · rw [if_pos e, ← e]
    exact ieee_findById_save_self transactions t t' h
  · rw [if_neg e]
    exact ieee_findById_save_of_ne transactions t' id e

theorem ieee_completeTransaction_of_pending (s : Ieee.State) (id : ObjectId) (now : Nat)
    (t : Ieee.Transaction) (hfind : Ieee.findById s.transactions id = some t)
    (hstatus : t.status.terminal = false) :
    Ieee.completeTransaction s id now =
      (.ok { t with status := .completed, completedAt := some now },
        { s with
          transactions :=
            Ieee.save s.transactions { t with status := .completed, completedAt := some now },
          stocks := Ieee.applyStock s.products t s.stocks }) := by
  have h1 : t.status ≠ .completed := by
    intro h; rw [h] at hstatus; simp [Status.terminal] at hstatus
  have h2 : t.status ≠ .cancelled := by
    intro h; rw [h] at hstatus; simp [Status.terminal] at hstatus
  simp [Ieee.completeTransaction, hfind, h1, h2]

theorem ieee_lineTotal_of_mem (products : List ObjectId) (items : List Ieee.TransactionItem)
    (p : ObjectId) (hp : p ∈ products) :
    Ieee.lineTotal products items (some p)
      = ((items.filter (fun item => decide (item.product = p))).map
          (fun item => item.quantity.toInt)).sum := by
  unfold Ieee.lineTotal
  congr 2
  apply List.filter_congr
  intro item _
  unfold Ieee.populate
  by_cases h : item.product ∈ products
  · simp [h]
  · have : item.product ≠ p := fun e => h (e ▸ hp)
    simp [h, this]

/-! ## Completion over JavaScript numbers: receipts, deliveries, transfers -/

set_option maxRecDepth 100000 in
/-- C1, as stated, fails, in three ways.  A receipt of 5 units of product 7, which has no
document (`createReceipt` stores such a line), into warehouse 10: the upsert is keyed by
the populated product, which is `null`, so the quantity at (7, warehouse 10) stays 0
instead of becoming 0 + 5, and the quantity at the key (null, warehouse 10), which no
line names, becomes 5.  A receipt of 1.1 and 1.2 units of product 1 into warehouse 10
on 5.3 units: the two additions leave 7.6000000000000005, where 5.3 plus the sum of
the lines, 1.1 + 1.2 = 2.3, is 7.6; nor is the result the exact sum of the three.  A
receipt of twice 1 unit into warehouse 10 on 2^53 = 9007199254740992 units: each
addition rounds back to 2^53, where the prior quantity plus 2 is 9007199254740994. -/
theorem receipt_rounds_and_misses_unknown_product :
    (Ieee.findById Ieee.ghostState.transactions 1
        = some (Ieee.draft 1 .receipt none (some 10) [Ieee.line 7 (Ieee.ofInt 5)]) ∧
      Ieee.quantityAt Ieee.ghostState.stocks (some 7) (some 10) = Ieee.ofInt 0 ∧
      Ieee.quantityAt (Ieee.completeTransaction Ieee.ghostState 1 7).2.stocks
        (some 7) (some 10) = Ieee.ofInt 0 ∧
      Ieee.quantityAt Ieee.ghostState.stocks none (some 10) = Ieee.ofInt 0 ∧
      Ieee.quantityAt (Ieee.completeTransaction Ieee.ghostState 1 7).2.stocks
        none (some 10) = Ieee.ofInt 5) ∧
    (Ieee.findById Ieee.fractionalState.transactions 1
        = some (Ieee.draft 1 .receipt none (some 10)
            [Ieee.line 1 (Ieee.ofRat 11 10), Ieee.line 1 (Ieee.ofRat 12 10)]) ∧
      Ieee.quantityAt Ieee.fractionalState.stocks (some 1) (some 10) = Ieee.ofRat 53 10 ∧
      Ieee.quantityAt (Ieee.completeTransaction Ieee.fractionalState 1 7).2.stocks
        (some 1) (some 10) = Ieee.ofRat 76000000000000005 10000000000000000 ∧
      (Ieee.ofRat 11 10).add (Ieee.ofRat 12 10) = Ieee.ofRat 23 10 ∧
      (Ieee.ofRat 53 10).add (Ieee.ofRat 23 10) = Ieee.ofRat 76 10 ∧
      Ieee.ofRat 76000000000000005 10000000000000000 ≠ Ieee.ofRat 76 10 ∧
      (Ieee.ofRat 76000000000000005 10000000000000000).units
        ≠ (Ieee.ofRat 53 10).units + (Ieee.ofRat 11 10).units + (Ieee.ofRat 12 10).units) ∧
    (Ieee.findById Ieee.largeState.transactions 1
        = some (Ieee.draft 1 .receipt none (some 10)
            [Ieee.line 1 (Ieee.ofInt 1), Ieee.line 1 (Ieee.ofInt 1)]) ∧
      Ieee.quantityAt Ieee.largeState.stocks (some 1) (some 10)
        = Ieee.ofInt 9007199254740992 ∧
      Ieee.quantityAt (Ieee.completeTransaction Ieee.largeState 1 7).2.stocks
        (some 1) (some 10) = Ieee.ofInt 9007199254740992 ∧
      Ieee.ofInt 9007199254740992 ≠ Ieee.ofInt (9007199254740992 + 2)) := by
  refine ⟨⟨by decide, by decide, by decide, by decide, by decide⟩,
    ⟨by decide, by decide, by decide, by decide, by decide, by decide, by decide⟩,
    by decide, by decide, by decide, by decide⟩

/-- C1 (amended): for a receipt in a non-terminal status whose line quantities are whole
numbers, on a ledger of whole quantities, with the largest magnitude in the ledger plus
the magnitudes of the lines below 2^53: `completeTransaction` leaves at
(k, toWarehouse), for every product key k, the whole number that is the prior quantity
(0 without a record) plus the sum of the quantities of the lines whose populated product
is k; for a product p that has a document these are the lines naming p, and the lines
naming a product without a document count under the null key; the stock record of every
other key (another warehouse, or a key no line populates to) is as it was. -/
theorem completeTransaction_receipt_exact (s : Ieee.State) (id : ObjectId) (now : Nat)
    (t : Ieee.Transaction) (hfind : Ieee.findById s.transactions id = some t)
    (htype : t.type = .receipt) (hstatus : t.status.terminal = false)
    (hstocks : ∀ stock ∈ s.stocks, stock.quantity.isInteger = true)
    (hitems : ∀ item ∈ t.items, item.quantity.isInteger = true)
    (hbound : Ieee.largestQuantity s.stocks + Ieee.lineSum t.items < 2 ^ 53) :
    (∀ k,
      (Ieee.quantityAt (Ieee.completeTransaction s id now).2.stocks k t.toWarehouse).isInteger
        = true ∧
      (Ieee.quantityAt (Ieee.completeTransaction s id now).2.stocks k t.toWarehouse).toInt
        = (Ieee.quantityAt s.stocks k t.toWarehouse).toInt
          + Ieee.lineTotal s.products t.items k) ∧
    (∀ p ∈ s.products,
      Ieee.lineTotal s.products t.items (some p)
        = ((t.items.filter (fun item => decide (item.product = p))).map
            (fun item => item.quantity.toInt)).sum) ∧
    (∀ k w, (w ≠ t.toWarehouse ∨ ∀ item ∈ t.items, Ieee.populate s.products item ≠ k) →
      Ieee.findOne (Ieee.completeTransaction s id now).2.stocks k w
        = Ieee.findOne s.stocks k w) := by
  rw [ieee_completeTransaction_of_pending s id now t hfind hstatus]
  simp only [Ieee.applyStock, htype]
  obtain ⟨_, h2, _⟩ := ieee_foldl_update (Ieee.populate s.products) t.toWarehouse
    (fun item => item.quantity) (fun item => item.quantity.toInt) t.items s.stocks
    (Ieee.largestQuantity s.stocks)
    (fun item h => ieee_finite_toInt (hitems item h)) hstocks
    (fun _ h => ieee_mem_largestQuantity h) hbound
  refine ⟨fun k => ?_, fun p hp => ieee_lineTotal_of_mem s.products t.items p hp,
    fun k w h => ?_⟩
  · rw [h2 k t.toWarehouse]
    simp only [if_true, ieee_isInteger_finite, toInt_finite, true_and]
    rfl
  · exact ieee_findOne_foldl_of_ne (Ieee.populate s.products) (fun item => item.quantity)
      t.toWarehouse t.items s.stocks k w (h.imp_left Ne.symm)

set_option maxRecDepth 100000 in
theorem completeTransaction_receipt_exact_witness :
    Ieee.findById Ieee.wholeState.transactions 1
      = some (Ieee.draft 1 .receipt none (some 10)
          [Ieee.line 1 (Ieee.ofInt 5), Ieee.line 2 (Ieee.ofInt 3), Ieee.line 1 (Ieee.ofInt 7)]) ∧
    (Ieee.quantityAt Ieee.wholeState.stocks (some 1) (some 10)).toInt = 100 ∧
    Ieee.lineTotal Ieee.wholeState.products
      [Ieee.line 1 (Ieee.ofInt 5), Ieee.line 2 (Ieee.ofInt 3), Ieee.line 1 (Ieee.ofInt 7)]
      (some 1) = 12 ∧
    (Ieee.quantityAt (Ieee.completeTransaction Ieee.wholeState 1 7).2.stocks
        (some 1) (some 10)).toInt
      = (Ieee.quantityAt Ieee.wholeState.stocks (some 1) (some 10)).toInt
        + Ieee.lineTotal Ieee.wholeState.products
            [Ieee.line 1 (Ieee.ofInt 5), Ieee.line 2 (Ieee.ofInt 3), Ieee.line 1 (Ieee.ofInt 7)]
            (some 1) :=
  ⟨by decide, by decide, by decide,
    ((completeTransaction_receipt_exact Ieee.wholeState 1 7
      (Ieee.draft 1 .receipt none (some 10)
        [Ieee.line 1 (Ieee.ofInt 5), Ieee.line 2 (Ieee.ofInt 3), Ieee.line 1 (Ieee.ofInt 7)])
      (by decide) (by decide) (by decide) (by decide) (by decide) (by decide)).1 (some 1)).2⟩

set_option maxRecDepth 100000 in
/-- C2, as stated, fails, in two ways.  A delivery of two lines of 1.1 units of product
1 out of warehouse 10, on 10 units: the two subtractions leave 7.800000000000001, where
10 less the sum of the lines, 1.1 + 1.1 = 2.2, is 7.8; nor is the result the exact
difference.  A delivery of twice 1 unit out of warehouse 20 on 2^53 + 2 =
9007199254740994 units: the first subtraction rounds to 2^53 and the second leaves
9007199254740991, where the prior quantity less 2 is 9007199254740992. -/
theorem delivery_rounds :
    (Ieee.findById Ieee.tenState.transactions 1
      = some (Ieee.draft 1 .delivery (some 10) none
          [Ieee.line 1 (Ieee.ofRat 11 10), Ieee.line 1 (Ieee.ofRat 11 10)]) ∧
    Ieee.quantityAt Ieee.tenState.stocks (some 1) (some 10) = Ieee.ofInt 10 ∧
    Ieee.quantityAt (Ieee.completeTransaction Ieee.tenState 1 7).2.stocks (some 1) (some 10)
      = Ieee.ofRat 7800000000000001 1000000000000000 ∧
    (Ieee.ofRat 11 10).add (Ieee.ofRat 11 10) = Ieee.ofRat 22 10 ∧
    (Ieee.ofInt 10).sub (Ieee.ofRat 22 10) = Ieee.ofRat 78 10 ∧
    Ieee.ofRat 7800000000000001 1000000000000000 ≠ Ieee.ofRat 78 10 ∧
    (Ieee.ofRat 7800000000000001 1000000000000000).units
      ≠ (Ieee.ofInt 10).units - (Ieee.ofRat 11 10).units - (Ieee.ofRat 11 10).units) ∧
    (Ieee.findById Ieee.largeState.transactions 2
        = some (Ieee.draft 2 .delivery (some 20) none
            [Ieee.line 1 (Ieee.ofInt 1), Ieee.line 1 (Ieee.ofInt 1)]) ∧
      Ieee.quantityAt Ieee.largeState.stocks (some 1) (some 20)
        = Ieee.ofInt 9007199254740994 ∧
      Ieee.quantityAt (Ieee.completeTransaction Ieee.largeState 2 7).2.stocks
        (some 1) (some 20) = Ieee.ofInt 9007199254740991 ∧
      Ieee.ofInt 9007199254740991 ≠ Ieee.ofInt (9007199254740994 - 2)) := by
  refine ⟨⟨by decide, by decide, by decide, by decide, by decide, by decide, by decide⟩,
    by decide, by decide, by decide, by decide⟩

/-- C2 (amended): for a delivery in a non-terminal status whose line quantities are whole
numbers, on a ledger of whole quantities, with the largest magnitude in the ledger plus
the magnitudes of the lines below 2^53: `completeTransaction` leaves at
(k, fromWarehouse), for every product key k, the whole number that is the prior quantity
(0 without a record) less the sum of the quantities of the lines whose populated product
is k, with no test of availability and no clamping, so it is negative when the sum
exceeds the prior quantity; for a product p that has a document these are the lines
naming p; the stock record of every other key is as it was. -/
theorem completeTransaction_delivery_exact (s : Ieee.State) (id : ObjectId) (now : Nat)
    (t : Ieee.Transaction) (hfind : Ieee.findById s.transactions id = some t)
    (htype : t.type = .delivery) (hstatus : t.status.terminal = false)
    (hstocks : ∀ stock ∈ s.stocks, stock.quantity.isInteger = true)
    (hitems : ∀ item ∈ t.items, item.quantity.isInteger = true)
    (hbound : Ieee.largestQuantity s.stocks + Ieee.lineSum t.items < 2 ^ 53) :
    (∀ k,
      (Ieee.quantityAt (Ieee.completeTransaction s id now).2.stocks k t.fromWarehouse).isInteger
        = true ∧
      (Ieee.quantityAt (Ieee.completeTransaction s id now).2.stocks k t.fromWarehouse).toInt
        = (Ieee.quantityAt s.stocks k t.fromWarehouse).toInt
          - Ieee.lineTotal s.products t.items k) ∧
    (∀ p ∈ s.products,
      Ieee.lineTotal s.products t.items (some p)
        = ((t.items.filter (fun item => decide (item.product = p))).map
            (fun item => item.quantity.toInt)).sum) ∧
    (∀ k w, (w ≠ t.fromWarehouse ∨ ∀ item ∈ t.items, Ieee.populate s.products item ≠ k) →
      Ieee.findOne (Ieee.completeTransaction s id now).2.stocks k w
        = Ieee.findOne s.stocks k w) := by
  rw [ieee_completeTransaction_of_pending s id now t hfind hstatus]
  simp only [Ieee.applyStock, htype]
  have hneg : ∀ item ∈ t.items,
      item.quantity.neg = .finite (-item.quantity.toInt * (Ieee.scale : Int)) := by
    intro item h
    conv_lhs => rw [ieee_finite_toInt (hitems item h)]
    exact ieee_neg_finite _
  obtain ⟨_, h2, _⟩ := ieee_foldl_update (Ieee.populate s.products) t.fromWarehouse
    (fun item => item.quantity.neg) (fun item => -item.quantity.toInt) t.items s.stocks
    (Ieee.largestQuantity s.stocks) hneg hstocks
    (fun _ h => ieee_mem_largestQuantity h) (by simpa only [Int.natAbs_neg] using hbound)
  refine ⟨fun k => ?_, fun p hp => ieee_lineTotal_of_mem s.products t.items p hp,
    fun k w h => ?_⟩
  · rw [h2 k t.fromWarehouse]
    simp only [if_true, ieee_isInteger_finite, toInt_finite, true_and, Ieee.lineTotal]
    rw [ieee_sum_map_neg]
    ring
  · exact ieee_findOne_foldl_of_ne (Ieee.populate s.products) (fun item => item.quantity.neg)
      t.fromWarehouse t.items s.stocks k w (h.imp_left Ne.symm)

set_option maxRecDepth 100000 in
theorem completeTransaction_delivery_exact_witness :
    Ieee.findById Ieee.wholeState.transactions 2
      = some (Ieee.draft 2 .delivery (some 10) none [Ieee.line 1 (Ieee.ofInt 30)]) ∧
    (Ieee.quantityAt Ieee.wholeState.stocks (some 1) (some 10)).toInt = 100 ∧
    Ieee.lineTotal Ieee.wholeState.products [Ieee.line 1 (Ieee.ofInt 30)] (some 1) = 30 ∧
    (Ieee.quantityAt (Ieee.completeTransaction Ieee.wholeState 2 7).2.stocks
        (some 1) (some 10)).toInt
      = (Ieee.quantityAt Ieee.wholeState.stocks (some 1) (some 10)).toInt
        - Ieee.lineTotal Ieee.wholeState.products [Ieee.line 1 (Ieee.ofInt 30)] (some 1) :=
  ⟨by decide, by decide, by decide,
    ((completeTransaction_delivery_exact Ieee.wholeState 2 7
      (Ieee.draft 2 .delivery (some 10) none [Ieee.line 1 (Ieee.ofInt 30)])
      (by decide) (by decide) (by decide) (by decide) (by decide) (by decide)).1 (some 1)).2⟩

set_option maxRecDepth 100000 in
/-- C3, as stated, fails, in three ways.  A transfer of 8 units of product 1 from warehouse
10 to warehouse 10 itself, on 100 units: the quantity at the source is 100 afterwards,
not 100 - 8.  A transfer of two lines of 1.1 units from warehouse 10 to warehouse 20, on
10 units: the source is left with 7.800000000000001, where 10 less the sum of the lines,
2.2, is 7.8.  A transfer of 1 unit from warehouse 20, holding 2^53 + 2 =
9007199254740994, to warehouse 10, holding 2^53: the source goes down by 2 and the
destination stays at 2^53. -/
theorem transfer_same_warehouse_or_fractions :
    (Ieee.findById Ieee.wholeState.transactions 4
        = some (Ieee.draft 4 .transfer (some 10) (some 10) [Ieee.line 1 (Ieee.ofInt 8)]) ∧
      Ieee.quantityAt Ieee.wholeState.stocks (some 1) (some 10) = Ieee.ofInt 100 ∧
      Ieee.quantityAt (Ieee.completeTransaction Ieee.wholeState 4 7).2.stocks
        (some 1) (some 10) = Ieee.ofInt 100 ∧
      Ieee.ofInt 100 ≠ (Ieee.ofInt 100).sub (Ieee.ofInt 8)) ∧
    (Ieee.findById Ieee.tenState.transactions 2
        = some (Ieee.draft 2 .transfer (some 10) (some 20)
            [Ieee.line 1 (Ieee.ofRat 11 10), Ieee.line 1 (Ieee.ofRat 11 10)]) ∧
      Ieee.quantityAt Ieee.tenState.stocks (some 1) (some 10) = Ieee.ofInt 10 ∧
      Ieee.quantityAt (Ieee.completeTransaction Ieee.tenState 2 7).2.stocks
        (some 1) (some 10) = Ieee.ofRat 7800000000000001 1000000000000000 ∧
      Ieee.quantityAt (Ieee.completeTransaction Ieee.tenState 2 7).2.stocks
        (some 1) (some 20) = Ieee.ofRat 22 10 ∧
      (Ieee.ofInt 10).sub (Ieee.ofRat 22 10) = Ieee.ofRat 78 10 ∧
      Ieee.ofRat 7800000000000001 1000000000000000 ≠ Ieee.ofRat 78 10) ∧
    (Ieee.findById Ieee.largeState.transactions 3
        = some (Ieee.draft 3 .transfer (some 20) (some 10) [Ieee.line 1 (Ieee.ofInt 1)]) ∧
      Ieee.largeState.stocks
        = [Ieee.record 1 10 (Ieee.ofInt 9007199254740992),
           Ieee.record 1 20 (Ieee.ofInt 9007199254740994)] ∧
      (Ieee.completeTransaction Ieee.largeState 3 7).2.stocks
        = [Ieee.record 1 10 (Ieee.ofInt 9007199254740992),
           Ieee.record 1 20 (Ieee.ofInt 9007199254740992)]) := by
  refine ⟨⟨by decide, by decide, by decide, by decide⟩,
    ⟨by decide, by decide, by decide, by decide, by decide, by decide⟩,
    by decide, by decide, by decide⟩

/-- C3 (amended): for a transfer in a non-terminal status whose line quantities are whole
numbers, on a ledger of whole quantities, with the largest magnitude in the ledger plus
twice the magnitudes of the lines below 2^53: after `completeTransaction` the quantity at
every key (k, w) is the whole number that is the prior quantity, plus the sum T of the
quantities of the lines whose populated product is k when w is `toWarehouse`, less T when
w is `fromWarehouse`.  So with two different warehouses the source goes down by T and
the destination up by T, and with `fromWarehouse` equal to `toWarehouse` the two cancel.
For a product p that has a document the lines counted are those naming p. -/
theorem completeTransaction_transfer_exact (s : Ieee.State) (id : ObjectId) (now : Nat)
    (t : Ieee.Transaction) (hfind : Ieee.findById s.transactions id = some t)
    (htype : t.type = .transfer) (hstatus : t.status.terminal = false)
    (hstocks : ∀ stock ∈ s.stocks, stock.quantity.isInteger = true)
    (hitems : ∀ item ∈ t.items, item.quantity.isInteger = true)
    (hbound : Ieee.largestQuantity s.stocks + 2 * Ieee.lineSum t.items < 2 ^ 53) :
    (∀ k w,
      (Ieee.quantityAt (Ieee.completeTransaction s id now).2.stocks k w).isInteger = true ∧
      (Ieee.quantityAt (Ieee.completeTransaction s id now).2.stocks k w).toInt
        = (Ieee.quantityAt s.stocks k w).toInt
          + (if w = t.toWarehouse then Ieee.lineTotal s.products t.items k else 0)
          - (if w = t.fromWarehouse then Ieee.lineTotal s.products t.items k else 0)) ∧
    (∀ p ∈ s.products,
      Ieee.lineTotal s.products t.items (some p)
        = ((t.items.filter (fun item => decide (item.product = p))).map
            (fun item => item.quantity.toInt)).sum) := by
  rw [ieee_completeTransaction_of_pending s id now t hfind hstatus]
  simp only [Ieee.applyStock, htype]
  obtain ⟨_, h2, _⟩ := ieee_foldl_transfer (Ieee.populate s.products) t.fromWarehouse
    t.toWarehouse t.items s.stocks (Ieee.largestQuantity s.stocks) hitems hstocks
    (fun _ h => ieee_mem_largestQuantity h) hbound
  refine ⟨fun k w => ?_, fun p hp => ieee_lineTotal_of_mem s.products t.items p hp⟩
  rw [h2 k w]
  simp only [ieee_isInteger_finite, toInt_finite, true_and, Ieee.lineTotal]
  ring

set_option maxRecDepth 100000 in
theorem completeTransaction_transfer_exact_witness :
    Ieee.findById Ieee.wholeState.transactions 3
      = some (Ieee.draft 3 .transfer (some 10) (some 20) [Ieee.line 1 (Ieee.ofInt 8)]) ∧
    (Ieee.quantityAt Ieee.wholeState.stocks (some 1) (some 20)).toInt = 40 ∧
    Ieee.lineTotal Ieee.wholeState.products [Ieee.line 1 (Ieee.ofInt 8)] (some 1) = 8 ∧
    (Ieee.quantityAt (Ieee.completeTransaction Ieee.wholeState 3 7).2.stocks
        (some 1) (some 20)).toInt
      = (Ieee.quantityAt Ieee.wholeState.stocks (some 1) (some 20)).toInt
        + (if (some 20 : Option ObjectId) = some 20 then
            Ieee.lineTotal Ieee.wholeState.products [Ieee.line 1 (Ieee.ofInt 8)] (some 1)
           else 0)
        - (if (some 20 : Option ObjectId) = some 10 then
            Ieee.lineTotal Ieee.wholeState.products [Ieee.line 1 (Ieee.ofInt 8)] (some 1)
           else 0) :=
  ⟨by decide, by decide, by decide,
    ((completeTransaction_transfer_exact Ieee.wholeState 3 7
      (Ieee.draft 3 .transfer (some 10) (some 20) [Ieee.line 1 (Ieee.ofInt 8)])
      (by decide) (by decide) (by decide) (by decide) (by decide) (by decide)).1
        (some 1) (some 20)).2⟩

/-! ## Conservation and commuting completions over JavaScript numbers -/

set_option maxRecDepth 100000 in
/-- C26, as stated, fails, for quantities that are not whole and for whole quantities
beyond the exact range.  A transfer of 1.1 units of
product 1 from warehouse 10 to warehouse 10 itself, on 5.3 units, leaves
5.299999999999999: the quantity changed, and with it the product's total.  A transfer
of 1.1 units from warehouse 10, holding 10.1, to warehouse 20, holding 20.2, leaves 9
and 21.3, whose exact sum is not that of 10.1 and 20.2.  A transfer of 1 unit from
warehouse 20, holding 2^53 + 2 = 9007199254740994, to warehouse 10, holding 2^53, leaves
2^53 in both: two units are gone. -/
theorem transfer_of_fractions_loses_stock :
    (Ieee.findById Ieee.fractionalState.transactions 2
        = some (Ieee.draft 2 .transfer (some 10) (some 10) [Ieee.line 1 (Ieee.ofRat 11 10)]) ∧
      Ieee.fractionalState.stocks = [Ieee.record 1 10 (Ieee.ofRat 53 10)] ∧
      (Ieee.completeTransaction Ieee.fractionalState 2 7).2.stocks
        = [Ieee.record 1 10 (Ieee.ofRat 5299999999999999 1000000000000000)] ∧
      Ieee.ofRat 5299999999999999 1000000000000000 ≠ Ieee.ofRat 53 10 ∧
      Ieee.stockTotal (Ieee.completeTransaction Ieee.fractionalState 2 7).2.stocks (some 1)
        ≠ Ieee.stockTotal Ieee.fractionalState.stocks (some 1)) ∧
    (Ieee.findById Ieee.twoWarehouseState.transactions 1
        = some (Ieee.draft 1 .transfer (some 10) (some 20) [Ieee.line 1 (Ieee.ofRat 11 10)]) ∧
      Ieee.twoWarehouseState.stocks
        = [Ieee.record 1 10 (Ieee.ofRat 101 10), Ieee.record 1 20 (Ieee.ofRat 202 10)] ∧
      (Ieee.completeTransaction Ieee.twoWarehouseState 1 7).2.stocks
        = [Ieee.record 1 10 (Ieee.ofInt 9), Ieee.record 1 20 (Ieee.ofRat 213 10)] ∧
      Ieee.stockTotal (Ieee.completeTransaction Ieee.twoWarehouseState 1 7).2.stocks (some 1)
        ≠ Ieee.stockTotal Ieee.twoWarehouseState.stocks (some 1)) ∧
    (Ieee.findById Ieee.largeState.transactions 3
        = some (Ieee.draft 3 .transfer (some 20) (some 10) [Ieee.line 1 (Ieee.ofInt 1)]) ∧
      Ieee.largeState.stocks
        = [Ieee.record 1 10 (Ieee.ofInt 9007199254740992),
           Ieee.record 1 20 (Ieee.ofInt 9007199254740994)] ∧
      (Ieee.completeTransaction Ieee.largeState 3 7).2.stocks
        = [Ieee.record 1 10 (Ieee.ofInt 9007199254740992),
           Ieee.record 1 20 (Ieee.ofInt 9007199254740992)] ∧
      Ieee.stockTotal (Ieee.completeTransaction Ieee.largeState 3 7).2.stocks (some 1)
        ≠ Ieee.stockTotal Ieee.largeState.stocks (some 1)) := by
  refine ⟨⟨by decide, by decide, by decide, by decide, by decide⟩,
    ⟨by decide, by decide, by decide, by decide⟩,
    by decide, by decide, by decide, by decide⟩

/-- C26 (amended): completing a transfer whose line quantities are whole numbers, on a
ledger of whole quantities, with the largest magnitude in the ledger plus twice the
magnitudes of the lines below 2^53, conserves stock.  Whatever the status of the
transfer and its two warehouses, for every product key the exact sum of the quantities
over all stock records is the same after `completeTransaction` as before; and when
`fromWarehouse` equals `toWarehouse` the quantity at every key is unchanged too. -/
theorem completeTransaction_transfer_conserves_exact (s : Ieee.State) (id : ObjectId)
    (now : Nat) (t : Ieee.Transaction) (hfind : Ieee.findById s.transactions id = some t)
    (htype : t.type = .transfer)
    (hstocks : ∀ stock ∈ s.stocks, stock.quantity.isInteger = true)
    (hitems : ∀ item ∈ t.items, item.quantity.isInteger = true)
    (hbound : Ieee.largestQuantity s.stocks + 2 * Ieee.lineSum t.items < 2 ^ 53) :
    (∀ k, Ieee.stockTotal (Ieee.completeTransaction s id now).2.stocks k
        = Ieee.stockTotal s.stocks k) ∧
    (t.fromWarehouse = t.toWarehouse →
      ∀ k w, Ieee.quantityAt (Ieee.completeTransaction s id now).2.stocks k w
        = Ieee.quantityAt s.stocks k w) := by
  by_cases hterm : t.status.terminal = true
  · have hsame : (Ieee.completeTransaction s id now).2 = s := by
      by_cases h1 : t.status = .completed
      · simp [Ieee.completeTransaction, hfind, h1]
      · have h2 : t.status = .cancelled := by
          cases hst : t.status <;> simp_all [Status.terminal]
        simp [Ieee.completeTransaction, hfind, h2]
    rw [hsame]
    exact ⟨fun _ => rfl, fun _ _ _ => rfl⟩
  · rw [ieee_completeTransaction_of_pending s id now t hfind (by simpa using hterm)]
    simp only [Ieee.applyStock, htype]
    obtain ⟨_, h2, h3⟩ := ieee_foldl_transfer (Ieee.populate s.products) t.fromWarehouse
      t.toWarehouse t.items s.stocks (Ieee.largestQuantity s.stocks) hitems hstocks
      (fun _ h => ieee_mem_largestQuantity h) hbound
    refine ⟨h3, fun heq k w => ?_⟩
    rw [h2 k w, heq, sub_self, add_zero]
    exact (ieee_finite_toInt (ieee_quantityAt_isInteger s.stocks hstocks k w)).symm

set_option maxRecDepth 100000 in
theorem completeTransaction_transfer_conserves_exact_witness :
    Ieee.findById Ieee.wholeState.transactions 3
      = some (Ieee.draft 3 .transfer (some 10) (some 20) [Ieee.line 1 (Ieee.ofInt 8)]) ∧
    Ieee.stockTotal (Ieee.completeTransaction Ieee.wholeState 3 7).2.stocks (some 1)
      = Ieee.stockTotal Ieee.wholeState.stocks (some 1) ∧
    Ieee.quantityAt (Ieee.completeTransaction Ieee.wholeState 3 7).2.stocks (some 1) (some 10)
      = Ieee.ofInt 92 ∧
    Ieee.quantityAt (Ieee.completeTransaction Ieee.wholeState 3 7).2.stocks (some 1) (some 20)
      = Ieee.ofInt 48 ∧
    Ieee.findById Ieee.wholeState.transactions 4
      = some (Ieee.draft 4 .transfer (some 10) (some 10) [Ieee.line 1 (Ieee.ofInt 8)]) ∧
    Ieee.quantityAt (Ieee.completeTransaction Ieee.wholeState 4 7).2.stocks (some 1) (some 10)
      = Ieee.quantityAt Ieee.wholeState.stocks (some 1) (some 10) :=
  ⟨by decide,
    (completeTransaction_transfer_conserves_exact Ieee.wholeState 3 7
      (Ieee.draft 3 .transfer (some 10) (some 20) [Ieee.line 1 (Ieee.ofInt 8)])
      (by decide) (by decide) (by decide) (by decide) (by decide)).1 (some 1),
    by decide, by decide, by decide,
    (completeTransaction_transfer_conserves_exact Ieee.wholeState 4 7
      (Ieee.draft 4 .transfer (some 10) (some 10) [Ieee.line 1 (Ieee.ofInt 8)])
      (by decide) (by decide) (by decide) (by decide) (by decide)).2 (by decide)
        (some 1) (some 10)⟩

set_option maxRecDepth 100000 in
/-- C29, as stated, fails, for quantities that are not whole and for whole quantities
beyond the exact range.  Two draft receipts into warehouse 10, of 1.1 and of 2.2 units
of product 1, on 10 units: completing the first and then the second leaves
(10 + 1.1) + 2.2 = 13.3, and completing them in the opposite order leaves
(10 + 2.2) + 1.1 = 13.299999999999999.  A draft receipt of twice 1 unit into warehouse
10 and a draft delivery of 1 unit out of it, on 2^53 = 9007199254740992 units: the
receipt first leaves 9007199254740991, the delivery first leaves 9007199254740992. -/
theorem completions_do_not_commute :
    (Ieee.findById Ieee.tenState.transactions 3
      = some (Ieee.draft 3 .receipt none (some 10) [Ieee.line 1 (Ieee.ofRat 11 10)]) ∧
    Ieee.findById Ieee.tenState.transactions 4
      = some (Ieee.draft 4 .receipt none (some 10) [Ieee.line 1 (Ieee.ofRat 22 10)]) ∧
    Ieee.quantityAt Ieee.tenState.stocks (some 1) (some 10) = Ieee.ofInt 10 ∧
    Ieee.quantityAt
        (Ieee.completeTransaction (Ieee.completeTransaction Ieee.tenState 3 5).2 4 6).2.stocks
        (some 1) (some 10) = Ieee.ofRat 133 10 ∧
    Ieee.quantityAt
        (Ieee.completeTransaction (Ieee.completeTransaction Ieee.tenState 4 5).2 3 6).2.stocks
        (some 1) (some 10) = Ieee.ofRat 13299999999999999 1000000000000000 ∧
    Ieee.ofRat 133 10 ≠ Ieee.ofRat 13299999999999999 1000000000000000) ∧
    (Ieee.findById Ieee.largeState.transactions 1
        = some (Ieee.draft 1 .receipt none (some 10)
            [Ieee.line 1 (Ieee.ofInt 1), Ieee.line 1 (Ieee.ofInt 1)]) ∧
      Ieee.findById Ieee.largeState.transactions 4
        = some (Ieee.draft 4 .delivery (some 10) none [Ieee.line 1 (Ieee.ofInt 1)]) ∧
      Ieee.quantityAt Ieee.largeState.stocks (some 1) (some 10)
        = Ieee.ofInt 9007199254740992 ∧
      Ieee.quantityAt
          (Ieee.completeTransaction (Ieee.completeTransaction Ieee.largeState 1 5).2 4 6).2.stocks
          (some 1) (some 10) = Ieee.ofInt 9007199254740991 ∧
      Ieee.quantityAt
          (Ieee.completeTransaction (Ieee.completeTransaction Ieee.largeState 4 5).2 1 6).2.stocks
          (some 1) (some 10) = Ieee.ofInt 9007199254740992 ∧
      Ieee.ofInt 9007199254740991 ≠ Ieee.ofInt 9007199254740992) := by
  refine ⟨⟨by decide, by decide, by decide, by decide, by decide, by decide⟩,
    by decide, by decide, by decide, by decide, by decide, by decide⟩

/-- C29 (amended): completions of whole quantities commute.  For two stored transactions
with different ids, both in a non-terminal status, whose line quantities are whole
numbers, on a ledger of whole quantities, with the largest magnitude in the ledger plus
twice the magnitudes of all the lines below 2^53: completing one and then the other
succeeds in either order, and the two orders end with the same quantity at every key
and the same status for every transaction. -/
theorem completeTransaction_commute_exact (s : Ieee.State) (id1 id2 : ObjectId)
    (t1 t2 : Ieee.Transaction) (n1 n2 m1 m2 : Nat) (hne : id1 ≠ id2)
    (h1 : Ieee.findById s.transactions id1 = some t1)
    (h2 : Ieee.findById s.transactions id2 = some t2)
    (hs1 : t1.status.terminal = false) (hs2 : t2.status.terminal = false)
    (hstocks : ∀ stock ∈ s.stocks, stock.quantity.isInteger = true)
    (hitems1 : ∀ item ∈ t1.items, item.quantity.isInteger = true)
    (hitems2 : ∀ item ∈ t2.items, item.quantity.isInteger = true)
    (hbound : Ieee.largestQuantity s.stocks
      + 2 * (Ieee.lineSum t1.items + Ieee.lineSum t2.items) < 2 ^ 53) :
    Ieee.isOk (Ieee.completeTransaction s id1 n1).1 = true ∧
    Ieee.isOk (Ieee.completeTransaction (Ieee.completeTransaction s id1 n1).2 id2 n2).1
      = true ∧
    Ieee.isOk (Ieee.completeTransaction s id2 m1).1 = true ∧
    Ieee.isOk (Ieee.completeTransaction (Ieee.completeTransaction s id2 m1).2 id1 m2).1
      = true ∧
    (∀ k w,
      Ieee.quantityAt
          (Ieee.completeTransaction (Ieee.completeTransaction s id1 n1).2 id2 n2).2.stocks k w
        = Ieee.quantityAt
            (Ieee.completeTransaction (Ieee.completeTransaction s id2 m1).2 id1 m2).2.stocks
            k w) ∧
    (∀ id,
      (Ieee.findById
          (Ieee.completeTransaction (Ieee.completeTransaction s id1 n1).2 id2 n2).2.transactions
          id).map (fun t => t.status)
      = (Ieee.findById
          (Ieee.completeTransaction (Ieee.completeTransaction s id2 m1).2 id1 m2).2.transactions
          id).map (fun t => t.status)) := by
  have hid1 : t1.id = id1 := ieee_findById_some_id h1
  have hid2 : t2.id = id2 := ieee_findById_some_id h2
  subst hid1 hid2
  rw [ieee_completeTransaction_of_pending s t1.id n1 t1 h1 hs1,
    ieee_completeTransaction_of_pending s t2.id m1 t2 h2 hs2]
  have h2' : Ieee.findById
      (Ieee.save s.transactions { t1 with status := .completed, completedAt := some n1 }) t2.id
      = some t2 := by
    rw [ieee_findById_save_of_ne s.transactions
      { t1 with status := .completed, completedAt := some n1 } t2.id hne]
    exact h2
  have h1' : Ieee.findById
      (Ieee.save s.transactions { t2 with status := .completed, completedAt := some m1 }) t1.id
      = some t1 := by
    rw [ieee_findById_save_of_ne s.transactions
      { t2 with status := .completed, completedAt := some m1 } t1.id hne.symm]
    exact h1
  rw [ieee_completeTransaction_of_pending _ t2.id n2 t2 h2' hs2,
    ieee_completeTransaction_of_pending _ t1.id m2 t1 h1' hs1]
  refine ⟨rfl, rfl, rfl, rfl, fun k w => ?_, fun id => ?_⟩
  · simp only
    obtain ⟨a1, a2⟩ := ieee_applyStock s.products t1 s.stocks (Ieee.largestQuantity s.stocks)
      hitems1 hstocks (fun _ h => ieee_mem_largestQuantity h) (by omega)
    obtain ⟨_, a4⟩ := ieee_applyStock s.products t2 (Ieee.applyStock s.products t1 s.stocks)
      (Ieee.largestQuantity s.stocks + 2 * Ieee.lineSum t1.items)
      hitems2 (fun x hx => (a1 x hx).1) (fun x hx => (a1 x hx).2) (by omega)
    obtain ⟨b1, b2⟩ := ieee_applyStock s.products t2 s.stocks (Ieee.largestQuantity s.stocks)
      hitems2 hstocks (fun _ h => ieee_mem_largestQuantity h) (by omega)
    obtain ⟨_, b4⟩ := ieee_applyStock s.products t1 (Ieee.applyStock s.products t2 s.stocks)
      (Ieee.largestQuantity s.stocks + 2 * Ieee.lineSum t2.items)
      hitems1 (fun x hx => (b1 x hx).1) (fun x hx => (b1 x hx).2) (by omega)
    rw [a4 k w, b4 k w, a2 k w, b2 k w, toInt_finite, toInt_finite]
    refine congrArg Ieee.Number.finite (congrArg (fun x => x * (Ieee.scale : Int)) ?_)
    ring
  · simp only
    rw [ieee_findById_save _ t2 { t2 with status := .completed, completedAt := some n2 } id h2',
      ieee_findById_save _ t1 { t1 with status := .completed, completedAt := some n1 } id h1,
      ieee_findById_save _ t1 { t1 with status := .completed, completedAt := some m2 } id h1',
      ieee_findById_save _ t2 { t2 with status := .completed, completedAt := some m1 } id h2]
    by_cases e1 : t1.id = id
    · have e2 : ¬ t2.id = id := fun h => hne (e1.trans h.symm)
      simp [e1, e2]
    · by_cases e2 : t2.id = id
      · simp [e1, e2]
      · simp [e1, e2]

set_option maxRecDepth 100000 in
theorem completeTransaction_commute_exact_witness :
    (1 : ObjectId) ≠ 2 ∧
    Ieee.findById Ieee.wholeState.transactions 1
      = some (Ieee.draft 1 .receipt none (some 10)
          [Ieee.line 1 (Ieee.ofInt 5), Ieee.line 2 (Ieee.ofInt 3), Ieee.line 1 (Ieee.ofInt 7)]) ∧
    Ieee.findById Ieee.wholeState.transactions 2
      = some (Ieee.draft 2 .delivery (some 10) none [Ieee.line 1 (Ieee.ofInt 30)]) ∧
    Ieee.quantityAt
        (Ieee.completeTransaction (Ieee.completeTransaction Ieee.wholeState 1 5).2 2 6).2.stocks
        (some 1) (some 10) = Ieee.ofInt 82 ∧
    Ieee.quantityAt
        (Ieee.completeTransaction (Ieee.completeTransaction Ieee.wholeState 1 5).2 2 6).2.stocks
        (some 1) (some 10)
      = Ieee.quantityAt
          (Ieee.completeTransaction (Ieee.completeTransaction Ieee.wholeState 2 7).2 1 8).2.stocks
          (some 1) (some 10) :=
  ⟨by decide, by decide, by decide, by decide,
    (completeTransaction_commute_exact Ieee.wholeState 1 2
      (Ieee.draft 1 .receipt none (some 10)
        [Ieee.line 1 (Ieee.ofInt 5), Ieee.line 2 (Ieee.ofInt 3), Ieee.line 1 (Ieee.ofInt 7)])
      (Ieee.draft 2 .delivery (some 10) none [Ieee.line 1 (Ieee.ofInt 30)])
      5 6 7 8 (by decide) (by decide) (by decide) (by decide) (by decide) (by decide)
      (by decide) (by decide) (by decide)).2.2.2.2.1 (some 1) (some 10)⟩

/-! ## The forecaster over JavaScript numbers: suppression and the suggested quantity -/

theorem ieee_roundUnits_ne_nan (a : Int) (b : Nat) : Ieee.roundUnits a b ≠ .nan := by
  unfold Ieee.roundUnits
  simp only []
  split_ifs <;> simp

theorem ieee_ofInt_ne_nan (n : Int) : Ieee.ofInt n ≠ .nan :=
  ieee_roundUnits_ne_nan _ _

theorem ieee_lt_ne_nan {x y : Ieee.Number} (h : x.lt y = true) : x ≠ .nan ∧ y ≠ .nan := by
  cases x <;> cases y <;> simp_all [Ieee.Number.lt]

theorem ieee_le_eq_not_lt {x y : Ieee.Number} (hx : x ≠ .nan) (hy : y ≠ .nan) :
    x.le y = !(y.lt x) := by
  cases x <;> cases y <;> simp_all [Ieee.Number.le]

theorem ieee_lt_irrefl (x : Ieee.Number) : x.lt x = false := by
  cases x <;> simp [Ieee.Number.lt]

theorem ieee_lt_trans_finite {a b : Int} {x : Ieee.Number} (hab : a ≤ b)
    (h : (Ieee.Number.finite b).lt x = true) : (Ieee.Number.finite a).lt x = true := by
  cases x with
  | finite c =>
    simp only [Ieee.Number.lt, decide_eq_true_eq] at h ⊢
    omega
  | posInf => simp [Ieee.Number.lt]
  | negInf => simp [Ieee.Number.lt] at h
  | nan => simp [Ieee.Number.lt] at h

theorem ieee_ceil_ne_nan {x : Ieee.Number} (h : x ≠ .nan) : x.ceil ≠ .nan := by
  cases x <;> simp_all [Ieee.Number.ceil]

theorem ieee_orDefault_ne_nan (x : Option Ieee.Number) (n : Int) :
    Ieee.orDefault x (Ieee.ofInt n) ≠ .nan := by
  unfold Ieee.orDefault
  cases x with
  | none => exact ieee_ofInt_ne_nan n
  | some v =>
    simp only []
    split_ifs with h
    · intro hv
      rw [hv] at h
      simp [Ieee.Number.truthy] at h
    · exact ieee_ofInt_ne_nan n

theorem ieee_ofInt_zero : Ieee.ofInt 0 = .finite 0 := by
  have := ofInt_eq 0 (by norm_num)
  simpa using this

theorem ieee_calculateDailyDemand_nil (now : Nat) :
    Ieee.calculateDailyDemand now [] = .finite 0 := by
  simp [Ieee.calculateDailyDemand]

/-- On the demand-based path `forecastDemand` returns what `demandForecast` builds. -/
theorem ieee_forecastDemand_demand_path (transactions : List Ieee.Transaction) (now : Nat)
    (stock : Ieee.PopulatedStock) (w : Warehouse) (hw : stock.warehouse = some w)
    (hd : (Ieee.ofInt 0).lt (Ieee.demandOf transactions now stock w) = true) :
    Ieee.forecastDemand transactions now stock
      = Ieee.demandForecast stock (Ieee.minLevelOf stock)
          (Ieee.demandOf transactions now stock w)
          (Ieee.deliveryTransactionsOf transactions w.id stock.product.id).length := by
  unfold Ieee.demandOf at hd ⊢
  have hlen : (Ieee.deliveryTransactionsOf transactions w.id stock.product.id).length ≠ 0 := by
    intro h0
    rw [List.length_eq_zero] at h0
    rw [h0, ieee_calculateDailyDemand_nil, ieee_ofInt_zero] at hd
    simp [Ieee.Number.lt] at hd
  have hne : (Ieee.calculateDailyDemand now
      (Ieee.deliveryTransactionsOf transactions w.id stock.product.id)).eq (Ieee.ofInt 0)
      = false := by
    rw [ieee_ofInt_zero] at hd ⊢
    cases hq : Ieee.calculateDailyDemand now
      (Ieee.deliveryTransactionsOf transactions w.id stock.product.id) with
    | finite a =>
      rw [hq] at hd
      simp only [Ieee.Number.lt, decide_eq_true_eq] at hd
      simp only [Ieee.Number.eq, decide_eq_false_iff_not, Ieee.Number.finite.injEq]
      omega
    | posInf => simp [Ieee.Number.eq]
    | negInf => simp [Ieee.Number.eq]
    | nan => simp [Ieee.Number.eq]
  unfold Ieee.forecastDemand Ieee.minLevelOf
  simp only [hw, hlen, hne, if_false, Bool.false_eq_true]

/-- The suppression test of `demandForecast`. -/
theorem ieee_demandForecast_none_iff (stock : Ieee.PopulatedStock)
    (minStockLevel dailyDemand : Ieee.Number) (count : Nat) :
    Ieee.demandForecast stock minStockLevel dailyDemand count = none ↔
      ((Ieee.daysUntilShortageOf stock.quantity dailyDemand).le (Ieee.ofInt 45) = false ∧
       (Ieee.daysUntilMinLevelOf stock.quantity minStockLevel dailyDemand).le (Ieee.ofInt 21)
         = false ∧
       (Ieee.ofInt 60).lt (Ieee.daysUntilShortageOf stock.quantity dailyDemand) = true) := by
  unfold Ieee.demandForecast Ieee.daysUntilShortageOf Ieee.daysUntilMinLevelOf
  simp only []
  split_ifs with hc
  · simp only [Bool.and_eq_true, Bool.not_eq_true'] at hc
    simp only [true_iff]
    exact ⟨hc.1.1, hc.1.2, hc.2⟩
  · simp only [Bool.and_eq_true, Bool.not_eq_true'] at hc
    simp only [false_iff, reduceCtorEq]
    intro h
    exact hc ⟨⟨h.1, h.2.1⟩, h.2.2⟩

/-- When the days until shortage exceed 60, the days until the minimum level are a
number, unless the quantity and the minimum level are both +Infinity. -/
theorem ieee_daysUntilMinLevel_ne_nan (q m d : Ieee.Number) (hm : m ≠ .nan)
    (hd : (Ieee.ofInt 0).lt d = true)
    (h60 : (Ieee.ofInt 60).lt (Ieee.daysUntilShortageOf q d) = true)
    (hinf : ¬ (q = .posInf ∧ m = .posInf)) :
    Ieee.daysUntilMinLevelOf q m d ≠ .nan := by
  rw [ieee_ofInt_zero] at hd
  have h60' := (ieee_lt_ne_nan h60).2
  unfold Ieee.daysUntilShortageOf at h60 h60'
  rw [ofInt_eq 60 (by norm_num)] at h60
  unfold Ieee.daysUntilMinLevelOf
  apply ieee_ceil_ne_nan
  cases d with
  | nan => simp [Ieee.Number.lt] at hd
  | negInf => simp [Ieee.Number.lt] at hd
  | posInf =>
    exfalso
    cases q with
    | finite c =>
      have h0 : (60 : Int) * (Ieee.scale : Int) > 0 := by
        have := scale_pos
        positivity
      simp only [Ieee.Number.div, Ieee.Number.ceil, Ieee.Number.lt, neg_zero, Int.zero_ediv,
        zero_mul, decide_eq_true_eq] at h60
      omega
    | posInf => simp [Ieee.Number.div, Ieee.Number.ceil] at h60'
    | negInf => simp [Ieee.Number.div, Ieee.Number.ceil] at h60'
    | nan => simp [Ieee.Number.div, Ieee.Number.ceil] at h60'
  | finite dv =>
    simp only [Ieee.Number.lt, decide_eq_true_eq] at hd
    have hdv : dv ≠ 0 := by omega
    cases q with
    | nan => simp [Ieee.Number.div, Ieee.Number.ceil] at h60'
    | negInf =>
      simp only [Ieee.Number.div, hd.le, if_true, Ieee.Number.ceil, Ieee.Number.lt,
        Bool.false_eq_true] at h60
    | posInf =>
      cases m with
      | nan => exact absurd rfl hm
      | posInf => exact absurd ⟨rfl, rfl⟩ hinf
      | negInf =>
        simp [Ieee.Number.sub, Ieee.Number.neg, Ieee.Number.add, Ieee.Number.div, hd.le]
      | finite mv =>
        simp [Ieee.Number.sub, Ieee.Number.neg, Ieee.Number.add, Ieee.Number.div, hd.le]
    | finite c =>
      cases m with
      | nan => exact absurd rfl hm
      | posInf =>
        simp [Ieee.Number.sub, Ieee.Number.neg, Ieee.Number.add, Ieee.Number.div, hd.le]
      | negInf =>
        simp [Ieee.Number.sub, Ieee.Number.neg, Ieee.Number.add, Ieee.Number.div, hd.le]
      | finite mv =>
        simp only [Ieee.Number.sub, Ieee.Number.neg, Ieee.Number.add]
        cases hr : Ieee.roundUnits (c + -mv) 1 with
        | nan => exact absurd hr (ieee_roundUnits_ne_nan _ _)
        | posInf => simp [Ieee.Number.div, hd.le]
        | negInf => simp [Ieee.Number.div, hd.le]
        | finite r =>
          simp only [Ieee.Number.div, hdv, if_false, hd, if_true]
          exact ieee_roundUnits_ne_nan _ _

set_option maxRecDepth 100000 in
/-- C18, as stated, fails at a stock record whose quantity and whose product's minimum
stock level are both +Infinity, the number a JSON literal such as 1e999 denotes and the
validators `min` accept.  With one delivery of 13 units three days ago the daily demand
is positive, `daysUntilShortage` is +Infinity, above 60, and `daysUntilMinLevel` is the
ceiling of (Infinity - Infinity) / demand, which is NaN: `forecastDemand` returns no
forecast, although `daysUntilMinLevel > 21` is false. -/
theorem suppressed_without_days_until_min_level :
    (Ieee.ofInt 0).lt
        (Ieee.demandOf [Ieee.deliveryOn 1 97 1 (Ieee.ofInt 13)] day100
          (Ieee.stockOf (some .posInf) .posInf) sampleWarehouse) = true ∧
    Ieee.daysUntilShortageOf .posInf
        (Ieee.demandOf [Ieee.deliveryOn 1 97 1 (Ieee.ofInt 13)] day100
          (Ieee.stockOf (some .posInf) .posInf) sampleWarehouse) = .posInf ∧
    (Ieee.ofInt 60).lt .posInf = true ∧
    Ieee.daysUntilMinLevelOf .posInf (Ieee.minLevelOf (Ieee.stockOf (some .posInf) .posInf))
        (Ieee.demandOf [Ieee.deliveryOn 1 97 1 (Ieee.ofInt 13)] day100
          (Ieee.stockOf (some .posInf) .posInf) sampleWarehouse) = .nan ∧
    (Ieee.ofInt 21).lt .nan = false ∧
    Ieee.forecastDemand [Ieee.deliveryOn 1 97 1 (Ieee.ofInt 13)] day100
      (Ieee.stockOf (some .posInf) .posInf) = none := by
  refine ⟨by decide, by decide, by decide, by decide, by decide, by decide⟩

/-- C18 (amended): when the daily demand is positive and the quantity and the minimum
stock level are not both +Infinity, `forecastDemand` returns no forecast exactly when
`daysUntilShortage > 60` and `daysUntilMinLevel > 21`, the two being the ceilings of
quantity / demand and of (quantity - minimum level) / demand as the source computes
them, in double arithmetic; and the three-part test of the source (not within 45 days,
no reorder within 21 days, more than 60 days) says the same. -/
theorem forecastDemand_suppressed_iff_computed (transactions : List Ieee.Transaction)
    (now : Nat) (stock : Ieee.PopulatedStock) (w : Warehouse)
    (hw : stock.warehouse = some w)
    (hd : (Ieee.ofInt 0).lt (Ieee.demandOf transactions now stock w) = true)
    (hinf : ¬ (stock.quantity = .posInf ∧ Ieee.minLevelOf stock = .posInf)) :
    (Ieee.forecastDemand transactions now stock = none ↔
      ((Ieee.ofInt 60).lt
          (Ieee.daysUntilShortageOf stock.quantity (Ieee.demandOf transactions now stock w))
          = true ∧
       (Ieee.ofInt 21).lt
          (Ieee.daysUntilMinLevelOf stock.quantity (Ieee.minLevelOf stock)
            (Ieee.demandOf transactions now stock w)) = true)) ∧
    (((Ieee.daysUntilShortageOf stock.quantity (Ieee.demandOf transactions now stock w)).le
          (Ieee.ofInt 45) = false ∧
      (Ieee.daysUntilMinLevelOf stock.quantity (Ieee.minLevelOf stock)
          (Ieee.demandOf transactions now stock w)).le (Ieee.ofInt 21) = false ∧
      (Ieee.ofInt 60).lt
          (Ieee.daysUntilShortageOf stock.quantity (Ieee.demandOf transactions now stock w))
          = true) ↔
      ((Ieee.ofInt 60).lt
          (Ieee.daysUntilShortageOf stock.quantity (Ieee.demandOf transactions now stock w))
          = true ∧
       (Ieee.ofInt 21).lt
          (Ieee.daysUntilMinLevelOf stock.quantity (Ieee.minLevelOf stock)
            (Ieee.demandOf transactions now stock w)) = true)) := by
  have key :
      ((Ieee.daysUntilShortageOf stock.quantity (Ieee.demandOf transactions now stock w)).le
            (Ieee.ofInt 45) = false ∧
        (Ieee.daysUntilMinLevelOf stock.quantity (Ieee.minLevelOf stock)
            (Ieee.demandOf transactions now stock w)).le (Ieee.ofInt 21) = false ∧
        (Ieee.ofInt 60).lt
            (Ieee.daysUntilShortageOf stock.quantity (Ieee.demandOf transactions now stock w))
            = true) ↔
        ((Ieee.ofInt 60).lt
            (Ieee.daysUntilShortageOf stock.quantity (Ieee.demandOf transactions now stock w))
            = true ∧
         (Ieee.ofInt 21).lt
            (Ieee.daysUntilMinLevelOf stock.quantity (Ieee.minLevelOf stock)
              (Ieee.demandOf transactions now stock w)) = true) := by
    constructor
    · rintro ⟨_, h2, h3⟩
      have hnan := ieee_daysUntilMinLevel_ne_nan stock.quantity (Ieee.minLevelOf stock)
        (Ieee.demandOf transactions now stock w) (ieee_orDefault_ne_nan _ 0) hd h3 hinf
      rw [ieee_le_eq_not_lt hnan (ieee_ofInt_ne_nan 21)] at h2
      exact ⟨h3, by simpa using h2⟩
    · rintro ⟨h1, h2⟩
      have h45 : (Ieee.ofInt 45).lt
          (Ieee.daysUntilShortageOf stock.quantity (Ieee.demandOf transactions now stock w))
          = true := by
        rw [ofInt_eq 60 (by norm_num)] at h1
        rw [ofInt_eq 45 (by norm_num)]
        exact ieee_lt_trans_finite
          (Int.mul_le_mul_of_nonneg_right (by norm_num) (Int.ofNat_nonneg _)) h1
      refine ⟨?_, ?_, h1⟩
      · rw [ieee_le_eq_not_lt (ieee_lt_ne_nan h1).2 (ieee_ofInt_ne_nan 45), h45]
        rfl
      · rw [ieee_le_eq_not_lt (ieee_lt_ne_nan h2).2 (ieee_ofInt_ne_nan 21), h2]
        rfl
  refine ⟨?_, key⟩
  rw [ieee_forecastDemand_demand_path transactions now stock w hw hd,
    ieee_demandForecast_none_iff]
  exact key

set_option maxRecDepth 100000 in
theorem forecastDemand_suppressed_iff_computed_witness :
    (Ieee.stockOf none (Ieee.ofInt 260)).warehouse = some sampleWarehouse ∧
    Ieee.demandOf [Ieee.deliveryOn 1 97 1 (Ieee.ofInt 13)] day100
        (Ieee.stockOf none (Ieee.ofInt 260)) sampleWarehouse
      = (Ieee.ofInt 13).div (Ieee.ofInt 3) ∧
    Ieee.daysUntilShortageOf (Ieee.ofInt 260) ((Ieee.ofInt 13).div (Ieee.ofInt 3))
      = Ieee.ofInt 61 ∧
    Ieee.daysUntilMinLevelOf (Ieee.ofInt 260)
        (Ieee.minLevelOf (Ieee.stockOf none (Ieee.ofInt 260)))
        ((Ieee.ofInt 13).div (Ieee.ofInt 3)) = Ieee.ofInt 61 ∧
    Ieee.forecastDemand [Ieee.deliveryOn 1 97 1 (Ieee.ofInt 13)] day100
      (Ieee.stockOf none (Ieee.ofInt 260)) = none ∧
    (Ieee.forecastDemand [Ieee.deliveryOn 1 97 1 (Ieee.ofInt 13)] day100
        (Ieee.stockOf none (Ieee.ofInt 260)) = none ↔
      ((Ieee.ofInt 60).lt
          (Ieee.daysUntilShortageOf (Ieee.stockOf none (Ieee.ofInt 260)).quantity
            (Ieee.demandOf [Ieee.deliveryOn 1 97 1 (Ieee.ofInt 13)] day100
              (Ieee.stockOf none (Ieee.ofInt 260)) sampleWarehouse)) = true ∧
       (Ieee.ofInt 21).lt
          (Ieee.daysUntilMinLevelOf (Ieee.stockOf none (Ieee.ofInt 260)).quantity
            (Ieee.minLevelOf (Ieee.stockOf none (Ieee.ofInt 260)))
            (Ieee.demandOf [Ieee.deliveryOn 1 97 1 (Ieee.ofInt 13)] day100
              (Ieee.stockOf none (Ieee.ofInt 260)) sampleWarehouse)) = true)) :=
  ⟨rfl, by decide, by decide, by decide, by decide,
    (forecastDemand_suppressed_iff_computed [Ieee.deliveryOn 1 97 1 (Ieee.ofInt 13)] day100
      (Ieee.stockOf none (Ieee.ofInt 260)) sampleWarehouse rfl (by decide) (by decide)).1⟩

/-- The fields of the demand-based forecast. -/
theorem ieee_demandForecast_some (stock : Ieee.PopulatedStock)
    (minStockLevel dailyDemand : Ieee.Number) (count : Nat) (f : Ieee.Forecast)
    (hf : Ieee.demandForecast stock minStockLevel dailyDemand count = some f) :
    f.suggestedReorderQuantity
      = ((((dailyDemand.mul (Ieee.ofInt 30)).add minStockLevel).sub stock.quantity).ceil).max
          minStockLevel := by
  unfold Ieee.demandForecast at hf
  simp only [] at hf
  split_ifs at hf with hc h20 h5
  all_goals
    simp only [Option.some.injEq] at hf
    subst hf
    rfl

theorem ieee_max_not_lt (a m : Ieee.Number) : (a.max m).lt m = false := by
  by_cases ha : a = .nan
  · subst ha
    simp [Ieee.Number.max, Ieee.Number.lt]
  by_cases hm : m = .nan
  · subst hm
    cases a <;> simp [Ieee.Number.max, Ieee.Number.lt]
  have hmax : a.max m = if a.lt m then m else a := by
    cases a <;> cases m <;> simp_all [Ieee.Number.max]
  rw [hmax]
  split_ifs with h
  · exact ieee_lt_irrefl m
  · simpa using h

theorem ieee_max_ne_nan {a m : Ieee.Number} (h : a.max m ≠ .nan) : m ≠ .nan := by
  cases a <;> cases m <;> simp_all [Ieee.Number.max]

/-- C19: a demand-based forecast (positive daily demand, not suppressed) suggests
max(ceil(dailyDemand x 30 + minStockLevel - currentQuantity), minStockLevel), each
operation as the source computes it, in double arithmetic, with the daily demand as
computed, before it is rounded for display; so the suggestion is never below the
minimum stock level, and it is at least the minimum stock level whenever it is a
number. -/
theorem suggestedReorderQuantity_computed (transactions : List Ieee.Transaction) (now : Nat)
    (stock : Ieee.PopulatedStock) (w : Warehouse) (hw : stock.warehouse = some w)
    (hd : (Ieee.ofInt 0).lt (Ieee.demandOf transactions now stock w) = true)
    (f : Ieee.Forecast) (hf : Ieee.forecastDemand transactions now stock = some f) :
    f.suggestedReorderQuantity
      = (((((Ieee.demandOf transactions now stock w).mul (Ieee.ofInt 30)).add
            (Ieee.minLevelOf stock)).sub stock.quantity).ceil).max (Ieee.minLevelOf stock) ∧
    f.suggestedReorderQuantity.lt (Ieee.minLevelOf stock) = false ∧
    (f.suggestedReorderQuantity ≠ .nan →
      (Ieee.minLevelOf stock).le f.suggestedReorderQuantity = true) := by
  rw [ieee_forecastDemand_demand_path transactions now stock w hw hd] at hf
  have h := ieee_demandForecast_some stock _ _ _ f hf
  refine ⟨h, ?_, fun hnan => ?_⟩
  · rw [h]; exact ieee_max_not_lt _ _
  · have hm : Ieee.minLevelOf stock ≠ .nan := ieee_orDefault_ne_nan _ 0
    rw [ieee_le_eq_not_lt hm hnan, h, ieee_max_not_lt]
    rfl

set_option maxRecDepth 100000 in
theorem suggestedReorderQuantity_computed_witness :
    (Ieee.stockOf none (Ieee.ofInt 0)).warehouse = some sampleWarehouse ∧
    Ieee.demandOf [Ieee.deliveryOn 1 97 1 (Ieee.ofInt 25)] day100
        (Ieee.stockOf none (Ieee.ofInt 0)) sampleWarehouse
      = (Ieee.ofInt 25).div (Ieee.ofInt 3) ∧
    ((Ieee.ofInt 25).div (Ieee.ofInt 3)).mul (Ieee.ofInt 30)
      = Ieee.ofRat 25000000000000003 100000000000000 ∧
    (Ieee.forecastDemand [Ieee.deliveryOn 1 97 1 (Ieee.ofInt 25)] day100
        (Ieee.stockOf none (Ieee.ofInt 0))).map (fun f => f.suggestedReorderQuantity)
      = some (Ieee.ofInt 251) ∧
    ∃ f, Ieee.forecastDemand [Ieee.deliveryOn 1 97 1 (Ieee.ofInt 25)] day100
        (Ieee.stockOf none (Ieee.ofInt 0)) = some f ∧
      f.suggestedReorderQuantity
        = (((((Ieee.demandOf [Ieee.deliveryOn 1 97 1 (Ieee.ofInt 25)] day100
                (Ieee.stockOf none (Ieee.ofInt 0)) sampleWarehouse).mul (Ieee.ofInt 30)).add
              (Ieee.minLevelOf (Ieee.stockOf none (Ieee.ofInt 0)))).sub
              (Ieee.stockOf none (Ieee.ofInt 0)).quantity).ceil).max
            (Ieee.minLevelOf (Ieee.stockOf none (Ieee.ofInt 0))) :=
  ⟨rfl, by decide, by decide, by decide,
    (Option.isSome_iff_exists.mp
      (by decide : (Ieee.forecastDemand [Ieee.deliveryOn 1 97 1 (Ieee.ofInt 25)] day100
        (Ieee.stockOf none (Ieee.ofInt 0))).isSome = true)).elim fun f hf =>
      ⟨f, hf,
        (suggestedReorderQuantity_computed [Ieee.deliveryOn 1 97 1 (Ieee.ofInt 25)] day100
          (Ieee.stockOf none (Ieee.ofInt 0)) sampleWarehouse rfl (by decide) f hf).1⟩⟩

/-- The product of two whole numbers is exact when its magnitude is below 2^53. -/
theorem mul_exact (m n : Int) (h : (m * n).natAbs < 2 ^ 53) :
    (Ieee.Number.finite (m * (Ieee.scale : Int))).mul (.finite (n * (Ieee.scale : Int)))
      = .finite (m * n * (Ieee.scale : Int)) := by
  have := roundUnits_exact (m * n) Ieee.scale h scale_pos
  simp only [Ieee.Number.mul]
  rw [← this]
  congr 1
  ring

/-- The difference of two whole numbers is exact when its magnitude is below 2^53. -/
theorem sub_exact (m n : Int) (h : (m - n).natAbs < 2 ^ 53) :
    (Ieee.Number.finite (m * (Ieee.scale : Int))).sub (.finite (n * (Ieee.scale : Int)))
      = .finite ((m - n) * (Ieee.scale : Int)) := by
  unfold Ieee.Number.sub
  rw [ieee_neg_finite]
  have h' : (m + -n).natAbs < 2 ^ 53 := by rwa [← sub_eq_add_neg]
  rw [add_exact m (-n) h', ← sub_eq_add_neg]

theorem ieee_sums_foldl (points : List Ieee.Point) (s : Ieee.Sums) :
    (points.foldl
        (fun s point =>
          ({ sumX := s.sumX.add point.x, sumY := s.sumY.add point.y,
             sumXY := s.sumXY.add (point.x.mul point.y),
             sumXX := s.sumXX.add (point.x.mul point.x),
             sumYY := s.sumYY.add (point.y.mul point.y) } : Ieee.Sums)) s).sumX
      = points.foldl (fun (acc : Ieee.Number) point => acc.add point.x) s.sumX ∧
    (points.foldl
        (fun s point =>
          ({ sumX := s.sumX.add point.x, sumY := s.sumY.add point.y,
             sumXY := s.sumXY.add (point.x.mul point.y),
             sumXX := s.sumXX.add (point.x.mul point.x),
             sumYY := s.sumYY.add (point.y.mul point.y) } : Ieee.Sums)) s).sumXX
      = points.foldl (fun (acc : Ieee.Number) point => acc.add (point.x.mul point.x))
          s.sumXX := by
  induction points generalizing s with
  | nil => exact ⟨rfl, rfl⟩
  | cons p rest ih =>
    simp only [List.foldl_cons]
    exact ih _

/-- A run of additions of whole numbers is exact while the magnitudes stay below 2^53. -/
theorem ieee_foldl_add_exact (g : Ieee.Point → Ieee.Number) (f : Ieee.Point → Int)
    (points : List Ieee.Point) (a : Int)
    (hg : ∀ p ∈ points, g p = .finite (f p * (Ieee.scale : Int)))
    (hb : a.natAbs + (points.map (fun p => (f p).natAbs)).sum < 2 ^ 53) :
    points.foldl (fun (acc : Ieee.Number) p => acc.add (g p))
        (Ieee.Number.finite (a * (Ieee.scale : Int)))
      = .finite ((a + (points.map f).sum) * (Ieee.scale : Int)) := by
  induction points generalizing a with
  | nil => simp
  | cons p rest ih =>
    simp only [List.map_cons, List.sum_cons] at hb
    have hsum : (a + f p).natAbs < 2 ^ 53 :=
      lt_of_le_of_lt (Int.natAbs_add_le _ _) (by omega)
    simp only [List.foldl_cons, List.map_cons, List.sum_cons]
    rw [hg p (List.mem_cons_self _ _), add_exact _ _ hsum,
      ih (a + f p) (fun q hq => hg q (List.mem_cons_of_mem _ hq))
        (by have := Int.natAbs_add_le a (f p); omega)]
    congr 1
    ring

theorem cast_sum_map (points : List Ieee.Point) (f : Ieee.Point → Int) :
    (((points.map f).sum : Int) : ℚ) = (points.map (fun p => ((f p : Int) : ℚ))).sum := by
  induction points with
  | nil => simp
  | cons p rest ih => simp [ih]

theorem natAbs_le_sq (x : Int) : x.natAbs ≤ (x * x).natAbs := by
  rw [Int.natAbs_mul]
  rcases Nat.eq_zero_or_pos x.natAbs with h | h
  · rw [h]
  · exact Nat.le_mul_of_pos_left _ h

theorem sum_natAbs_le (points : List Ieee.Point) (f : Ieee.Point → Int) :
    (points.map (fun p => (f p).natAbs)).sum
      ≤ ((points.map (fun p => f p * f p)).sum).natAbs := by
  have key : ∀ l : List Ieee.Point,
      (((l.map (fun p => (f p).natAbs)).sum : Nat) : Int) ≤ (l.map (fun p => f p * f p)).sum := by
    intro l
    induction l with
    | nil => simp
    | cons p rest ih =>
      simp only [List.map_cons, List.sum_cons, Nat.cast_add, Int.natCast_natAbs]
      have h1 : |f p| ≤ f p * f p := by
        rcases abs_cases (f p) with ⟨h, _⟩ | ⟨h, _⟩ <;> rw [h] <;> nlinarith
      linarith
  have := key points
  omega

theorem sum_sq_natAbs (points : List Ieee.Point) (f : Ieee.Point → Int) :
    (points.map (fun p => (f p * f p).natAbs)).sum
      = ((points.map (fun p => f p * f p)).sum).natAbs := by
  have key : ∀ l : List Ieee.Point,
      (((l.map (fun p => (f p * f p).natAbs)).sum : Nat) : Int)
        = (l.map (fun p => f p * f p)).sum := by
    intro l
    induction l with
    | nil => simp
    | cons p rest ih =>
      simp only [List.map_cons, List.sum_cons, Nat.cast_add, Int.natCast_natAbs]
      rw [ih, abs_of_nonneg (mul_self_nonneg _)]
  have := key points
  omega

theorem sq_le_sum_sq (points : List Ieee.Point) (f : Ieee.Point → Int) (p : Ieee.Point)
    (hp : p ∈ points) : f p * f p ≤ (points.map (fun p => f p * f p)).sum := by
  induction points with
  | nil => cases hp
  | cons q rest ih =>
    simp only [List.map_cons, List.sum_cons]
    have hnn : 0 ≤ (rest.map (fun p => f p * f p)).sum :=
      List.sum_nonneg (by
        intro x hx
        obtain ⟨y, _, rfl⟩ := List.mem_map.mp hx
        exact mul_self_nonneg _)
    rcases List.mem_cons.mp hp with rfl | h
    · linarith
    · have := ih h
      have := mul_self_nonneg (f q)
      linarith

/-! ## The divisor of the slope over JavaScript numbers -/

set_option maxRecDepth 100000 in
/-- C30, as stated, fails of the divisor the source computes, in all three parts.  Six
points sharing x = 0.1: the divisor is 2^-53, not 0, and the slope is the number 16.
Three points sharing x = 1.3: the divisor is negative.  Three points with x =
100000000, 100000001 and 100000002, all different: the divisor is 0 and the division
gives Infinity. -/
theorem slopeDenominator_rounds :
    (2 ≤ Ieee.pointsAtTenth.length ∧
      (∀ p ∈ Ieee.pointsAtTenth, ∀ q ∈ Ieee.pointsAtTenth, p.x = q.x) ∧
      Ieee.slopeDenominator Ieee.pointsAtTenth
        = Ieee.ofRat 1 9007199254740992 ∧
      Ieee.slopeDenominator Ieee.pointsAtTenth ≠ Ieee.ofInt 0 ∧
      Ieee.slope Ieee.pointsAtTenth = Ieee.ofInt 16) ∧
    (2 ≤ Ieee.pointsAtThirteenTenths.length ∧
      (∀ p ∈ Ieee.pointsAtThirteenTenths, ∀ q ∈ Ieee.pointsAtThirteenTenths, p.x = q.x) ∧
      (Ieee.slopeDenominator Ieee.pointsAtThirteenTenths).lt (Ieee.ofInt 0) = true) ∧
    (2 ≤ Ieee.pointsFarOut.length ∧
      (∃ p ∈ Ieee.pointsFarOut, ∃ q ∈ Ieee.pointsFarOut, p.x ≠ q.x) ∧
      Ieee.slopeDenominator Ieee.pointsFarOut = Ieee.ofInt 0 ∧
      Ieee.slope Ieee.pointsFarOut = .posInf) := by
  refine ⟨⟨by decide, by decide, by decide, by decide, by decide⟩,
    ⟨by decide, by decide, by decide⟩, by decide, by decide, by decide, by decide⟩

theorem ieee_div_zero_not_finite (a : Ieee.Number) (u : Int) :
    a.div (.finite 0) ≠ .finite u := by
  cases a with
  | nan => simp [Ieee.Number.div]
  | posInf => simp [Ieee.Number.div]
  | negInf => simp [Ieee.Number.div]
  | finite v =>
    simp only [Ieee.Number.div, if_true]
    split_ifs <;> simp

/-- The divisor of the slope over exact rationals, for whole x values. -/
theorem slopeDenominator_of_whole (points : List Ieee.Point) :
    slopeDenominator (points.map (fun p => ({ x := ((p.x.toInt : Int) : ℚ), y := 0 } : Point)))
      = (((points.length : Int) * (points.map (fun p => p.x.toInt * p.x.toInt)).sum
          - (points.map (fun p => p.x.toInt)).sum * (points.map (fun p => p.x.toInt)).sum
          : Int) : ℚ) := by
  unfold slopeDenominator
  rw [sums_eq]
  simp only [List.length_map, List.map_map]
  push_cast
  simp [List.map_map, Function.comp_def]

/-- C30 (amended): for every list of n >= 2 points whose x values are whole numbers with
n (1 + sum of x squared) below 2^53, the divisor of the slope that the source computes,
n * sumXX - sumX * sumX in double arithmetic, is exact: it is the whole number
n * (sum of x squared) - (sum of x) squared, it is at least 0, and it is 0 exactly when
all x values are equal.  So when two points differ in x the division is by a positive
number, and when all points share one x value the divisor is 0, the length check has let
the list through, and the slope is not a finite number. -/
theorem slopeDenominator_sign_computed (points : List Ieee.Point)
    (hn : 2 ≤ points.length)
    (hwhole : ∀ p ∈ points, p.x.isInteger = true)
    (hbound : (points.length : Int)
      * (1 + (points.map (fun p => p.x.toInt * p.x.toInt)).sum) < 2 ^ 53) :
    ((Ieee.slopeDenominator points).isInteger = true ∧
      (Ieee.slopeDenominator points).toInt
        = (points.length : Int) * (points.map (fun p => p.x.toInt * p.x.toInt)).sum
          - (points.map (fun p => p.x.toInt)).sum * (points.map (fun p => p.x.toInt)).sum) ∧
    (Ieee.ofInt 0).le (Ieee.slopeDenominator points) = true ∧
    (Ieee.slopeDenominator points = Ieee.ofInt 0 ↔ ∀ p ∈ points, ∀ q ∈ points, p.x = q.x) ∧
    ((∃ p ∈ points, ∃ q ∈ points, p.x ≠ q.x) →
      (Ieee.ofInt 0).lt (Ieee.slopeDenominator points) = true) ∧
    ((∀ p ∈ points, ∀ q ∈ points, p.x = q.x) →
      Ieee.slopeDenominator points = Ieee.ofInt 0 ∧ ∀ u, Ieee.slope points ≠ .finite u) := by
  obtain ⟨S1, hS1⟩ : ∃ S1, S1 = (points.map (fun p => p.x.toInt)).sum := ⟨_, rfl⟩
  obtain ⟨S2, hS2⟩ : ∃ S2, S2 = (points.map (fun p => p.x.toInt * p.x.toInt)).sum := ⟨_, rfl⟩
  rw [← hS1, ← hS2]
  rw [← hS2] at hbound
  have hx : ∀ p ∈ points, p.x = .finite (p.x.toInt * (Ieee.scale : Int)) :=
    fun p hp => ieee_finite_toInt (hwhole p hp)
  have hS2nn : 0 ≤ S2 := by
    rw [hS2]
    exact List.sum_nonneg (by
      intro x hx'
      obtain ⟨y, _, rfl⟩ := List.mem_map.mp hx'
      exact mul_self_nonneg _)
  have hnpos : (2 : Int) ≤ (points.length : Int) := by exact_mod_cast hn
  have hS2lt : S2 < 2 ^ 53 := by nlinarith
  have hnlt : (points.length : Int) < 2 ^ 53 := by nlinarith
  have hnS2 : (points.length : Int) * S2 < 2 ^ 53 := by nlinarith
  have hS2abs : S2.natAbs < 2 ^ 53 := by omega
  -- the exact divisor, through the rational model
  have hq := slopeDenominator_of_whole points
  rw [← hS1, ← hS2] at hq
  have hDnn : 0 ≤ (points.length : Int) * S2 - S1 * S1 := by
    have := slopeDenominator_nonneg
      (points.map (fun p => ({ x := ((p.x.toInt : Int) : ℚ), y := 0 } : Point)))
    rw [hq] at this
    exact_mod_cast this
  have hDzero : (points.length : Int) * S2 - S1 * S1 = 0
      ↔ ∀ p ∈ points, ∀ q ∈ points, p.x = q.x := by
    have := slopeDenominator_eq_zero_iff
      (points.map (fun p => ({ x := ((p.x.toInt : Int) : ℚ), y := 0 } : Point)))
    rw [hq] at this
    constructor
    · intro h0 p hp q hq'
      have h := this.mp (by exact_mod_cast h0) _ (List.mem_map.mpr ⟨p, hp, rfl⟩) _
        (List.mem_map.mpr ⟨q, hq', rfl⟩)
      simp only [Int.cast_inj] at h
      rw [hx p hp, hx q hq', h]
    · intro hall
      have : (((points.length : Int) * S2 - S1 * S1 : Int) : ℚ) = 0 := by
        apply this.mpr
        intro a ha b hb
        obtain ⟨p, hp, rfl⟩ := List.mem_map.mp ha
        obtain ⟨q, hq', rfl⟩ := List.mem_map.mp hb
        simp only [Int.cast_inj]
        rw [hall p hp q hq']
      exact_mod_cast this
  -- the sums the source computes
  have hsumX : (Ieee.sums points).sumX = .finite (S1 * (Ieee.scale : Int)) := by
    unfold Ieee.sums
    rw [(ieee_sums_foldl points _).1]
    have h0 : Ieee.Number.finite 0 = .finite ((0 : Int) * (Ieee.scale : Int)) := by simp
    simp only []
    rw [h0, ieee_foldl_add_exact (fun p => p.x) (fun p => p.x.toInt) points 0 hx
      (by
        have := sum_natAbs_le points (fun p => p.x.toInt)
        rw [← hS2] at this
        simp only [Int.natAbs_zero, zero_add]
        omega)]
    rw [zero_add, hS1]
  have hsq : ∀ p ∈ points,
      p.x.mul p.x = .finite (p.x.toInt * p.x.toInt * (Ieee.scale : Int)) := by
    intro p hp
    have hle : p.x.toInt * p.x.toInt ≤ S2 := by
      have := sq_le_sum_sq points (fun p => p.x.toInt) p hp
      rw [← hS2] at this
      exact this
    have hnn := mul_self_nonneg p.x.toInt
    conv_lhs => rw [hx p hp]
    exact mul_exact _ _ (by omega)
  have hsumXX : (Ieee.sums points).sumXX = .finite (S2 * (Ieee.scale : Int)) := by
    unfold Ieee.sums
    rw [(ieee_sums_foldl points _).2]
    have h0 : Ieee.Number.finite 0 = .finite ((0 : Int) * (Ieee.scale : Int)) := by simp
    simp only []
    rw [h0, ieee_foldl_add_exact (fun p => p.x.mul p.x) (fun p => p.x.toInt * p.x.toInt)
      points 0 hsq
      (by
        have := sum_sq_natAbs points (fun p => p.x.toInt)
        rw [← hS2] at this
        simp only [Int.natAbs_zero, zero_add]
        omega)]
    rw [zero_add, hS2]
  have hden : Ieee.slopeDenominator points
      = .finite (((points.length : Int) * S2 - S1 * S1) * (Ieee.scale : Int)) := by
    unfold Ieee.slopeDenominator
    rw [hsumX, hsumXX, ofInt_eq _ (by omega), mul_exact _ _ (by
        have : 0 ≤ (points.length : Int) * S2 := by positivity
        omega),
      mul_exact S1 S1 (by
        have := mul_self_nonneg S1
        omega),
      sub_exact _ _ (by
        have := mul_self_nonneg S1
        omega)]
  have hsc : (0 : Int) < (Ieee.scale : Int) := by exact_mod_cast scale_pos
  refine ⟨?_, ?_, ?_, ?_, ?_⟩
  · rw [hden]
    exact ⟨ieee_isInteger_finite _, toInt_finite _⟩
  · rw [hden, ieee_ofInt_zero]
    simp only [Ieee.Number.le, Ieee.Number.lt, Bool.not_eq_true', decide_eq_false_iff_not,
      not_lt]
    exact mul_nonneg hDnn hsc.le
  · rw [hden, ieee_ofInt_zero, ← hDzero]
    simp only [Ieee.Number.finite.injEq, mul_eq_zero]
    constructor
    · rintro (h | h)
      · exact h
      · omega
    · exact fun h => Or.inl h
  · rintro ⟨p, hp, q, hq', hne⟩
    have hD : 0 < (points.length : Int) * S2 - S1 * S1 := by
      rcases lt_or_eq_of_le hDnn with h | h
      · exact h
      · exact absurd (hDzero.mp h.symm p hp q hq') hne
    rw [hden, ieee_ofInt_zero]
    simp only [Ieee.Number.lt, decide_eq_true_eq]
    exact mul_pos hD hsc
  · intro hall
    have hD := hDzero.mpr hall
    have hden0 : Ieee.slopeDenominator points = .finite 0 := by
      rw [hden, hD, zero_mul]
    refine ⟨by rw [hden0, ieee_ofInt_zero], fun u => ?_⟩
    unfold Ieee.slope
    rw [hden0]
    exact ieee_div_zero_not_finite _ u

set_option maxRecDepth 100000 in
theorem slopeDenominator_sign_computed_witness :
    2 ≤ Ieee.pointsOnLine.length ∧
    (∀ p ∈ Ieee.pointsOnLine, p.x.isInteger = true) ∧
    (Ieee.pointsOnLine.length : Int)
      * (1 + (Ieee.pointsOnLine.map (fun p => p.x.toInt * p.x.toInt)).sum) < 2 ^ 53 ∧
    (∃ p ∈ Ieee.pointsOnLine, ∃ q ∈ Ieee.pointsOnLine, p.x ≠ q.x) ∧
    Ieee.slopeDenominator Ieee.pointsOnLine = Ieee.ofInt 6 ∧
    Ieee.slope Ieee.pointsOnLine = Ieee.ofInt 2 ∧
    (Ieee.ofInt 0).lt (Ieee.slopeDenominator Ieee.pointsOnLine) = true :=
  ⟨by decide, by decide, by decide, by decide, by decide, by decide,
    (slopeDenominator_sign_computed Ieee.pointsOnLine (by decide) (by decide)
      (by decide)).2.2.2.1 (by decide)⟩

end StockMaster
